import Mathlib

/-!
# Frame-resource ring, fence clock and per-frame constant updates

A shallow embedding of the frame loop shared by the Direct3D 12 samples
(`D3DApp::FlushCommandQueue`, the samples' `Update` and `Draw`), of the
dirty-counter loops of `LitColumnsApp` and of the instance-culling loop of
`InstancingAndCullingApp`; of the command lists the samples and
`BlurFilter::Execute` record; of the start-up of `InstancingAndCullingApp`
and the render items of `LitColumnsApp`; and of `GameTimer`,
`MathHelper::RandF`, `CubeRenderTarget` and the dirty flag of `Camera`.

Machine integers are naturals or integers; the 64-bit fence counter wraps
explicitly modulo `2 ^ 64`.
-/

namespace Luna

/-! ## Fence clock and frame-resource ring -/

/-- The ring depth, `constexpr int gNumFrameResources = 3`. -/
def gNumFrameResources : Nat := 3

/-- Number of values of a `UINT64`. -/
def UINT64_SIZE : Nat := 2 ^ 64

/-- Modelled from the spec: `FrameResource.h` is not among the sources. One
slot of the ring: `Fence` is its `UINT64 Fence` member, which the spec starts
at 0, meaning never submitted; `buffers` stands for the upload buffers of the
slot (which ones depends on the sample). -/
structure FrameResource (B : Type) where
  Fence : Nat
  buffers : B
deriving DecidableEq, Repr

/-- The part of a sample application that the frame loop reads and writes.

* `mCurrentFence`: the `UINT64` fence clock of `D3DApp`;
* `mFence`: the completed value of the fence object (`GetCompletedValue`);
* `mCommandQueue`: the values of the `Signal` commands the GPU has not yet
  retired, oldest first;
* `signalled`: every value passed to `mCommandQueue->Signal`, oldest first;
* `submitted`: the fence value recorded for every frame `Draw` has submitted,
  oldest first;
* `mFrameResources`, `mCurrFrameResource` (the slot pointed to, `none` for
  `nullptr`), `mCurrFrameResourceIndex` (an `int`): the ring;
* `scene`: the CPU-side data of the sample. -/
structure D3DApp (B S : Type) where
  mCurrentFence : Nat
  mFence : Nat
  mCommandQueue : List Nat
  signalled : List Nat
  submitted : List Nat
  mFrameResources : List (FrameResource B)
  mCurrFrameResource : Option Nat
  mCurrFrameResourceIndex : Int
  scene : S
deriving DecidableEq, Repr

/-- Indexing `std::array<_, gNumFrameResources>` with an `int`: defined only
inside the bounds. -/
def slotIndex (i : Int) : Option Nat :=
  if 0 ≤ i ∧ i < (gNumFrameResources : Int) then some i.toNat else none

/-- `SetEventOnCompletion(target, h); WaitForSingleObject(h, INFINITE)`: the
CPU blocks while the GPU retires queued `Signal` commands in order, each one
setting the completed value, until that value is at least `target`. The
result is the completed value and the queue at the earliest moment the wait
can return (what the GPU retires later is a `gpuStep`); `none` when the queue
runs dry first, in which case the wait never returns. -/
def waitForFence (target : Nat) : Nat → List Nat → Option (Nat × List Nat)
  | completed, [] => if target ≤ completed then some (completed, []) else none
  | completed, v :: q =>
    if target ≤ completed then some (completed, v :: q) else waitForFence target v q

/-- The test guarding the wait in `Update`:
`Fence != 0 && mFence->GetCompletedValue() < Fence`. -/
def mustWait (fence completed : Nat) : Bool :=
  fence != 0 && decide (completed < fence)

/-- The ring part of `Update`: advance the index (C++ `%` truncates, hence
`Int.tmod`), select the slot, wait for its fence if needed. Returns the new
index, the selected slot and the GPU side after the wait. -/
def acquire {B S : Type} (a : D3DApp B S) : Option (Int × Nat × FrameResource B × Nat × List Nat) :=
  let idx := Int.tmod (a.mCurrFrameResourceIndex + 1) (gNumFrameResources : Int)
  match slotIndex idx with
  | none => none
  | some j =>
    match a.mFrameResources[j]? with
    | none => none
    | some fr =>
      match (if mustWait fr.Fence a.mFence then waitForFence fr.Fence a.mFence a.mCommandQueue
             else some (a.mFence, a.mCommandQueue)) with
      | none => none
      | some (c, q) => some (idx, j, fr, c, q)

/-- The samples' `Update(gt)`: the ring part, then the sample's writes into the
selected slot's buffers (`upd`, which may also change the scene; `none` when a
write leaves its buffer). `input` is whatever the frame reads from outside. -/
def Update {I B S : Type} (upd : I → S → B → Option (S × B)) (input : I) (a : D3DApp B S) :
    Option (D3DApp B S) :=
  match acquire a with
  | none => none
  | some (idx, j, fr, c, q) =>
    match upd input a.scene fr.buffers with
    | none => none
    | some (sc, b) =>
      some { a with
        mCurrFrameResourceIndex := idx
        mCurrFrameResource := some j
        mFence := c
        mCommandQueue := q
        scene := sc
        mFrameResources := a.mFrameResources.set j { fr with buffers := b } }

/-- The submission step that ends the samples' `Draw(gt)`: the recorded list is
executed, then `mCurrFrameResource->Fence = ++mCurrentFence` and
`mCommandQueue->Signal(mFence.Get(), mCurrentFence)`. -/
def Draw {B S : Type} (a : D3DApp B S) : Option (D3DApp B S) :=
  match a.mCurrFrameResource with
  | none => none
  | some j =>
    match a.mFrameResources[j]? with
    | none => none
    | some fr =>
      let f := (a.mCurrentFence + 1) % UINT64_SIZE
      some { a with
        mCurrentFence := f
        mFrameResources := a.mFrameResources.set j { fr with Fence := f }
        mCommandQueue := a.mCommandQueue ++ [f]
        signalled := a.signalled ++ [f]
        submitted := a.submitted ++ [f] }

/-- `D3DApp::FlushCommandQueue`. -/
def FlushCommandQueue {B S : Type} (a : D3DApp B S) : Option (D3DApp B S) :=
  let f := (a.mCurrentFence + 1) % UINT64_SIZE
  let q := a.mCommandQueue ++ [f]
  match (if a.mFence < f then waitForFence f a.mFence q else some (a.mFence, q)) with
  | none => none
  | some (c, q1) =>
    some { a with
      mCurrentFence := f
      mFence := c
      mCommandQueue := q1
      signalled := a.signalled ++ [f] }

/-- The GPU retires the oldest queued `Signal`, if there is one. -/
def gpuStep {B S : Type} (a : D3DApp B S) : D3DApp B S :=
  match a.mCommandQueue with
  | [] => a
  | v :: q => { a with mFence := v, mCommandQueue := q }

/-- What can happen next in a running sample. -/
inductive Event (I : Type) where
  | update (input : I)
  | draw
  | flush
  | gpu
deriving DecidableEq, Repr

/-- Whether the event is a call of `Update`. -/
def Event.isUpdate {I : Type} : Event I → Bool
  | .update _ => true
  | _ => false

/-- Whether the event increments the fence clock. -/
def Event.ticks {I : Type} : Event I → Bool
  | .draw => true
  | .flush => true
  | _ => false

/-- One event. -/
def step {I B S : Type} (upd : I → S → B → Option (S × B)) :
    Event I → D3DApp B S → Option (D3DApp B S)
  | .update input, a => Update upd input a
  | .draw, a => Draw a
  | .flush, a => FlushCommandQueue a
  | .gpu, a => some (gpuStep a)

/-- A sequence of events, oldest first; `none` when one of them does not return. -/
def run {I B S : Type} (upd : I → S → B → Option (S × B)) :
    List (Event I) → D3DApp B S → Option (D3DApp B S)
  | [], a => some a
  | e :: es, a => (step upd e a).bind (run upd es)

/-- The application once its frame resources are built: fence clock and fence
at 0 (`CreateFence(0, ...)`), nothing queued, every slot fresh with the same
buffers, index 0 and no slot selected. -/
def init {B S : Type} (b : B) (sc : S) : D3DApp B S :=
  { mCurrentFence := 0
    mFence := 0
    mCommandQueue := []
    signalled := []
    submitted := []
    mFrameResources := List.replicate gNumFrameResources ⟨0, b⟩
    mCurrFrameResource := none
    mCurrFrameResourceIndex := 0
    scene := sc }

/-- The loop of `D3DApp::Run`: `Update` and `Draw` alternate, a flush
(`OnResize`) happens only between frames, the GPU advances at any time.
`pending` says that `Update` has run and its `Draw` has not. -/
def frameLoop {I : Type} : Bool → List (Event I) → Bool
  | _, [] => true
  | pending, .update _ :: es => !pending && frameLoop true es
  | pending, .draw :: es => pending && frameLoop false es
  | pending, .flush :: es => !pending && frameLoop false es
  | pending, .gpu :: es => frameLoop pending es

/-- Whether `Update` has run and its `Draw` has not, after the events. -/
def pendingAfter {I : Type} : Bool → List (Event I) → Bool
  | pending, [] => pending
  | _, .update _ :: es => pendingAfter true es
  | _, .draw :: es => pendingAfter false es
  | _, .flush :: es => pendingAfter false es
  | pending, .gpu :: es => pendingAfter pending es

/-- The number of submitted frames whose fence value the GPU has not reached. -/
def inFlight {B S : Type} (a : D3DApp B S) : Nat :=
  (a.submitted.filter (fun v => decide (a.mFence < v))).length

/-- The `Fence` of the selected slot, `none` when no slot is selected. -/
def currFence {B S : Type} (a : D3DApp B S) : Option Nat :=
  match a.mCurrFrameResource with
  | none => none
  | some j => (a.mFrameResources[j]?).map FrameResource.Fence

/-- The `Fence` of slot `j`, `none` outside the ring. -/
def fenceAt {B S : Type} (a : D3DApp B S) (j : Nat) : Option Nat :=
  (a.mFrameResources[j]?).map FrameResource.Fence

/-- The slot an event submits: the one `mCurrFrameResource` points to when
the event is a `Draw`, none otherwise. -/
def submittedSlot {I B S : Type} (e : Event I) (a : D3DApp B S) : List Nat :=
  match e, a.mCurrFrameResource with
  | .draw, some j => [j]
  | _, _ => []

/-- The slots the calls of `Draw` among the events submit, oldest first. -/
def drawnSlots {I B S : Type} (upd : I → S → B → Option (S × B)) :
    List (Event I) → D3DApp B S → List Nat
  | [], _ => []
  | e :: es, a =>
    match step upd e a with
    | none => []
    | some a1 => submittedSlot e a ++ drawnSlots upd es a1

/-- The payload of a sample that writes nothing. -/
def noWrites : Unit → Unit → Unit → Option (Unit × Unit) := fun _ sc b => some (sc, b)

/-- Three frames and a flush (a resize) after the first, the GPU idle since the
flush. -/
def threeFrames : List (Event Unit) :=
  [.update (), .draw, .flush, .update (), .draw, .update (), .draw]

/-- The state `threeFrames` leads to from the start, for a sample without
buffers. -/
def afterThreeFrames : D3DApp Unit Unit :=
  { mCurrentFence := 4
    mFence := 2
    mCommandQueue := [3, 4]
    signalled := [1, 2, 3, 4]
    submitted := [1, 3, 4]
    mFrameResources := [⟨4, ()⟩, ⟨1, ()⟩, ⟨3, ()⟩]
    mCurrFrameResource := some 0
    mCurrFrameResourceIndex := 0
    scene := () }

/-- The fourth `Update`, from `afterThreeFrames`: slot 1 is free, no wait. -/
def fourthUpdate : D3DApp Unit Unit :=
  { afterThreeFrames with mCurrFrameResource := some 1, mCurrFrameResourceIndex := 1 }

/-- Three frames, the GPU idle. -/
def threeIdleFrames : List (Event Unit) :=
  [.update (), .draw, .update (), .draw, .update (), .draw]

/-- The state `threeIdleFrames` leads to from the start. -/
def afterThreeIdleFrames : D3DApp Unit Unit :=
  { mCurrentFence := 3
    mFence := 0
    mCommandQueue := [1, 2, 3]
    signalled := [1, 2, 3]
    submitted := [1, 2, 3]
    mFrameResources := [⟨3, ()⟩, ⟨1, ()⟩, ⟨2, ()⟩]
    mCurrFrameResource := some 0
    mCurrFrameResourceIndex := 0
    scene := () }

/-- Two frames, the GPU idle. -/
def twoFrames : List (Event Unit) := [.update (), .draw, .update (), .draw]

/-- The state `twoFrames` leads to from the start. -/
def afterTwoFrames : D3DApp Unit Unit :=
  { mCurrentFence := 2
    mFence := 0
    mCommandQueue := [1, 2]
    signalled := [1, 2]
    submitted := [1, 2]
    mFrameResources := [⟨0, ()⟩, ⟨1, ()⟩, ⟨2, ()⟩]
    mCurrFrameResource := some 2
    mCurrFrameResourceIndex := 2
    scene := () }

/-! ## Matrices, upload buffers, materials -/

/-- `DirectX::XMFLOAT4X4`, sixteen floats in row-major order. The float type
`F` is left open: the code below only copies and transposes. -/
structure XMFLOAT4X4 (F : Type) where
  m11 : F
  m12 : F
  m13 : F
  m14 : F
  m21 : F
  m22 : F
  m23 : F
  m24 : F
  m31 : F
  m32 : F
  m33 : F
  m34 : F
  m41 : F
  m42 : F
  m43 : F
  m44 : F
deriving DecidableEq, Repr

/-- `XMMatrixTranspose` (with the `XMLoadFloat4x4` before and the
`XMStoreFloat4x4` after, which copy). -/
def XMMatrixTranspose {F : Type} (m : XMFLOAT4X4 F) : XMFLOAT4X4 F :=
  { m11 := m.m11, m12 := m.m21, m13 := m.m31, m14 := m.m41
    m21 := m.m12, m22 := m.m22, m23 := m.m32, m24 := m.m42
    m31 := m.m13, m32 := m.m23, m33 := m.m33, m34 := m.m43
    m41 := m.m14, m42 := m.m24, m43 := m.m34, m44 := m.m44 }

/-- Modelled from the spec: `UploadBuffer.h` is not among the sources. An
upload buffer of a slot, sized to a fixed element count: `data` holds its
elements, `copies` lists the element indices of the `CopyData` calls made on
it so far, oldest first. -/
structure UploadBuffer (T : Type) where
  data : List T
  copies : List Nat
deriving DecidableEq, Repr

/-- Modelled from the spec: `UploadBuffer<T>::CopyData(elementIndex, data)`
rewrites the slice of element `elementIndex`; outside the buffer the copy is
undefined. -/
def UploadBuffer.CopyData {T : Type} (b : UploadBuffer T) (elementIndex : Nat) (d : T) :
    Option (UploadBuffer T) :=
  if elementIndex < b.data.length then
    some { data := b.data.set elementIndex d, copies := b.copies ++ [elementIndex] }
  else none

/-- The members of `Material` that the update loops read (the declaration,
in `d3dUtil.h`, is not among the sources). -/
structure Material (F : Type) where
  MatCBIndex : Nat
  DiffuseSrvHeapIndex : Nat
  NumFramesDirty : Int
  DiffuseAlbedo : F × F × F × F
  FresnelR0 : F × F × F
  Roughness : F
  MatTransform : XMFLOAT4X4 F
deriving DecidableEq, Repr

/-! ## LitColumnsApp (Chapter 9, exercise 6) -/

namespace LitColumns

/-- The fields of `RenderItem` read by `UpdateObjectCBs`. -/
structure RenderItem (F : Type) where
  World : XMFLOAT4X4 F
  TexTransform : XMFLOAT4X4 F
  NumFramesDirty : Int
  ObjCBIndex : Nat
deriving DecidableEq, Repr

structure ObjectConstants (F : Type) where
  World : XMFLOAT4X4 F
  TexTransform : XMFLOAT4X4 F
deriving DecidableEq, Repr

structure MaterialConstants (F : Type) where
  DiffuseAlbedo : F × F × F × F
  FresnelR0 : F × F × F
  Roughness : F
  MatTransform : XMFLOAT4X4 F
deriving DecidableEq, Repr

/-- The object constants `UpdateObjectCBs` builds for an item. -/
def objConstants {F : Type} (e : RenderItem F) : ObjectConstants F :=
  { World := XMMatrixTranspose e.World, TexTransform := XMMatrixTranspose e.TexTransform }

/-- The material constants `UpdateMaterialCBs` builds for a material. -/
def matConstants {F : Type} (mat : Material F) : MaterialConstants F :=
  { DiffuseAlbedo := mat.DiffuseAlbedo
    FresnelR0 := mat.FresnelR0
    Roughness := mat.Roughness
    MatTransform := XMMatrixTranspose mat.MatTransform }

/-- `LitColumnsApp::UpdateObjectCBs`, on the object buffer of the current slot
and `mAllRitems`. -/
def UpdateObjectCBs {F : Type} :
    UploadBuffer (ObjectConstants F) → List (RenderItem F) →
      Option (UploadBuffer (ObjectConstants F) × List (RenderItem F))
  | currObjectCB, [] => some (currObjectCB, [])
  | currObjectCB, e :: es =>
    if e.NumFramesDirty > 0 then
      match currObjectCB.CopyData e.ObjCBIndex (objConstants e) with
      | none => none
      | some cb =>
        match UpdateObjectCBs cb es with
        | none => none
        | some (cb1, es1) => some (cb1, { e with NumFramesDirty := e.NumFramesDirty - 1 } :: es1)
    else
      match UpdateObjectCBs currObjectCB es with
      | none => none
      | some (cb1, es1) => some (cb1, e :: es1)

/-- `LitColumnsApp::UpdateMaterialCBs`, on the material buffer of the current
slot and the materials of `mMaterials` in iteration order. -/
def UpdateMaterialCBs {F : Type} :
    UploadBuffer (MaterialConstants F) → List (Material F) →
      Option (UploadBuffer (MaterialConstants F) × List (Material F))
  | currMaterialCB, [] => some (currMaterialCB, [])
  | currMaterialCB, mat :: ms =>
    if mat.NumFramesDirty > 0 then
      match currMaterialCB.CopyData mat.MatCBIndex (matConstants mat) with
      | none => none
      | some cb =>
        match UpdateMaterialCBs cb ms with
        | none => none
        | some (cb1, ms1) => some (cb1, { mat with NumFramesDirty := mat.NumFramesDirty - 1 } :: ms1)
    else
      match UpdateMaterialCBs currMaterialCB ms with
      | none => none
      | some (cb1, ms1) => some (cb1, mat :: ms1)

/-- The CPU-side scene of the sample. -/
structure Scene (F : Type) where
  mAllRitems : List (RenderItem F)
  mMaterials : List (Material F)

/-- The object and material buffers of a slot (the pass buffer, which
`UpdateMainPassCB` alone writes, is left out). -/
structure Buffers (F : Type) where
  ObjectCB : UploadBuffer (ObjectConstants F)
  MaterialCB : UploadBuffer (MaterialConstants F)

/-- The writes of `LitColumnsApp::Update` after the wait: `AnimateMaterials`
(empty), `UpdateObjectCBs`, `UpdateMaterialCBs`. -/
def updateCBs {F : Type} : Unit → Scene F → Buffers F → Option (Scene F × Buffers F) :=
  fun _ sc b =>
    match UpdateObjectCBs b.ObjectCB sc.mAllRitems with
    | none => none
    | some (ocb, items) =>
      match UpdateMaterialCBs b.MaterialCB sc.mMaterials with
      | none => none
      | some (mcb, mats) =>
        some ({ mAllRitems := items, mMaterials := mats }, { ObjectCB := ocb, MaterialCB := mcb })

end LitColumns

/-! ## InstancingAndCullingApp (Chapter 16, exercise 1) -/

/-- `DirectX::ContainmentType`. -/
inductive ContainmentType where
  | DISJOINT
  | INTERSECTS
  | CONTAINS
deriving DecidableEq, Repr

/-- The DirectXMath and DirectXCollision routines `UpdateInstanceData` calls,
for a float type `F`, a frustum type and a sphere type. They are library code
and stay parameters. -/
structure DirectXMath (F Frustum Sphere : Type) where
  XMMatrixInverse : XMFLOAT4X4 F → XMFLOAT4X4 F
  XMMatrixMultiply : XMFLOAT4X4 F → XMFLOAT4X4 F → XMFLOAT4X4 F
  Transform : Frustum → XMFLOAT4X4 F → Frustum
  Contains : Frustum → Sphere → ContainmentType

namespace Instancing

/-- `InstanceData` (FrameResource.h of the sample). -/
structure InstanceData (F : Type) where
  World : XMFLOAT4X4 F
  TexTransform : XMFLOAT4X4 F
  MaterialIndex : Nat
deriving DecidableEq, Repr

/-- `MaterialData` (FrameResource.h of the sample). -/
structure MaterialData (F : Type) where
  DiffuseAlbedo : F × F × F × F
  FresnelR0 : F × F × F
  Roughness : F
  MatTransform : XMFLOAT4X4 F
  DiffuseMapIndex : Nat
deriving DecidableEq, Repr

/-- The fields of `RenderItem` used by `UpdateInstanceData` and
`DrawRenderItems`. -/
structure RenderItem (F Sphere : Type) where
  Bounds : Sphere
  Instances : List (InstanceData F)
  IndexCount : Nat
  VisibleInstanceCount : Nat
  StartIndexLocation : Nat
  BaseVertexLocation : Int

/-- The frustum `UpdateInstanceData` tests an instance against: the camera
frustum moved into the local space of the instance by
`XMMatrixMultiply(invView, invWorld)`. -/
def localSpaceFrustum {F Frustum Sphere : Type} (dx : DirectXMath F Frustum Sphere)
    (invView : XMFLOAT4X4 F) (mCamFrustum : Frustum) (instData : InstanceData F) : Frustum :=
  let world := instData.World
  let invWorld := dx.XMMatrixInverse world
  let viewToLocal := dx.XMMatrixMultiply invView invWorld
  dx.Transform mCamFrustum viewToLocal

/-- The condition of the `if` in `UpdateInstanceData`:
`(localSpaceFrustum.Contains(ritem->Bounds) != DirectX::DISJOINT) ||
(mFrustumCullingEnabled == false)`. -/
def visibilityTest {F Frustum Sphere : Type} (dx : DirectXMath F Frustum Sphere)
    (invView : XMFLOAT4X4 F) (mCamFrustum : Frustum) (mFrustumCullingEnabled : Bool)
    (bounds : Sphere) (instData : InstanceData F) : Bool :=
  (dx.Contains (localSpaceFrustum dx invView mCamFrustum instData) bounds != ContainmentType.DISJOINT)
    || (mFrustumCullingEnabled == false)

/-- The entry written for a surviving instance. -/
def instanceEntry {F : Type} (instData : InstanceData F) : InstanceData F :=
  { World := XMMatrixTranspose instData.World
    TexTransform := XMMatrixTranspose instData.TexTransform
    MaterialIndex := instData.MaterialIndex }

/-- The inner loop of `UpdateInstanceData` over the instances of one item,
from the running `visibleInstanceCount` (an `int` that only counts up from 0,
so a natural number here). -/
def instanceLoop {F Frustum Sphere : Type} (dx : DirectXMath F Frustum Sphere)
    (invView : XMFLOAT4X4 F) (mCamFrustum : Frustum) (mFrustumCullingEnabled : Bool)
    (bounds : Sphere) :
    UploadBuffer (InstanceData F) → Nat → List (InstanceData F) →
      Option (UploadBuffer (InstanceData F) × Nat)
  | currInstanceBuffer, visibleInstanceCount, [] => some (currInstanceBuffer, visibleInstanceCount)
  | currInstanceBuffer, visibleInstanceCount, instData :: rest =>
    if visibilityTest dx invView mCamFrustum mFrustumCullingEnabled bounds instData then
      match currInstanceBuffer.CopyData visibleInstanceCount (instanceEntry instData) with
      | none => none
      | some buf =>
        instanceLoop dx invView mCamFrustum mFrustumCullingEnabled bounds buf
          (visibleInstanceCount + 1) rest
    else
      instanceLoop dx invView mCamFrustum mFrustumCullingEnabled bounds currInstanceBuffer
        visibleInstanceCount rest

/-- The body of the outer loop of `UpdateInstanceData` for one render item. -/
def updateItem {F Frustum Sphere : Type} (dx : DirectXMath F Frustum Sphere)
    (invView : XMFLOAT4X4 F) (mCamFrustum : Frustum) (mFrustumCullingEnabled : Bool)
    (currInstanceBuffer : UploadBuffer (InstanceData F)) (ritem : RenderItem F Sphere) :
    Option (UploadBuffer (InstanceData F) × RenderItem F Sphere) :=
  match instanceLoop dx invView mCamFrustum mFrustumCullingEnabled ritem.Bounds
      currInstanceBuffer 0 ritem.Instances with
  | none => none
  | some (buf, visibleInstanceCount) =>
    some (buf, { ritem with VisibleInstanceCount := visibleInstanceCount })

/-- `InstancingAndCullingApp::UpdateInstanceData`, on the instance buffer of
the current slot and `mAllRitems`; `view` is `mCamera.GetView()`. -/
def UpdateInstanceData {F Frustum Sphere : Type} (dx : DirectXMath F Frustum Sphere)
    (view : XMFLOAT4X4 F) (mCamFrustum : Frustum) (mFrustumCullingEnabled : Bool) :
    UploadBuffer (InstanceData F) → List (RenderItem F Sphere) →
      Option (UploadBuffer (InstanceData F) × List (RenderItem F Sphere))
  | currInstanceBuffer, [] => some (currInstanceBuffer, [])
  | currInstanceBuffer, ritem :: rest =>
    match updateItem dx (dx.XMMatrixInverse view) mCamFrustum mFrustumCullingEnabled
        currInstanceBuffer ritem with
    | none => none
    | some (buf, ritem1) =>
      match UpdateInstanceData dx view mCamFrustum mFrustumCullingEnabled buf rest with
      | none => none
      | some (buf1, rest1) => some (buf1, ritem1 :: rest1)

/-- The material data `UpdateMaterialBuffer` builds for a material. -/
def matData {F : Type} (mat : Material F) : MaterialData F :=
  { DiffuseAlbedo := mat.DiffuseAlbedo
    FresnelR0 := mat.FresnelR0
    Roughness := mat.Roughness
    MatTransform := XMMatrixTranspose mat.MatTransform
    DiffuseMapIndex := mat.DiffuseSrvHeapIndex }

/-- `InstancingAndCullingApp::UpdateMaterialBuffer`, on the material buffer of
the current slot and the materials of `mMaterials` in iteration order. -/
def UpdateMaterialBuffer {F : Type} :
    UploadBuffer (MaterialData F) → List (Material F) →
      Option (UploadBuffer (MaterialData F) × List (Material F))
  | currMaterialBuffer, [] => some (currMaterialBuffer, [])
  | currMaterialBuffer, mat :: ms =>
    if mat.NumFramesDirty > 0 then
      match currMaterialBuffer.CopyData mat.MatCBIndex (matData mat) with
      | none => none
      | some buf =>
        match UpdateMaterialBuffer buf ms with
        | none => none
        | some (buf1, ms1) => some (buf1, { mat with NumFramesDirty := mat.NumFramesDirty - 1 } :: ms1)
    else
      match UpdateMaterialBuffer currMaterialBuffer ms with
      | none => none
      | some (buf1, ms1) => some (buf1, mat :: ms1)

/-- One `DrawIndexedInstanced` call. -/
structure DrawCall where
  IndexCountPerInstance : Nat
  InstanceCount : Nat
  StartIndexLocation : Nat
  BaseVertexLocation : Int
  StartInstanceLocation : Nat
deriving DecidableEq, Repr

/-- The `DrawIndexedInstanced` calls `DrawRenderItems` records, one per item. -/
def DrawRenderItems {F Sphere : Type} (ritems : List (RenderItem F Sphere)) : List DrawCall :=
  ritems.map fun ri =>
    { IndexCountPerInstance := ri.IndexCount
      InstanceCount := ri.VisibleInstanceCount
      StartIndexLocation := ri.StartIndexLocation
      BaseVertexLocation := ri.BaseVertexLocation
      StartInstanceLocation := 0 }

/-- The CPU-side scene of the sample. -/
structure Scene (F Frustum Sphere : Type) where
  mAllRitems : List (RenderItem F Sphere)
  mMaterials : List (Material F)
  mFrustumCullingEnabled : Bool
  mCamFrustum : Frustum

/-- The instance and material buffers of a slot (the pass buffer is left out). -/
structure Buffers (F : Type) where
  InstanceBuffer : UploadBuffer (InstanceData F)
  MaterialBuffer : UploadBuffer (MaterialData F)

/-- What a frame reads from outside: whether keys 1 and 2 are down, and the
view matrix of the camera once `OnKeyboardInput` has moved it. -/
structure Input (F : Type) where
  key1 : Bool
  key2 : Bool
  view : XMFLOAT4X4 F

/-- The culling switch after `OnKeyboardInput`. -/
def cullingAfterKeys (key1 key2 enabled : Bool) : Bool :=
  let enabled1 := if key1 then true else enabled
  if key2 then false else enabled1

/-- The scene and buffer writes of `InstancingAndCullingApp::Update`:
`OnKeyboardInput` (which touches neither the ring nor the fence),
`AnimateMaterials` (empty), `UpdateInstanceData`, `UpdateMaterialBuffer`. -/
def updateBuffers {F Frustum Sphere : Type} (dx : DirectXMath F Frustum Sphere) :
    Input F → Scene F Frustum Sphere → Buffers F → Option (Scene F Frustum Sphere × Buffers F) :=
  fun input sc b =>
    let culling := cullingAfterKeys input.key1 input.key2 sc.mFrustumCullingEnabled
    match UpdateInstanceData dx input.view sc.mCamFrustum culling b.InstanceBuffer sc.mAllRitems with
    | none => none
    | some (ibuf, items) =>
      match UpdateMaterialBuffer b.MaterialBuffer sc.mMaterials with
      | none => none
      | some (mbuf, mats) =>
        some ({ sc with mAllRitems := items, mMaterials := mats, mFrustumCullingEnabled := culling },
              { InstanceBuffer := ibuf, MaterialBuffer := mbuf })

end Instancing

/-! ## Matrices in exact arithmetic, the instance grid, written ranges -/

/-- The matrix an `XMFLOAT4X4` stands for: row `i`, column `j`. -/
def XMFLOAT4X4.toMatrix {F : Type} (m : XMFLOAT4X4 F) : Matrix (Fin 4) (Fin 4) F :=
  !![m.m11, m.m12, m.m13, m.m14;
     m.m21, m.m22, m.m23, m.m24;
     m.m31, m.m32, m.m33, m.m34;
     m.m41, m.m42, m.m43, m.m44]

/-- The `XMFLOAT4X4` that stores a matrix. -/
def XMFLOAT4X4.ofMatrix {F : Type} (A : Matrix (Fin 4) (Fin 4) F) : XMFLOAT4X4 F :=
  { m11 := A 0 0, m12 := A 0 1, m13 := A 0 2, m14 := A 0 3
    m21 := A 1 0, m22 := A 1 1, m23 := A 1 2, m24 := A 1 3
    m31 := A 2 0, m32 := A 2 1, m33 := A 2 2, m34 := A 2 3
    m41 := A 3 0, m42 := A 3 1, m43 := A 3 2, m44 := A 3 3 }

/-- `XMMatrixTranslation`. -/
def XMMatrixTranslation {F : Type} [Zero F] [One F] (x y z : F) : XMFLOAT4X4 F :=
  { m11 := 1, m12 := 0, m13 := 0, m14 := 0
    m21 := 0, m22 := 1, m23 := 0, m24 := 0
    m31 := 0, m32 := 0, m33 := 1, m34 := 0
    m41 := x, m42 := y, m43 := z, m44 := 1 }

/-- `XMMatrixScaling`. -/
def XMMatrixScaling {F : Type} [Zero F] [One F] (sx sy sz : F) : XMFLOAT4X4 F :=
  { m11 := sx, m12 := 0, m13 := 0, m14 := 0
    m21 := 0, m22 := sy, m23 := 0, m24 := 0
    m31 := 0, m32 := 0, m33 := sz, m34 := 0
    m41 := 0, m42 := 0, m43 := 0, m44 := 1 }

namespace Instancing

/-- The matrix `viewToLocal` of `UpdateInstanceData`:
`XMMatrixMultiply(invView, invWorld)` with `invWorld` the `XMMatrixInverse`
of the world matrix of the instance. `localSpaceFrustum` transforms the
camera frustum by it. -/
def viewToLocal {F Frustum Sphere : Type} (dx : DirectXMath F Frustum Sphere)
    (invView : XMFLOAT4X4 F) (instData : InstanceData F) : XMFLOAT4X4 F :=
  let world := instData.World
  let invWorld := dx.XMMatrixInverse world
  dx.XMMatrixMultiply invView invWorld

/-- The two matrix routines in exact arithmetic over a field:
`XMMatrixInverse` is the adjugate over the determinant and
`XMMatrixMultiply(M1, M2)` is the product `M1 * M2`. The frustum routines
stay parameters. -/
def exactDX {F Frustum Sphere : Type} [Field F] (Transform : Frustum → XMFLOAT4X4 F → Frustum)
    (Contains : Frustum → Sphere → ContainmentType) : DirectXMath F Frustum Sphere :=
  { XMMatrixInverse := fun m => XMFLOAT4X4.ofMatrix ((m.toMatrix.det)⁻¹ • m.toMatrix.adjugate)
    XMMatrixMultiply := fun m1 m2 => XMFLOAT4X4.ofMatrix (m1.toMatrix * m2.toMatrix)
    Transform := Transform
    Contains := Contains }

/-- The index ranges one call of `UpdateInstanceData` writes, one list per
render item in the order of `mAllRitems`: for each item, the element indices
its pass appends to the `copies` log of the instance buffer. -/
def writtenRanges {F Frustum Sphere : Type} (dx : DirectXMath F Frustum Sphere)
    (view : XMFLOAT4X4 F) (mCamFrustum : Frustum) (mFrustumCullingEnabled : Bool) :
    UploadBuffer (InstanceData F) → List (RenderItem F Sphere) → Option (List (List Nat))
  | _, [] => some []
  | currInstanceBuffer, ritem :: rest =>
    match updateItem dx (dx.XMMatrixInverse view) mCamFrustum mFrustumCullingEnabled
        currInstanceBuffer ritem with
    | none => none
    | some (buf, _) =>
      match writtenRanges dx view mCamFrustum mFrustumCullingEnabled buf rest with
      | none => none
      | some ranges => some (buf.copies.drop currInstanceBuffer.copies.length :: ranges)

/-- The instance the loops of `BuildRenderItems` store at
`index = k * n * n + i * n + j`. The floats involved (`x = -0.5f * width`,
`dx = width / (n - 1)` and `x + j * dx` for `j < 5`) are small integers,
which float arithmetic computes exactly, so the matrices are given over the
integers. `numMaterials` is `mMaterials.size()`. -/
def gridInstance (numMaterials : Nat) (k i j : Nat) : InstanceData Int :=
  let n : Nat := 5
  let width : Int := 200
  let height : Int := 200
  let depth : Int := 200
  let x : Int := -width / 2
  let y : Int := -height / 2
  let z : Int := -depth / 2
  let dx : Int := width / (n - 1 : Nat)
  let dy : Int := height / (n - 1 : Nat)
  let dz : Int := depth / (n - 1 : Nat)
  let index := k * n * n + i * n + j
  { World :=
      { m11 := 1, m12 := 0, m13 := 0, m14 := 0
        m21 := 0, m22 := 1, m23 := 0, m24 := 0
        m31 := 0, m32 := 0, m33 := 1, m34 := 0
        m41 := x + j * dx, m42 := y + i * dy, m43 := z + k * dz, m44 := 1 }
    TexTransform := XMMatrixScaling 2 2 1
    MaterialIndex := index % numMaterials }

/-- The three nested loops of `BuildRenderItems` over `k`, `i`, `j`, each
storing into element `k * n * n + i * n + j` of `Instances`, which
`resize(mInstanceCount)` has filled with default instances. -/
def gridInstances (numMaterials : Nat) : List (InstanceData Int) :=
  let n : Nat := 5
  let mInstanceCount := n * n * n
  let resized : List (InstanceData Int) :=
    List.replicate mInstanceCount
      { World := XMMatrixScaling 1 1 1, TexTransform := XMMatrixScaling 1 1 1, MaterialIndex := 0 }
  (List.range n).foldl (fun instances k =>
    (List.range n).foldl (fun instances i =>
      (List.range n).foldl (fun instances j =>
        instances.set (k * n * n + i * n + j) (gridInstance numMaterials k i j))
        instances) instances) resized

/-- The element indices the three nested loops of `BuildRenderItems` assign,
in the order of the assignments. -/
def gridAssignments : List Nat :=
  let n : Nat := 5
  (List.range n).flatMap fun k =>
    (List.range n).flatMap fun i =>
      (List.range n).map fun j => k * n * n + i * n + j

/-- `InstancingAndCullingApp::BuildRenderItems`: `mAllRitems` afterwards, a
single render item whose draw arguments and bounds are those of the skull
submesh (read from a model file, so parameters here). -/
def BuildRenderItems {Sphere : Type} (Bounds : Sphere) (IndexCount StartIndexLocation : Nat)
    (BaseVertexLocation : Int) (numMaterials : Nat) : List (RenderItem Int Sphere) :=
  [ { Bounds := Bounds
      Instances := gridInstances numMaterials
      IndexCount := IndexCount
      VisibleInstanceCount := 0
      StartIndexLocation := StartIndexLocation
      BaseVertexLocation := BaseVertexLocation } ]

end Instancing

/-! ## BlurFilter (Chapter 13, blur demo) -/

/-- How a call ends that can stop before it returns a value. -/
inductive Outcome (α : Type) where
  | ok (value : α)
  | assertionFailed
  | undefinedConversion
  | lengthError
deriving DecidableEq, Repr

/-- The least `int`. -/
def INT_MIN : Int := -2147483648

/-- The greatest `int`. -/
def INT_MAX : Int := 2147483647

/-- The conversion `(int)x` of a floating-point value `x` that is the integer
`z`: the behaviour is undefined unless `z` can be represented in `int`. -/
def floatToInt (z : Int) : Option Int :=
  if INT_MIN ≤ z ∧ z ≤ INT_MAX then some z else none

namespace BlurFilter

/-- `BlurFilter::CalcGaussWeights`, in exact arithmetic over an ordered field
`F` in place of `float`. `expf` is the library exponential and
`MaxBlurRadius` the constant of `BlurFilter.h` (not among the sources); both
are parameters. The `assert` is checked. A negative radius makes
`2ull * blurRadius + 1` wrap to more elements than a vector can hold, so its
constructor throws. -/
def CalcGaussWeights {F : Type} [LinearOrderedField F] [FloorRing F] (expf : F → F)
    (MaxBlurRadius : Int) (sigma : F) : Outcome (List F) :=
  let twoSigma2 := 2 * sigma * sigma
  match floatToInt ⌈2 * sigma⌉ with
  | none => .undefinedConversion
  | some blurRadius =>
    if ¬ blurRadius ≤ MaxBlurRadius then .assertionFailed
    else if blurRadius < 0 then .lengthError
    else
      let weights : List F := (List.range (2 * blurRadius.toNat + 1)).map fun t : Nat =>
        let i : Int := (t : Int) - blurRadius
        let x : F := (i : F)
        expf (-x * x / twoSigma2)
      let weightSum : F := weights.foldl (fun weightSum w => weightSum + w) 0
      let weigthSumInverse : F := 1 / weightSum
      .ok (weights.map fun w => w * weigthSumInverse)

end BlurFilter

/-! ## Recorded command lists -/

/-- `D3D12_RESOURCE_STATE_COMMON` (the values are those of `d3d12.h`). -/
def D3D12_RESOURCE_STATE_COMMON : Nat := 0

/-- `D3D12_RESOURCE_STATE_PRESENT`, the same value as `COMMON`. -/
def D3D12_RESOURCE_STATE_PRESENT : Nat := 0

/-- `D3D12_RESOURCE_STATE_RENDER_TARGET`. -/
def D3D12_RESOURCE_STATE_RENDER_TARGET : Nat := 0x4

/-- `D3D12_RESOURCE_STATE_UNORDERED_ACCESS`. -/
def D3D12_RESOURCE_STATE_UNORDERED_ACCESS : Nat := 0x8

/-- `D3D12_RESOURCE_STATE_COPY_DEST`. -/
def D3D12_RESOURCE_STATE_COPY_DEST : Nat := 0x400

/-- `D3D12_RESOURCE_STATE_COPY_SOURCE`. -/
def D3D12_RESOURCE_STATE_COPY_SOURCE : Nat := 0x800

/-- `D3D12_RESOURCE_STATE_GENERIC_READ`, the union of the read states. -/
def D3D12_RESOURCE_STATE_GENERIC_READ : Nat := 0x1 ||| 0x2 ||| 0x40 ||| 0x80 ||| 0x200 ||| 0x800

/-- The GPU resources the recorded commands name. -/
inductive Resource where
  | swapChainBuffer (index : Nat)
  | depthStencilBuffer
  | mBlurMap0
  | mBlurMap1
  | mOutputBuffer
  | mReadBackBuffer
deriving DecidableEq, Repr

/-- A 32-bit root constant: an `int` or a `float`. -/
inductive RootConstant (F : Type) where
  | int (value : Int)
  | float (value : F)
deriving DecidableEq, Repr

/-- The pipeline states and descriptors the blur passes bind. -/
inductive BlurBinding where
  | horzBlurPSO
  | vertBlurPSO
  | mBlur0GpuSrv
  | mBlur0GpuUav
  | mBlur1GpuSrv
  | mBlur1GpuUav
deriving DecidableEq, Repr

/-- The calls on `ID3D12GraphicsCommandList` that the samples record, with
the arguments that tell them apart. -/
inductive Command (F : Type) where
  | RSSetViewports
  | RSSetScissorRects
  | ResourceBarrier (pResource : Resource) (StateBefore StateAfter : Nat)
  | OMSetRenderTargets (renderTarget depthStencil : Resource)
  | ClearRenderTargetView (renderTarget : Resource)
  | ClearDepthStencilView (depthStencil : Resource)
  | SetDescriptorHeaps
  | SetGraphicsRootSignature
  | SetGraphicsRootDescriptorTable (RootParameterIndex : Nat)
  | SetGraphicsRootConstantBufferView (RootParameterIndex : Nat)
  | SetGraphicsRootShaderResourceView (RootParameterIndex : Nat)
  | SetGraphicsRoot32BitConstants (RootParameterIndex : Nat) (pSrcData : List (RootConstant F))
      (DestOffsetIn32BitValues : Nat)
  | IASetVertexBuffers (StartSlot NumViews : Nat)
  | IASetIndexBuffer
  | IASetPrimitiveTopology
  | DrawIndexedInstanced (IndexCountPerInstance InstanceCount StartIndexLocation : Nat)
      (BaseVertexLocation : Int) (StartInstanceLocation : Nat)
  | DrawInstanced (VertexCountPerInstance InstanceCount StartVertexLocation
      StartInstanceLocation : Nat)
  | SetComputeRootSignature
  | SetComputeRoot32BitConstants (RootParameterIndex : Nat) (pSrcData : List (RootConstant F))
      (DestOffsetIn32BitValues : Nat)
  | SetPipelineState (pPipelineState : BlurBinding)
  | SetComputeRootDescriptorTable (RootParameterIndex : Nat) (BaseDescriptor : BlurBinding)
  | Dispatch (ThreadGroupCountX ThreadGroupCountY ThreadGroupCountZ : Nat)
  | CopyResource (pDstResource pSrcResource : Resource)
deriving DecidableEq, Repr

/-- Whether a command clears a view or draws. -/
def Command.isClearOrDraw {F : Type} : Command F → Bool
  | .ClearRenderTargetView _ => true
  | .ClearDepthStencilView _ => true
  | .DrawIndexedInstanced _ _ _ _ _ => true
  | .DrawInstanced _ _ _ _ => true
  | _ => false

/-- The transitions `(StateBefore, StateAfter)` the barriers of a command
list declare for one resource, in recording order. -/
def barriersOn {F : Type} (resource : Resource) : List (Command F) → List (Nat × Nat)
  | [] => []
  | .ResourceBarrier pResource StateBefore StateAfter :: rest =>
    if pResource = resource then (StateBefore, StateAfter) :: barriersOn resource rest
    else barriersOn resource rest
  | _ :: rest => barriersOn resource rest

/-- Where a chain of transitions `(StateBefore, StateAfter)` takes a
resource from a state: every transition must declare as `StateBefore` the
state the resource is in (the rule of Direct3D 12 for transition barriers),
else there is no consistent state. -/
def followTransitions : Nat → List (Nat × Nat) → Option Nat
  | state, [] => some state
  | state, (StateBefore, StateAfter) :: rest =>
    if StateBefore = state then followTransitions StateAfter rest else none

/-- The state of a resource after a command list, from the state it has
when the list starts. -/
def stateAfter {F : Type} (resource : Resource) (state : Nat) (cmds : List (Command F)) :
    Option Nat :=
  followTransitions state (barriersOn resource cmds)

/-- The pipeline state bound and the state of one resource at each
`Dispatch` of a command list, in recording order, from the state the
resource has when the list starts. As in `followTransitions`, a barrier on
the resource must declare as `StateBefore` the state the resource is in,
else there is no consistent state. -/
def statesAtDispatch {F : Type} (resource : Resource) :
    Nat → Option BlurBinding → List (Command F) → Option (List (Option BlurBinding × Nat))
  | _, _, [] => some []
  | state, pso, .ResourceBarrier pResource StateBefore StateAfter :: rest =>
    if pResource = resource then
      if StateBefore = state then statesAtDispatch resource StateAfter pso rest else none
    else statesAtDispatch resource state pso rest
  | state, _, .SetPipelineState pPipelineState :: rest =>
    statesAtDispatch resource state (some pPipelineState) rest
  | state, pso, .Dispatch _ _ _ :: rest =>
    (statesAtDispatch resource state pso rest).map fun states => (pso, state) :: states
  | state, pso, _ :: rest => statesAtDispatch resource state pso rest

namespace BlurFilter

/-- One iteration of the loop of `BlurFilter::Execute`: the horizontal pass,
the two barriers that swap the roles of the maps, the vertical pass and the
two barriers that swap them back. `numGroupsX` is `ceilf(mWidth / 256.0f)`,
for a width that a `float` holds exactly. -/
def blurPass {F : Type} (mWidth mHeight : Nat) : List (Command F) :=
  let numGroupsX := (mWidth + 255) / 256
  let numGroupsY := (mHeight + 255) / 256
  [ .SetPipelineState .horzBlurPSO,
    .SetComputeRootDescriptorTable 1 .mBlur0GpuSrv,
    .SetComputeRootDescriptorTable 2 .mBlur1GpuUav,
    .Dispatch numGroupsX mHeight 1,
    .ResourceBarrier .mBlurMap0 D3D12_RESOURCE_STATE_GENERIC_READ
      D3D12_RESOURCE_STATE_UNORDERED_ACCESS,
    .ResourceBarrier .mBlurMap1 D3D12_RESOURCE_STATE_UNORDERED_ACCESS
      D3D12_RESOURCE_STATE_GENERIC_READ,
    .SetPipelineState .vertBlurPSO,
    .SetComputeRootDescriptorTable 1 .mBlur1GpuSrv,
    .SetComputeRootDescriptorTable 2 .mBlur0GpuUav,
    .Dispatch mWidth numGroupsY 1,
    .ResourceBarrier .mBlurMap0 D3D12_RESOURCE_STATE_UNORDERED_ACCESS
      D3D12_RESOURCE_STATE_GENERIC_READ,
    .ResourceBarrier .mBlurMap1 D3D12_RESOURCE_STATE_GENERIC_READ
      D3D12_RESOURCE_STATE_UNORDERED_ACCESS ]

/-- The loop `for (int i = 0; i < blurCount; ++i)` of `Execute`, by the
number of iterations left. -/
def blurPasses {F : Type} (mWidth mHeight : Nat) : Nat → List (Command F)
  | 0 => []
  | n + 1 => blurPass mWidth mHeight ++ blurPasses mWidth mHeight n

/-- The commands `BlurFilter::Execute` records after it has set the root
constants: the copy of the input into `mBlurMap0`, with its barriers, and
the blur passes. -/
def blurCommands {F : Type} (mWidth mHeight : Nat) (input : Resource) (blurCount : Int) :
    List (Command F) :=
  [ .ResourceBarrier input D3D12_RESOURCE_STATE_RENDER_TARGET D3D12_RESOURCE_STATE_COPY_SOURCE,
    .ResourceBarrier .mBlurMap0 D3D12_RESOURCE_STATE_COMMON D3D12_RESOURCE_STATE_COPY_DEST,
    .CopyResource .mBlurMap0 input,
    .ResourceBarrier .mBlurMap0 D3D12_RESOURCE_STATE_COPY_DEST
      D3D12_RESOURCE_STATE_GENERIC_READ,
    .ResourceBarrier .mBlurMap1 D3D12_RESOURCE_STATE_COMMON
      D3D12_RESOURCE_STATE_UNORDERED_ACCESS ]
  ++ blurPasses mWidth mHeight blurCount.toNat

/-- `BlurFilter::Execute`: the commands it records on `cmdList`, for the
input resource and the blur count it is passed. It stops where
`CalcGaussWeights(2.5f)` does. -/
def Execute {F : Type} [LinearOrderedField F] [FloorRing F] (expf : F → F)
    (MaxBlurRadius : Int) (mWidth mHeight : Nat) (input : Resource) (blurCount : Int) :
    Outcome (List (Command F)) :=
  match CalcGaussWeights expf MaxBlurRadius (5 / 2) with
  | .ok weights =>
    let blurRadius : Int := (weights.length : Int).tdiv 2
    .ok (.SetComputeRootSignature
      :: .SetComputeRoot32BitConstants 0 [.int blurRadius] 0
      :: .SetComputeRoot32BitConstants 0 (weights.map .float) 1
      :: blurCommands mWidth mHeight input blurCount)
  | .assertionFailed => .assertionFailed
  | .undefinedConversion => .undefinedConversion
  | .lengthError => .lengthError

end BlurFilter

/-! ## The command lists the samples record in `Draw` -/

/-- The sixteen floats of an `XMFLOAT4X4` as `SetGraphicsRoot32BitConstants`
reads them from its member `m`: row by row. -/
def XMFLOAT4X4.m {F : Type} (a : XMFLOAT4X4 F) : List F :=
  [a.m11, a.m12, a.m13, a.m14, a.m21, a.m22, a.m23, a.m24,
   a.m31, a.m32, a.m33, a.m34, a.m41, a.m42, a.m43, a.m44]

/-- The draw arguments of a render item. -/
structure DrawArgs where
  IndexCount : Nat
  StartIndexLocation : Nat
  BaseVertexLocation : Int
deriving DecidableEq, Repr

namespace InitDirect3DApp

/-- The commands `InitDirect3DApp::Draw` records between `Reset` and
`Close`; `mCurrBackBufferIndex` selects the current back buffer. -/
def Draw {F : Type} (mCurrBackBufferIndex : Nat) : List (Command F) :=
  let backBuffResource := Resource.swapChainBuffer mCurrBackBufferIndex
  [ .RSSetViewports,
    .RSSetScissorRects,
    .ResourceBarrier backBuffResource D3D12_RESOURCE_STATE_PRESENT
      D3D12_RESOURCE_STATE_RENDER_TARGET,
    .OMSetRenderTargets backBuffResource .depthStencilBuffer,
    .ClearRenderTargetView backBuffResource,
    .ClearDepthStencilView .depthStencilBuffer,
    .ResourceBarrier backBuffResource D3D12_RESOURCE_STATE_RENDER_TARGET
      D3D12_RESOURCE_STATE_PRESENT ]

end InitDirect3DApp

namespace BoxApp

/-- The commands `BoxApp::Draw` (Chapter 6, exercise 2) records. -/
def Draw {F : Type} (mCurrBackBufferIndex mNumIndices : Nat) : List (Command F) :=
  let backBuffer := Resource.swapChainBuffer mCurrBackBufferIndex
  [ .RSSetScissorRects,
    .RSSetViewports,
    .ResourceBarrier backBuffer D3D12_RESOURCE_STATE_PRESENT D3D12_RESOURCE_STATE_RENDER_TARGET,
    .OMSetRenderTargets backBuffer .depthStencilBuffer,
    .ClearRenderTargetView backBuffer,
    .ClearDepthStencilView .depthStencilBuffer,
    .SetDescriptorHeaps,
    .SetGraphicsRootSignature,
    .IASetVertexBuffers 0 2,
    .IASetIndexBuffer,
    .IASetPrimitiveTopology,
    .SetGraphicsRootDescriptorTable 0,
    .DrawIndexedInstanced mNumIndices 1 0 0 0,
    .ResourceBarrier backBuffer D3D12_RESOURCE_STATE_RENDER_TARGET D3D12_RESOURCE_STATE_PRESENT ]

end BoxApp

namespace ShapesApp

/-- The fields of `RenderItem` that `ShapesApp::DrawRenderItems` reads. -/
structure RenderItem (F : Type) where
  World : XMFLOAT4X4 F
  IndexCount : Nat
  StartIndexLocation : Nat
  BaseVertexLocation : Int
deriving DecidableEq, Repr

/-- `ShapesApp::DrawRenderItems` (Chapter 7, exercise 2): the transposed
world matrix goes to the root constants. -/
def DrawRenderItems {F : Type} : List (RenderItem F) → List (Command F)
  | [] => []
  | ri :: rest =>
    [ .IASetVertexBuffers 0 1,
      .IASetIndexBuffer,
      .IASetPrimitiveTopology,
      .SetGraphicsRoot32BitConstants 0 ((XMMatrixTranspose ri.World).m.map .float) 0,
      .DrawIndexedInstanced ri.IndexCount 1 ri.StartIndexLocation ri.BaseVertexLocation 0 ]
    ++ DrawRenderItems rest

/-- The commands `ShapesApp::Draw` records. -/
def Draw {F : Type} (mCurrBackBufferIndex : Nat) (mOpaqueRitems : List (RenderItem F)) :
    List (Command F) :=
  let backBuffer := Resource.swapChainBuffer mCurrBackBufferIndex
  [ .RSSetViewports,
    .RSSetScissorRects,
    .ResourceBarrier backBuffer D3D12_RESOURCE_STATE_PRESENT D3D12_RESOURCE_STATE_RENDER_TARGET,
    .ClearRenderTargetView backBuffer,
    .ClearDepthStencilView .depthStencilBuffer,
    .OMSetRenderTargets backBuffer .depthStencilBuffer,
    .SetDescriptorHeaps,
    .SetGraphicsRootSignature,
    .SetGraphicsRootDescriptorTable 1 ]
  ++ DrawRenderItems mOpaqueRitems
  ++ [ .ResourceBarrier backBuffer D3D12_RESOURCE_STATE_RENDER_TARGET
        D3D12_RESOURCE_STATE_PRESENT ]

end ShapesApp

namespace LitColumnsApp

/-- `LitColumnsApp::DrawRenderItems` (Chapter 9, exercise 6). -/
def DrawRenderItems {F : Type} : List DrawArgs → List (Command F)
  | [] => []
  | ri :: rest =>
    [ .IASetVertexBuffers 0 1,
      .IASetIndexBuffer,
      .IASetPrimitiveTopology,
      .SetGraphicsRootDescriptorTable 0,
      .SetGraphicsRootConstantBufferView 1,
      .SetGraphicsRootConstantBufferView 2,
      .DrawIndexedInstanced ri.IndexCount 1 ri.StartIndexLocation ri.BaseVertexLocation 0 ]
    ++ DrawRenderItems rest

/-- The commands `LitColumnsApp::Draw` records. -/
def Draw {F : Type} (mCurrBackBufferIndex : Nat) (mOpaqueRitems : List DrawArgs) :
    List (Command F) :=
  let backBuffer := Resource.swapChainBuffer mCurrBackBufferIndex
  [ .RSSetViewports,
    .RSSetScissorRects,
    .ResourceBarrier backBuffer D3D12_RESOURCE_STATE_PRESENT D3D12_RESOURCE_STATE_RENDER_TARGET,
    .ClearRenderTargetView backBuffer,
    .ClearDepthStencilView .depthStencilBuffer,
    .OMSetRenderTargets backBuffer .depthStencilBuffer,
    .SetDescriptorHeaps,
    .SetGraphicsRootSignature,
    .SetGraphicsRootConstantBufferView 3 ]
  ++ DrawRenderItems mOpaqueRitems
  ++ [ .ResourceBarrier backBuffer D3D12_RESOURCE_STATE_RENDER_TARGET
        D3D12_RESOURCE_STATE_PRESENT ]

end LitColumnsApp

namespace CircleToCylinder

/-- The commands `CircleToCylinder::Draw` (Chapter 12, exercise 1) records. -/
def Draw {F : Type} (mCurrBackBufferIndex mkCircleVertexCount : Nat) : List (Command F) :=
  let backBuffer := Resource.swapChainBuffer mCurrBackBufferIndex
  [ .RSSetViewports,
    .RSSetScissorRects,
    .ResourceBarrier backBuffer D3D12_RESOURCE_STATE_PRESENT D3D12_RESOURCE_STATE_RENDER_TARGET,
    .ClearRenderTargetView backBuffer,
    .ClearDepthStencilView .depthStencilBuffer,
    .OMSetRenderTargets backBuffer .depthStencilBuffer,
    .SetGraphicsRootSignature,
    .SetGraphicsRootConstantBufferView 0,
    .IASetPrimitiveTopology,
    .IASetVertexBuffers 0 1,
    .IASetIndexBuffer,
    .DrawInstanced mkCircleVertexCount 1 0 0,
    .ResourceBarrier backBuffer D3D12_RESOURCE_STATE_RENDER_TARGET D3D12_RESOURCE_STATE_PRESENT ]

end CircleToCylinder

namespace VecAddCSApp

/-- The commands `VecAddCSApp::Draw` records, the same in the two samples of
Chapter 13 (exercises 1 and 2). -/
def Draw {F : Type} (mCurrBackBufferIndex : Nat) : List (Command F) :=
  let backBuffer := Resource.swapChainBuffer mCurrBackBufferIndex
  [ .RSSetViewports,
    .RSSetScissorRects,
    .ResourceBarrier backBuffer D3D12_RESOURCE_STATE_PRESENT D3D12_RESOURCE_STATE_RENDER_TARGET,
    .OMSetRenderTargets backBuffer .depthStencilBuffer,
    .ClearRenderTargetView backBuffer,
    .ClearDepthStencilView .depthStencilBuffer,
    .ResourceBarrier backBuffer D3D12_RESOURCE_STATE_RENDER_TARGET D3D12_RESOURCE_STATE_PRESENT ]

end VecAddCSApp

namespace InstancingAndCullingApp

/-- `InstancingAndCullingApp::DrawRenderItems` (Chapter 16, exercise 1), as
recorded commands. -/
def DrawRenderItems {F Sphere : Type} : List (Instancing.RenderItem F Sphere) → List (Command F)
  | [] => []
  | ri :: rest =>
    [ .IASetVertexBuffers 0 1,
      .IASetIndexBuffer,
      .IASetPrimitiveTopology,
      .SetGraphicsRootShaderResourceView 0,
      .DrawIndexedInstanced ri.IndexCount ri.VisibleInstanceCount ri.StartIndexLocation
        ri.BaseVertexLocation 0 ]
    ++ DrawRenderItems rest

/-- The commands `InstancingAndCullingApp::Draw` records. -/
def Draw {F Sphere : Type} (mCurrBackBufferIndex : Nat)
    (mOpaqueRitems : List (Instancing.RenderItem F Sphere)) : List (Command F) :=
  let backBuffer := Resource.swapChainBuffer mCurrBackBufferIndex
  [ .RSSetViewports,
    .RSSetScissorRects,
    .ResourceBarrier backBuffer D3D12_RESOURCE_STATE_PRESENT D3D12_RESOURCE_STATE_RENDER_TARGET,
    .ClearRenderTargetView backBuffer,
    .ClearDepthStencilView .depthStencilBuffer,
    .OMSetRenderTargets backBuffer .depthStencilBuffer,
    .SetDescriptorHeaps,
    .SetGraphicsRootSignature,
    .SetGraphicsRootShaderResourceView 1,
    .SetGraphicsRootConstantBufferView 2,
    .SetGraphicsRootDescriptorTable 3 ]
  ++ DrawRenderItems mOpaqueRitems
  ++ [ .ResourceBarrier backBuffer D3D12_RESOURCE_STATE_RENDER_TARGET
        D3D12_RESOURCE_STATE_PRESENT ]

end InstancingAndCullingApp

/-- The transition pairing of a recorded command list for the back buffer:
its barriers on the back buffer are `PRESENT -> RENDER_TARGET` and then
`RENDER_TARGET -> PRESENT` and no other; the list is some commands that
neither clear nor draw, the first barrier, the remaining commands, and the
second barrier as its last command; from `PRESENT` the list takes the back
buffer back to `PRESENT`. -/
structure TransitionPairing {F : Type} (backBuffer : Resource) (cmds : List (Command F)) :
    Prop where
  barriers : barriersOn backBuffer cmds
    = [(D3D12_RESOURCE_STATE_PRESENT, D3D12_RESOURCE_STATE_RENDER_TARGET),
       (D3D12_RESOURCE_STATE_RENDER_TARGET, D3D12_RESOURCE_STATE_PRESENT)]
  between : ∃ before inside : List (Command F),
    cmds = before
      ++ Command.ResourceBarrier backBuffer D3D12_RESOURCE_STATE_PRESENT
          D3D12_RESOURCE_STATE_RENDER_TARGET
      :: (inside ++ [Command.ResourceBarrier backBuffer D3D12_RESOURCE_STATE_RENDER_TARGET
          D3D12_RESOURCE_STATE_PRESENT]) ∧
    ∀ c ∈ before, c.isClearOrDraw = false
  ends : stateAfter backBuffer D3D12_RESOURCE_STATE_PRESENT cmds
    = some D3D12_RESOURCE_STATE_PRESENT

/-! ## The result file of the compute samples (Chapter 13) -/

/-- A value of type `float`: a number of `F`, an infinity or a NaN. -/
inductive FloatValue (F : Type) where
  | finite (x : F)
  | posInf
  | negInf
  | nan
deriving DecidableEq, Repr

/-- The comparison `a <= b` of two floats: false when either is a NaN. -/
def FloatValue.le {F : Type} [LinearOrder F] : FloatValue F → FloatValue F → Bool
  | .nan, _ => false
  | _, .nan => false
  | .negInf, _ => true
  | _, .posInf => true
  | .finite x, .finite y => decide (x ≤ y)
  | .posInf, _ => false
  | .finite _, .negInf => false

/-- The comparison `a >= b` of two floats. -/
def FloatValue.ge {F : Type} [LinearOrder F] (a b : FloatValue F) : Bool :=
  FloatValue.le b a

/-- The range check in the words of the specification: a value is within
`[lo, hi]` when it is a number `x` with `lo ≤ x ≤ hi`, both bounds included;
an infinity or a NaN is not. -/
def FloatValue.within {F : Type} [LinearOrder F] (lo hi : F) : FloatValue F → Bool
  | .finite x => decide (lo ≤ x ∧ x ≤ hi)
  | _ => false

namespace VecAddCSApp

/-- `NumDataElements` (`kNumDataElements` in the typed-buffer sample). -/
def NumDataElements : Nat := 64

/-- The loop of `VecAddCSApp::DoComputeWork` that writes `results.txt`, the
same in the two samples of Chapter 13: the lines it writes, in order, each
followed by a newline in the file. `mappedData` is the mapped read-back
buffer and `format` the default formatting of a `float` by `operator<<`. -/
def DoComputeWork {F : Type} [LinearOrderedField F] (format : FloatValue F → String)
    (mappedData : Nat → FloatValue F) : List String :=
  (List.range NumDataElements).map fun i =>
    let length := mappedData i
    if FloatValue.ge length (.finite 1) && FloatValue.le length (.finite 10) then
      format length
    else
      "Length out of range"

end VecAddCSApp

/-! ## The shape shared by the dirty-counter loops -/

/-- What a dirty-counter loop reads of an element: its counter, its element
index in the buffer, the constants it writes, and the element with the counter
decremented. -/
structure DirtyOps (E T : Type) where
  dirty : E → Int
  index : E → Nat
  consts : E → T
  tick : E → E

/-- Decrementing the counter changes neither the index nor the constants. -/
structure DirtyOps.Lawful {E T : Type} (ops : DirtyOps E T) : Prop where
  dirty_tick : ∀ e, ops.dirty (ops.tick e) = ops.dirty e - 1
  index_tick : ∀ e, ops.index (ops.tick e) = ops.index e
  consts_tick : ∀ e, ops.consts (ops.tick e) = ops.consts e

/-- The loop `for e : elements { if (e.NumFramesDirty > 0) { CopyData(index,
constants); e.NumFramesDirty--; } }`, which `UpdateObjectCBs`,
`UpdateMaterialCBs` and `UpdateMaterialBuffer` are instances of (proved
below). -/
def dirtyLoop {E T : Type} (ops : DirtyOps E T) :
    UploadBuffer T → List E → Option (UploadBuffer T × List E)
  | cb, [] => some (cb, [])
  | cb, e :: es =>
    if ops.dirty e > 0 then
      match cb.CopyData (ops.index e) (ops.consts e) with
      | none => none
      | some cb1 =>
        match dirtyLoop ops cb1 es with
        | none => none
        | some (cb2, es1) => some (cb2, ops.tick e :: es1)
    else
      match dirtyLoop ops cb es with
      | none => none
      | some (cb2, es1) => some (cb2, e :: es1)

/-- What one pass of the loop does to an element. -/
def DirtyOps.refresh {E T : Type} (ops : DirtyOps E T) (e : E) : E :=
  if ops.dirty e > 0 then ops.tick e else e

/-- Whether slot `j` is one of the slots the next `m` calls of `Update` select,
from ring index `i`. -/
def refreshed (i m j : Nat) : Bool :=
  (List.range m).any fun t => (i + 1 + t) % gNumFrameResources == j

/-- The buffer `buf` of slot `j`. -/
def bufferAt {B S T : Type} (buf : B → UploadBuffer T) (a : D3DApp B S) (j : Nat) :
    Option (UploadBuffer T) :=
  (a.mFrameResources[j]?).map fun fr => buf fr.buffers

/-- The object-constants loop of `LitColumnsApp`. -/
def LitColumns.objOps (F : Type) : DirtyOps (LitColumns.RenderItem F) (LitColumns.ObjectConstants F) :=
  { dirty := fun e => e.NumFramesDirty
    index := fun e => e.ObjCBIndex
    consts := LitColumns.objConstants
    tick := fun e => { e with NumFramesDirty := e.NumFramesDirty - 1 } }

/-- The material-constants loop of `LitColumnsApp`. -/
def LitColumns.matOps (F : Type) : DirtyOps (Material F) (LitColumns.MaterialConstants F) :=
  { dirty := fun mat => mat.NumFramesDirty
    index := fun mat => mat.MatCBIndex
    consts := LitColumns.matConstants
    tick := fun mat => { mat with NumFramesDirty := mat.NumFramesDirty - 1 } }

/-- The material-buffer loop of `InstancingAndCullingApp`. -/
def Instancing.matOps (F : Type) : DirtyOps (Material F) (Instancing.MaterialData F) :=
  { dirty := fun mat => mat.NumFramesDirty
    index := fun mat => mat.MatCBIndex
    consts := Instancing.matData
    tick := fun mat => { mat with NumFramesDirty := mat.NumFramesDirty - 1 } }

/-! ## The render items of `LitColumnsApp`, the start of `InstancingAndCullingApp` -/

/-- `MathHelper::Identity4x4`. -/
def MathHelper.Identity4x4 {F : Type} [Zero F] [One F] : XMFLOAT4X4 F :=
  { m11 := 1, m12 := 0, m13 := 0, m14 := 0
    m21 := 0, m22 := 1, m23 := 0, m24 := 0
    m31 := 0, m32 := 0, m33 := 1, m34 := 0
    m41 := 0, m42 := 0, m43 := 0, m44 := 1 }

namespace LitColumnsApp

/-- `RenderItem` of the sample. `Mat` and `Geo` are pointers into
`mMaterials` and `mGeometries`, held as the key of the entry pointed to
(`none` for `nullptr`); `DrawArgs` is the key of the submesh of `Geo` whose
`IndexCount`, `StartIndexLocation` and `BaseVertexLocation` the item
copies. -/
structure RenderItem (F : Type) where
  World : XMFLOAT4X4 F
  TexTransform : XMFLOAT4X4 F
  NumFramesDirty : Int
  ObjCBIndex : Nat
  Mat : Option String
  Geo : Option String
  DrawArgs : Option String
deriving DecidableEq, Repr

/-- `LitColumnsApp::BuildRenderItems`: `mAllRitems` afterwards. The product
of two `XMMATRIX` is the matrix product; `objCBIndex` is a `UINT`. -/
def BuildRenderItems {F : Type} [Field F] : List (RenderItem F) :=
  let boxRitem : RenderItem F :=
    { World := XMFLOAT4X4.ofMatrix
        ((XMMatrixScaling (2 : F) 2 2).toMatrix * (XMMatrixTranslation (0 : F) (1 / 2) 0).toMatrix)
      TexTransform := XMMatrixScaling 1 1 1
      NumFramesDirty := gNumFrameResources
      ObjCBIndex := 0
      Mat := some "stone0"
      Geo := some "shapeGeo"
      DrawArgs := some "box" }
  let gridRitem : RenderItem F :=
    { World := MathHelper.Identity4x4
      TexTransform := XMMatrixScaling 8 8 1
      NumFramesDirty := gNumFrameResources
      ObjCBIndex := 1
      Mat := some "tile0"
      Geo := some "shapeGeo"
      DrawArgs := some "grid" }
  let mAllRitems : List (RenderItem F) := [boxRitem, gridRitem]
  let brickTexTransform : XMFLOAT4X4 F := XMMatrixScaling 1 1 1
  let objCBIndex : Nat := 2
  ((List.range 5).foldl (fun (state : Nat × List (RenderItem F)) (i : Nat) =>
    let objCBIndex := state.1
    let mAllRitems := state.2
    let leftCylWorld : XMFLOAT4X4 F := XMMatrixTranslation (-5) (3 / 2) (-10 + (i : F) * 5)
    let rightCylWorld : XMFLOAT4X4 F := XMMatrixTranslation 5 (3 / 2) (-10 + (i : F) * 5)
    let leftSphereWorld : XMFLOAT4X4 F := XMMatrixTranslation (-5) (7 / 2) (-10 + (i : F) * 5)
    let rightSphereWorld : XMFLOAT4X4 F := XMMatrixTranslation 5 (7 / 2) (-10 + (i : F) * 5)
    let leftCylRitem : RenderItem F :=
      { World := rightCylWorld
        TexTransform := brickTexTransform
        NumFramesDirty := gNumFrameResources
        ObjCBIndex := objCBIndex
        Mat := some "bricks0"
        Geo := some "shapeGeo"
        DrawArgs := some "cylinder" }
    let objCBIndex := (objCBIndex + 1) % 2 ^ 32
    let rightCylRitem : RenderItem F :=
      { World := leftCylWorld
        TexTransform := brickTexTransform
        NumFramesDirty := gNumFrameResources
        ObjCBIndex := objCBIndex
        Mat := some "bricks0"
        Geo := some "shapeGeo"
        DrawArgs := some "cylinder" }
    let objCBIndex := (objCBIndex + 1) % 2 ^ 32
    let leftSphereRitem : RenderItem F :=
      { World := leftSphereWorld
        TexTransform := MathHelper.Identity4x4
        NumFramesDirty := gNumFrameResources
        ObjCBIndex := objCBIndex
        Mat := some "stone0"
        Geo := some "shapeGeo"
        DrawArgs := some "sphere" }
    let objCBIndex := (objCBIndex + 1) % 2 ^ 32
    let rightSphereRitem : RenderItem F :=
      { World := rightSphereWorld
        TexTransform := MathHelper.Identity4x4
        NumFramesDirty := gNumFrameResources
        ObjCBIndex := objCBIndex
        Mat := some "stone0"
        Geo := some "shapeGeo"
        DrawArgs := some "sphere" }
    let objCBIndex := (objCBIndex + 1) % 2 ^ 32
    (objCBIndex,
      mAllRitems ++ [leftCylRitem, rightCylRitem, leftSphereRitem, rightSphereRitem]))
    (objCBIndex, mAllRitems)).2

/-- `LitColumnsApp::BuildFrameResources`: the pass, object and material
counts each of the `gNumFrameResources` frame resources is constructed
with; the object count is the element count of its object constant
buffer. -/
def BuildFrameResources {F : Type} (mAllRitems : List (RenderItem F)) (numMaterials : Nat) :
    List (Nat × Nat × Nat) :=
  List.replicate gNumFrameResources (1, mAllRitems.length % 2 ^ 32, numMaterials % 2 ^ 32)

/-- The address `objCBAddress` that `DrawRenderItems` binds for an item:
`objectCB->GetGPUVirtualAddress() + ri->ObjCBIndex * objCBByteSize`, the
product in `UINT`, the sum in `UINT64`. `objCBByteSize` is
`d3dUtil::CalcConstantBufferByteSize(sizeof(ObjectConstants))` (`d3dUtil.h`
is not among the sources), a parameter. -/
def objCBAddress {F : Type} (GetGPUVirtualAddress objCBByteSize : Nat) (ri : RenderItem F) :
    Nat :=
  (GetGPUVirtualAddress + ri.ObjCBIndex * objCBByteSize % 2 ^ 32) % 2 ^ 64

end LitColumnsApp

namespace InstancingAndCullingApp

/-- `SubmeshGeometry2`. -/
structure SubmeshGeometry2 (Sphere : Type) where
  IndexCount : Nat
  StartIndexLocation : Nat
  BaseVertexLocation : Int
  Bounds : Sphere

/-- The members of `MeshGeometry2` that `Initialize` reaches: the name, the
submeshes by key, and whether the two upload buffers are still held. -/
structure MeshGeometry2 (Sphere : Type) where
  Name : String
  DrawArgs : List (String × SubmeshGeometry2 Sphere)
  uploaders : Bool

/-- How a call ends that does not return. -/
inductive Fault where
  | nullDereference
deriving DecidableEq, Repr

/-- The `operator[]` of `std::unordered_map` with a key: the value stored
under the key and the map afterwards; a key that is absent is inserted with
the value-initialised `value`. -/
def subscript {V : Type} (m : List (String × V)) (key : String) (value : V) :
    V × List (String × V) :=
  match m.find? (fun e => e.1 == key) with
  | some e => (e.2, m)
  | none => (value, m ++ [(key, value)])

/-- The assignment `m[key] = value` on a `std::unordered_map`. -/
def assign {V : Type} (m : List (String × V)) (key : String) (value : V) :
    List (String × V) :=
  if m.any (fun e => e.1 == key) then m.map (fun e => if e.1 == key then (key, value) else e)
  else m ++ [(key, value)]

/-- The members of the application that the geometry, the materials, the
render items and the frame resources are built in. `mGeometries` and
`mMaterials` map a key to a `unique_ptr`, `none` for a null one; a material
is held as its `MatCBIndex`; a frame resource as the pass, instance and
material counts it is constructed with. `messageBoxes` lists the texts of
the message boxes shown. -/
structure App (Sphere : Type) where
  mGeometries : List (String × Option (MeshGeometry2 Sphere))
  mMaterials : List (String × Option Nat)
  mAllRitems : List (Instancing.RenderItem Int Sphere)
  mInstanceCount : Nat
  mFrameResources : List (Nat × Nat × Nat)
  messageBoxes : List String

/-- The members when `Initialize` starts. -/
def start {Sphere : Type} : App Sphere :=
  { mGeometries := []
    mMaterials := []
    mAllRitems := []
    mInstanceCount := 0
    mFrameResources := []
    messageBoxes := [] }

/-- `InstancingAndCullingApp::BuildSkullGeometry`. `fin` is `none` when
`Models/skull.txt` cannot be opened, else the submesh the function computes
from the contents of the file. -/
def BuildSkullGeometry {Sphere : Type} (fin : Option (SubmeshGeometry2 Sphere))
    (app : App Sphere) : App Sphere :=
  match fin with
  | none => { app with messageBoxes := app.messageBoxes ++ ["Models/skull.txt not found."] }
  | some submesh =>
    let geo : MeshGeometry2 Sphere :=
      { Name := "skullGeo", DrawArgs := assign [] "skull" submesh, uploaders := true }
    { app with mGeometries := assign app.mGeometries geo.Name (some geo) }

/-- `InstancingAndCullingApp::BuildMaterials`. -/
def BuildMaterials {Sphere : Type} (app : App Sphere) : App Sphere :=
  let m := assign app.mMaterials "bricks0" (some 0)
  let m := assign m "stone0" (some 1)
  let m := assign m "tile0" (some 2)
  let m := assign m "crate0" (some 3)
  let m := assign m "ice0" (some 4)
  let m := assign m "grass0" (some 5)
  let m := assign m "skullMat" (some 6)
  { app with mMaterials := m }

/-- `InstancingAndCullingApp::BuildRenderItems`, with the lookups it starts
with: `mGeometries["skullGeo"].get()` is followed to reach `DrawArgs`, so a
null pointer there ends the call. `defaultBounds` is a default-constructed
`BoundingSphere`. -/
def BuildRenderItems {Sphere : Type} (defaultBounds : Sphere) (app : App Sphere) :
    Except Fault (App Sphere) :=
  let (_, mMaterials) := subscript app.mMaterials "tile0" none
  let (Geo, mGeometries) := subscript app.mGeometries "skullGeo" none
  match Geo with
  | none => .error .nullDereference
  | some geo =>
    let (skull, DrawArgs) := subscript geo.DrawArgs "skull"
      { IndexCount := 0, StartIndexLocation := 0, BaseVertexLocation := 0,
        Bounds := defaultBounds }
    let mGeometries := assign mGeometries "skullGeo" (some { geo with DrawArgs := DrawArgs })
    .ok { app with
      mMaterials := mMaterials
      mGeometries := mGeometries
      mInstanceCount := 5 * 5 * 5
      mAllRitems := app.mAllRitems ++
        Instancing.BuildRenderItems skull.Bounds skull.IndexCount skull.StartIndexLocation
          skull.BaseVertexLocation mMaterials.length }

/-- `InstancingAndCullingApp::BuildFrameResources`. -/
def BuildFrameResources {Sphere : Type} (app : App Sphere) : App Sphere :=
  { app with
    mFrameResources :=
      List.replicate gNumFrameResources (1, app.mInstanceCount, app.mMaterials.length % 2 ^ 32) }

/-- The loop `for (auto& [_, geo] : mGeometries) geo->DisposeUploaders();`
at the end of `Initialize`. -/
def disposeUploaders {Sphere : Type} :
    List (String × Option (MeshGeometry2 Sphere)) →
      Except Fault (List (String × Option (MeshGeometry2 Sphere)))
  | [] => .ok []
  | (_, none) :: _ => .error .nullDereference
  | (key, some geo) :: rest =>
    match disposeUploaders rest with
    | .error f => .error f
    | .ok done => .ok ((key, some { geo with uploaders := false }) :: done)

/-- `InstancingAndCullingApp::Initialize`, on the members of `App`: the
members afterwards and the value returned. `D3DApp::Initialize`, the loading
of the textures and the building of the root signature, the descriptor
heaps, the shaders and the pipeline states are taken to succeed; they
neither read nor write these members. -/
def Initialize {Sphere : Type} (defaultBounds : Sphere)
    (fin : Option (SubmeshGeometry2 Sphere)) : Except Fault (App Sphere × Bool) :=
  let app := BuildSkullGeometry fin start
  let app := BuildMaterials app
  match BuildRenderItems defaultBounds app with
  | .error f => .error f
  | .ok app =>
    let app := BuildFrameResources app
    match disposeUploaders app.mGeometries with
    | .error f => .error f
    | .ok mGeometries => .ok ({ app with mGeometries := mGeometries }, true)

end InstancingAndCullingApp

/-! ## GameTimer -/

/-- `GameTimer`: the members of the class, with `double` as an exact ordered
field `F` and the `__int64` counter readings as integers (readings of the
performance counter and their differences are far from the ends of the
64-bit range). -/
structure GameTimer (F : Type) where
  mSecondsPerCount : F
  mDeltaTime : F
  mBaseTime : Int
  mPausedTime : Int
  mStopTime : Int
  mPrevTime : Int
  mCurrTime : Int
  mStopped : Bool
deriving DecidableEq, Repr

namespace GameTimer

/-- The constructor, `GameTimer::GameTimer()`: the members take their default
initialisers and `mSecondsPerCount` is the inverse of the frequency
`QueryPerformanceFrequency` reports, `countsPerSec`. -/
def construct {F : Type} [Field F] (countsPerSec : Int) : GameTimer F :=
  { mSecondsPerCount := 1 / (countsPerSec : F)
    mDeltaTime := -1
    mBaseTime := 0
    mPausedTime := 0
    mStopTime := 0
    mPrevTime := 0
    mCurrTime := 0
    mStopped := false }

/-- `GameTimer::TotalTime` (the final conversion to `float` is left out). -/
def TotalTime {F : Type} [Field F] (t : GameTimer F) : F :=
  if t.mStopped then
    ((((t.mStopTime - t.mPausedTime) - t.mBaseTime : Int) : F)) * t.mSecondsPerCount
  else
    ((((t.mCurrTime - t.mPausedTime) - t.mBaseTime : Int) : F)) * t.mSecondsPerCount

/-- `GameTimer::DeltaTime` (the final conversion to `float` is left out). -/
def DeltaTime {F : Type} (t : GameTimer F) : F :=
  t.mDeltaTime

/-- `GameTimer::Reset`; `currTime` is the reading `QueryPerformanceCounter`
returns in the call. -/
def Reset {F : Type} (currTime : Int) (t : GameTimer F) : GameTimer F :=
  { t with
    mBaseTime := currTime
    mPrevTime := currTime
    mStopTime := 0
    mStopped := false }

/-- `GameTimer::Start`; `startTime` is the reading of the counter at the
call (read only when the timer is stopped). -/
def Start {F : Type} (startTime : Int) (t : GameTimer F) : GameTimer F :=
  if t.mStopped then
    { t with
      mPausedTime := t.mPausedTime + (startTime - t.mStopTime)
      mPrevTime := startTime
      mStopTime := 0
      mStopped := false }
  else t

/-- `GameTimer::Stop`; `currTime` is the reading of the counter at the call
(read only when the timer is running). -/
def Stop {F : Type} (currTime : Int) (t : GameTimer F) : GameTimer F :=
  if !t.mStopped then
    { t with
      mStopTime := currTime
      mStopped := true }
  else t

/-- `GameTimer::Tick`; `currTime` is the reading of the counter at the call
(read only when the timer is running). -/
def Tick {F : Type} [LinearOrderedField F] (currTime : Int) (t : GameTimer F) : GameTimer F :=
  if t.mStopped then { t with mDeltaTime := 0 }
  else
    let mCurrTime := currTime
    let mDeltaTime : F := ((mCurrTime - t.mPrevTime : Int) : F) * t.mSecondsPerCount
    let mPrevTime := mCurrTime
    { t with
      mCurrTime := mCurrTime
      mPrevTime := mPrevTime
      mDeltaTime := if mDeltaTime < 0 then 0 else mDeltaTime }

end GameTimer

/-- A call on a `GameTimer`, with the reading of the performance counter at
the moment of the call. -/
inductive TimerCall where
  | Reset (currTime : Int)
  | Start (startTime : Int)
  | Stop (currTime : Int)
  | Tick (currTime : Int)
deriving DecidableEq, Repr

namespace GameTimer

/-- One call. -/
def call {F : Type} [LinearOrderedField F] (t : GameTimer F) : TimerCall → GameTimer F
  | .Reset currTime => Reset currTime t
  | .Start startTime => Start startTime t
  | .Stop currTime => Stop currTime t
  | .Tick currTime => Tick currTime t

/-- A sequence of calls, oldest first. -/
def calls {F : Type} [LinearOrderedField F] (t : GameTimer F) (cs : List TimerCall) :
    GameTimer F :=
  cs.foldl call t

/-- What the description of `TotalTime` refers to, kept call by call: the
reading at the most recent `Reset`, the reading at the `Stop` in force (if
the timer is stopped), the counts spent stopped since the most recent
`Reset`, and the reading of the latest `Tick` of the running timer. -/
structure Stopwatch where
  resetTime : Option Int
  stoppedAt : Option Int
  stoppedCounts : Int
  latestTick : Int
deriving DecidableEq, Repr

/-- One call, as the description of `TotalTime` has it: `Reset` starts a new
measurement on a running timer, with nothing spent stopped; `Start` ends a
stop and adds its length to the counts spent stopped; `Stop` stops a running
timer; `Tick` on a running timer records the reading. -/
def Stopwatch.call (w : Stopwatch) : TimerCall → Stopwatch
  | .Reset currTime =>
    { w with resetTime := some currTime, stoppedAt := none, stoppedCounts := 0 }
  | .Start startTime =>
    match w.stoppedAt with
    | some stopTime =>
      { w with stoppedAt := none, stoppedCounts := w.stoppedCounts + (startTime - stopTime) }
    | none => w
  | .Stop currTime =>
    match w.stoppedAt with
    | some _ => w
    | none => { w with stoppedAt := some currTime }
  | .Tick currTime =>
    match w.stoppedAt with
    | some _ => w
    | none => { w with latestTick := currTime }

/-- The counts the description of `TotalTime` gives after a sequence of
calls on a new timer: the counts elapsed since the most recent `Reset`, up
to the latest `Tick` or up to the `Stop` in force, less the counts spent
stopped since that `Reset`; `none` when there was no `Reset`. -/
def elapsedSinceReset (cs : List TimerCall) : Option Int :=
  let w := cs.foldl Stopwatch.call
    { resetTime := none, stoppedAt := none, stoppedCounts := 0, latestTick := 0 }
  match w.resetTime with
  | none => none
  | some resetTime =>
    let upTo := match w.stoppedAt with
      | some stopTime => stopTime
      | none => w.latestTick
    some ((upTo - resetTime) - w.stoppedCounts)

/-- The value of `mPausedTime` at the most recent `Reset` among the calls
(`carried` when there is none): the counts spent stopped before that
`Reset`. -/
def pausedBeforeReset {F : Type} [LinearOrderedField F] (t : GameTimer F) :
    List TimerCall → Int → Int
  | [], carried => carried
  | .Reset currTime :: cs, _ => pausedBeforeReset (Reset currTime t) cs t.mPausedTime
  | .Start startTime :: cs, carried => pausedBeforeReset (Start startTime t) cs carried
  | .Stop currTime :: cs, carried => pausedBeforeReset (Stop currTime t) cs carried
  | .Tick currTime :: cs, carried => pausedBeforeReset (Tick currTime t) cs carried

end GameTimer

/-! ## MathHelper -/

namespace MathHelper

/-- `MathHelper::RandF()`, in exact arithmetic: `rand` is the value the call
of `rand()` returns and `RAND_MAX` the constant of the C library. -/
def RandF {F : Type} [Field F] (RAND_MAX rand : Nat) : F :=
  (rand : F) / (RAND_MAX : F)

/-- `MathHelper::RandF(a, b)`. -/
def RandFBetween {F : Type} [Field F] (RAND_MAX rand : Nat) (a b : F) : F :=
  a + RandF RAND_MAX rand * (b - a)

end MathHelper

/-! ## CubeRenderTarget (Chapter 18, dynamic cube map) -/

/-- `D3D12_VIEWPORT`. -/
structure D3D12_VIEWPORT (F : Type) where
  TopLeftX : F
  TopLeftY : F
  Width : F
  Height : F
  MinDepth : F
  MaxDepth : F
deriving DecidableEq, Repr

/-- `D3D12_RECT`. -/
structure D3D12_RECT where
  left : Int
  top : Int
  right : Int
  bottom : Int
deriving DecidableEq, Repr

/-- The conversion `(int)u` of a `UINT`: the value itself when an `int` holds
it, else the value less `2^32`. -/
def uintToInt (u : Nat) : Int :=
  if (u : Int) ≤ INT_MAX then (u : Int) else (u : Int) - 4294967296

/-- The members of `CubeRenderTarget` that the constructor and `OnResize`
write. `mCubeMap` is the width and height of the texture `BuildResource`
last created, `descriptors` the width and height of the texture the views
made by `BuildDescriptors()` refer to (`none` before the first call). -/
structure CubeRenderTarget (F : Type) where
  mWidth : Nat
  mHeight : Nat
  mViewport : D3D12_VIEWPORT F
  mScissorRect : D3D12_RECT
  mCubeMap : Nat × Nat
  descriptors : Option (Nat × Nat)
deriving DecidableEq, Repr

namespace CubeRenderTarget

/-- `CubeRenderTarget::BuildResource`: the texture is created with
`texDesc.Width = mWidth` and `texDesc.Height = mHeight`. -/
def BuildResource {F : Type} (t : CubeRenderTarget F) : CubeRenderTarget F :=
  { t with mCubeMap := (t.mWidth, t.mHeight) }

/-- `CubeRenderTarget::BuildDescriptors()`: the views are created on
`mCubeMap`. -/
def BuildDescriptors {F : Type} (t : CubeRenderTarget F) : CubeRenderTarget F :=
  { t with descriptors := some t.mCubeMap }

/-- The constructor: the member initialisers, then `BuildResource()`. The
floats `(float)width` and `(float)height` are the numbers themselves. -/
def construct {F : Type} [NatCast F] [Zero F] [One F] (width height : Nat) :
    CubeRenderTarget F :=
  BuildResource
    { mWidth := width
      mHeight := height
      mViewport :=
        { TopLeftX := 0, TopLeftY := 0, Width := (width : F), Height := (height : F),
          MinDepth := 0, MaxDepth := 1 }
      mScissorRect := { left := 0, top := 0, right := uintToInt width, bottom := uintToInt height }
      mCubeMap := (0, 0)
      descriptors := none }

/-- `CubeRenderTarget::Viewport`. -/
def Viewport {F : Type} (t : CubeRenderTarget F) : D3D12_VIEWPORT F :=
  t.mViewport

/-- `CubeRenderTarget::ScissorRect`. -/
def ScissorRect {F : Type} (t : CubeRenderTarget F) : D3D12_RECT :=
  t.mScissorRect

/-- `CubeRenderTarget::OnResize`. -/
def OnResize {F : Type} (newWidth newHeight : Nat) (t : CubeRenderTarget F) :
    CubeRenderTarget F :=
  if t.mWidth ≠ newWidth ∨ t.mHeight ≠ newHeight then
    BuildDescriptors (BuildResource { t with mWidth := newWidth, mHeight := newHeight })
  else t

end CubeRenderTarget

/-! ## Camera -/

/-- `DirectX::XMFLOAT3`. -/
structure XMFLOAT3 (F : Type) where
  x : F
  y : F
  z : F
deriving DecidableEq, Repr

/-- The DirectXMath routines (and `tanf`) that `Camera.cpp` calls, on
vectors held as `XMFLOAT3` and matrices held as `XMFLOAT4X4`; the loads and
stores between the two forms copy. `XMVectorMultiplyAdd` is taken with its
first argument replicated from a scalar, as `Strafe` and `Walk` call it, and
`XMVector3Dot` with the `XMVectorGetX` that reads its result. -/
structure CameraMath (F : Type) where
  tanf : F → F
  XMMatrixPerspectiveFovLH : F → F → F → F → XMFLOAT4X4 F
  XMVectorSubtract : XMFLOAT3 F → XMFLOAT3 F → XMFLOAT3 F
  XMVector3Normalize : XMFLOAT3 F → XMFLOAT3 F
  XMVector3Cross : XMFLOAT3 F → XMFLOAT3 F → XMFLOAT3 F
  XMVector3Dot : XMFLOAT3 F → XMFLOAT3 F → F
  XMVectorMultiplyAdd : F → XMFLOAT3 F → XMFLOAT3 F → XMFLOAT3 F
  XMMatrixRotationAxis : XMFLOAT3 F → F → XMFLOAT4X4 F
  XMMatrixRotationY : F → XMFLOAT4X4 F
  XMVector3TransformNormal : XMFLOAT3 F → XMFLOAT4X4 F → XMFLOAT3 F

/-- The members of `Camera` that `Camera.cpp` reads and writes (the
declaration of the class, in `Camera.h`, is not among the sources). -/
structure Camera (F : Type) where
  mPosition : XMFLOAT3 F
  mRight : XMFLOAT3 F
  mUp : XMFLOAT3 F
  mLook : XMFLOAT3 F
  mNearZ : F
  mFarZ : F
  mAspect : F
  mFovY : F
  mNearWindowHeight : F
  mFarWindowHeight : F
  mViewDirty : Bool
  mView : XMFLOAT4X4 F
  mProj : XMFLOAT4X4 F
deriving DecidableEq, Repr

namespace Camera

/-- `Camera::SetPosition(float x, float y, float z)`. -/
def SetPosition {F : Type} (x y z : F) (c : Camera F) : Camera F :=
  { c with mPosition := { x := x, y := y, z := z }, mViewDirty := true }

/-- `Camera::SetPosition(const XMFLOAT3& v)`. -/
def SetPosition3f {F : Type} (v : XMFLOAT3 F) (c : Camera F) : Camera F :=
  { c with mPosition := v, mViewDirty := true }

/-- `Camera::SetLens`. -/
def SetLens {F : Type} [Mul F] [OfNat F 2] [Div F] [One F] (dx : CameraMath F)
    (fovY aspect zn zf : F) (c : Camera F) : Camera F :=
  let t := dx.tanf (1 / 2 * fovY)
  { c with
    mFovY := fovY
    mAspect := aspect
    mNearZ := zn
    mFarZ := zf
    mNearWindowHeight := 2 * zn * t
    mFarWindowHeight := 2 * zf * t
    mProj := dx.XMMatrixPerspectiveFovLH fovY aspect zn zf }

/-- `Camera::LookAt`, both overloads (the second loads its arguments and
calls the first). -/
def LookAt {F : Type} (dx : CameraMath F) (pos target worldUp : XMFLOAT3 F) (c : Camera F) :
    Camera F :=
  let L := dx.XMVector3Normalize (dx.XMVectorSubtract target pos)
  let R := dx.XMVector3Normalize (dx.XMVector3Cross worldUp L)
  let U := dx.XMVector3Cross L R
  { c with mPosition := pos, mLook := L, mRight := R, mUp := U, mViewDirty := true }

/-- `Camera::GetView`; the `assert` is checked. -/
def GetView {F : Type} (c : Camera F) : Outcome (XMFLOAT4X4 F) :=
  if !c.mViewDirty then .ok c.mView else .assertionFailed

/-- `Camera::GetView4x4f`; the `assert` is checked. -/
def GetView4x4f {F : Type} (c : Camera F) : Outcome (XMFLOAT4X4 F) :=
  if !c.mViewDirty then .ok c.mView else .assertionFailed

/-- `Camera::Strafe`. -/
def Strafe {F : Type} (dx : CameraMath F) (d : F) (c : Camera F) : Camera F :=
  { c with mPosition := dx.XMVectorMultiplyAdd d c.mRight c.mPosition, mViewDirty := true }

/-- `Camera::Walk`. -/
def Walk {F : Type} (dx : CameraMath F) (d : F) (c : Camera F) : Camera F :=
  { c with mPosition := dx.XMVectorMultiplyAdd d c.mLook c.mPosition, mViewDirty := true }

/-- `Camera::Pitch`. -/
def Pitch {F : Type} (dx : CameraMath F) (angle : F) (c : Camera F) : Camera F :=
  let R := dx.XMMatrixRotationAxis c.mRight angle
  { c with
    mUp := dx.XMVector3TransformNormal c.mUp R
    mLook := dx.XMVector3TransformNormal c.mLook R
    mViewDirty := true }

/-- `Camera::RotateY`. -/
def RotateY {F : Type} (dx : CameraMath F) (angle : F) (c : Camera F) : Camera F :=
  let R := dx.XMMatrixRotationY angle
  { c with
    mRight := dx.XMVector3TransformNormal c.mRight R
    mUp := dx.XMVector3TransformNormal c.mUp R
    mLook := dx.XMVector3TransformNormal c.mLook R
    mViewDirty := true }

/-- `Camera::UpdateViewMatrix`. -/
def UpdateViewMatrix {F : Type} [Neg F] [Zero F] [One F] (dx : CameraMath F) (c : Camera F) :
    Camera F :=
  if c.mViewDirty then
    let R := c.mRight
    let P := c.mPosition
    let L := dx.XMVector3Normalize c.mLook
    let U := dx.XMVector3Normalize (dx.XMVector3Cross L R)
    let R := dx.XMVector3Cross U L
    let x := -dx.XMVector3Dot P R
    let y := -dx.XMVector3Dot P U
    let z := -dx.XMVector3Dot P L
    { c with
      mRight := R
      mUp := U
      mLook := L
      mView :=
        { m11 := R.x, m12 := U.x, m13 := L.x, m14 := 0
          m21 := R.y, m22 := U.y, m23 := L.y, m24 := 0
          m31 := R.z, m32 := U.z, m33 := L.z, m34 := 0
          m41 := x, m42 := y, m43 := z, m44 := 1 }
      mViewDirty := false }
  else c

end Camera

/-- A call that changes a `Camera`. -/
inductive CameraCall (F : Type) where
  | SetPosition (x y z : F)
  | SetPosition3f (v : XMFLOAT3 F)
  | SetLens (fovY aspect zn zf : F)
  | LookAt (pos target worldUp : XMFLOAT3 F)
  | Strafe (d : F)
  | Walk (d : F)
  | Pitch (angle : F)
  | RotateY (angle : F)
  | UpdateViewMatrix
deriving DecidableEq, Repr

/-- Whether the call is one of `SetPosition`, `LookAt`, `Strafe`, `Walk`,
`Pitch`, `RotateY`. -/
def CameraCall.moves {F : Type} : CameraCall F → Bool
  | .SetLens _ _ _ _ => false
  | .UpdateViewMatrix => false
  | _ => true

/-- Whether the call is `UpdateViewMatrix`. -/
def CameraCall.isUpdate {F : Type} : CameraCall F → Bool
  | .UpdateViewMatrix => true
  | _ => false

namespace Camera

/-- One call. -/
def call {F : Type} [Field F] (dx : CameraMath F) (c : Camera F) : CameraCall F → Camera F
  | .SetPosition x y z => SetPosition x y z c
  | .SetPosition3f v => SetPosition3f v c
  | .SetLens fovY aspect zn zf => SetLens dx fovY aspect zn zf c
  | .LookAt pos target worldUp => LookAt dx pos target worldUp c
  | .Strafe d => Strafe dx d c
  | .Walk d => Walk dx d c
  | .Pitch angle => Pitch dx angle c
  | .RotateY angle => RotateY dx angle c
  | .UpdateViewMatrix => UpdateViewMatrix dx c

/-- A sequence of calls, oldest first. -/
def calls {F : Type} [Field F] (dx : CameraMath F) (c : Camera F) (cs : List (CameraCall F)) :
    Camera F :=
  cs.foldl (call dx) c

end Camera

/-! ## `float` arithmetic (IEEE 754 binary32) and `CalcGaussWeights` in it -/

namespace BlurFilter

end BlurFilter

/-! ## Small concrete scenes, used to instantiate the theorems -/

/-- The translation by `(x, y, z)` as a row-vector matrix, over the integers. -/
def translation (x y z : Int) : XMFLOAT4X4 Int :=
  { m11 := 1, m12 := 0, m13 := 0, m14 := 0
    m21 := 0, m22 := 1, m23 := 0, m24 := 0
    m31 := 0, m32 := 0, m33 := 1, m34 := 0
    m41 := x, m42 := y, m43 := z, m44 := 1 }

/-- A material that has just been edited. -/
def demoMaterial (index : Nat) : Material Int :=
  { MatCBIndex := index
    DiffuseSrvHeapIndex := index
    NumFramesDirty := 3
    DiffuseAlbedo := (1, 1, 1, 1)
    FresnelR0 := (0, 0, 0)
    Roughness := 0
    MatTransform := translation 0 0 0 }

/-- Two render items and two materials, all just edited. -/
def LitColumns.demoScene : LitColumns.Scene Int :=
  { mAllRitems :=
      [ { World := translation 5 1 0, TexTransform := translation 0 0 0
          NumFramesDirty := 3, ObjCBIndex := 0 },
        { World := translation (-5) 1 0, TexTransform := translation 0 0 0
          NumFramesDirty := 3, ObjCBIndex := 1 } ]
    mMaterials := [demoMaterial 0, demoMaterial 1] }

/-- Fresh buffers for two objects and two materials. -/
def LitColumns.demoBuffers : LitColumns.Buffers Int :=
  { ObjectCB :=
      { data := List.replicate 2 ⟨translation 0 0 0, translation 0 0 0⟩, copies := [] }
    MaterialCB :=
      { data := List.replicate 2 ⟨(0, 0, 0, 0), (0, 0, 0), 0, translation 0 0 0⟩, copies := [] } }

/-- Four frames; the GPU retires one signal along the way. -/
def demoEvents {I : Type} (input : I) : List (Event I) :=
  [.update input, .draw, .update input, .draw, .gpu, .update input, .draw, .update input]

/-- The instances of an item that pass the test of `UpdateInstanceData`, in
their order in `Instances`. -/
def Instancing.survivors {F Frustum Sphere : Type} (dx : DirectXMath F Frustum Sphere)
    (view : XMFLOAT4X4 F) (mCamFrustum : Frustum) (mFrustumCullingEnabled : Bool)
    (ritem : Instancing.RenderItem F Sphere) : List (Instancing.InstanceData F) :=
  ritem.Instances.filter
    (Instancing.visibilityTest dx (dx.XMMatrixInverse view) mCamFrustum mFrustumCullingEnabled
      ritem.Bounds)

/-- The visibility rule in the words of the specification: with culling
disabled every instance is kept; with culling enabled a sphere partially
inside (`INTERSECTS`) or fully inside (`CONTAINS`) is kept and only a
`DISJOINT` one is excluded. -/
def Instancing.keptBySpec (mFrustumCullingEnabled : Bool) : ContainmentType → Bool
  | .DISJOINT => !mFrustumCullingEnabled
  | .INTERSECTS => true
  | .CONTAINS => true

/-- A one-dimensional stand-in for the library, exact over the integers, for
translations only: a frustum is an interval `[lo, hi]` of the x axis and a
sphere is a centre and a radius on that axis. -/
def Instancing.demoDX : DirectXMath Int (Int × Int) (Int × Int) :=
  { XMMatrixInverse := fun m => { m with m41 := -m.m41, m42 := -m.m42, m43 := -m.m43 }
    XMMatrixMultiply := fun m1 m2 =>
      { m1 with m41 := m1.m41 + m2.m41, m42 := m1.m42 + m2.m42, m43 := m1.m43 + m2.m43 }
    Transform := fun f m => (f.1 + m.m41, f.2 + m.m41)
    Contains := fun f s =>
      if s.1 + s.2 < f.1 ∨ f.2 < s.1 - s.2 then ContainmentType.DISJOINT
      else if f.1 ≤ s.1 - s.2 ∧ s.1 + s.2 ≤ f.2 then ContainmentType.CONTAINS
      else ContainmentType.INTERSECTS }

/-- An instance at `x` on the x axis. -/
def Instancing.demoInstance (x : Int) (material : Nat) : Instancing.InstanceData Int :=
  { World := translation x 0 0, TexTransform := translation 0 0 0, MaterialIndex := material }

/-- An item with a unit sphere and four instances: at -10 and 10 (outside the
frustum `[-2, 4]`), at 0 (inside) and at 4 (across its border). -/
def Instancing.demoItem : Instancing.RenderItem Int (Int × Int) :=
  { Bounds := (0, 1)
    Instances := [Instancing.demoInstance (-10) 0, Instancing.demoInstance 0 1,
      Instancing.demoInstance 4 2, Instancing.demoInstance 10 3]
    IndexCount := 36
    VisibleInstanceCount := 0
    StartIndexLocation := 0
    BaseVertexLocation := 0 }

/-- A fresh instance buffer with room for four instances. -/
def Instancing.demoInstanceBuffer : UploadBuffer (Instancing.InstanceData Int) :=
  { data := List.replicate 4 (Instancing.demoInstance 0 0), copies := [] }

/-- A second item for the frustum `[-2, 4]`: one instance inside, at 1, and
one outside, at 20. -/
def Instancing.demoItem2 : Instancing.RenderItem Int (Int × Int) :=
  { Bounds := (0, 1)
    Instances := [Instancing.demoInstance 1 5, Instancing.demoInstance 20 6]
    IndexCount := 36
    VisibleInstanceCount := 0
    StartIndexLocation := 0
    BaseVertexLocation := 0 }

/-- The exact library over the rationals, with frustums and spheres left out. -/
def Instancing.demoExactDX : DirectXMath ℚ Unit Unit :=
  Instancing.exactDX (fun f _ => f) (fun _ _ => ContainmentType.INTERSECTS)

/-- The view matrix of a camera at `(1, 2, 3)` that looks down the z axis. -/
def Instancing.demoView : XMFLOAT4X4 ℚ := XMMatrixTranslation (-1) (-2) (-3)

/-- An instance scaled by `(2, 4, 1)`. -/
def Instancing.demoScaled : Instancing.InstanceData ℚ :=
  { World := XMMatrixScaling 2 4 1, TexTransform := XMMatrixScaling 2 2 1, MaterialIndex := 0 }

/-- A three-dimensional stand-in for the library, exact over the integers,
for translations only: the region of a frustum is an axis-aligned box, given
by its least and its greatest corner, and a sphere is a centre and a radius.
A sphere is `DISJOINT` from the box when its squared radius is below the
squared distance from its centre to the box. -/
def Instancing.boxDX :
    DirectXMath Int ((Int × Int × Int) × (Int × Int × Int)) ((Int × Int × Int) × Int) :=
  { XMMatrixInverse := fun m => { m with m41 := -m.m41, m42 := -m.m42, m43 := -m.m43 }
    XMMatrixMultiply := fun m1 m2 =>
      { m1 with m41 := m1.m41 + m2.m41, m42 := m1.m42 + m2.m42, m43 := m1.m43 + m2.m43 }
    Transform := fun f m =>
      ((f.1.1 + m.m41, f.1.2.1 + m.m42, f.1.2.2 + m.m43),
       (f.2.1 + m.m41, f.2.2.1 + m.m42, f.2.2.2 + m.m43))
    Contains := fun f s =>
      let gap : Int → Int → Int → Int := fun lo hi c =>
        if c < lo then lo - c else if hi < c then c - hi else 0
      let gx := gap f.1.1 f.2.1 s.1.1
      let gy := gap f.1.2.1 f.2.2.1 s.1.2.1
      let gz := gap f.1.2.2 f.2.2.2 s.1.2.2
      if s.2 * s.2 < gx * gx + gy * gy + gz * gz then ContainmentType.DISJOINT
      else if f.1.1 ≤ s.1.1 - s.2 ∧ s.1.1 + s.2 ≤ f.2.1 ∧
          f.1.2.1 ≤ s.1.2.1 - s.2 ∧ s.1.2.1 + s.2 ≤ f.2.2.1 ∧
          f.1.2.2 ≤ s.1.2.2 - s.2 ∧ s.1.2.2 + s.2 ≤ f.2.2.2 then ContainmentType.CONTAINS
      else ContainmentType.INTERSECTS }

/-- The right half of the bounding box `[-100, 100]^3` of the grid, as a
region of `boxDX`. -/
def Instancing.rightHalf : (Int × Int × Int) × (Int × Int × Int) :=
  ((0, -100, -100), (100, 100, 100))

/-- The instances of the grid whose centre, the translation of their world
matrix, lies in the right half of the bounding box of the grid (its border
included). -/
def Instancing.centresInRightHalf (numMaterials : Nat) : List (Instancing.InstanceData Int) :=
  (Instancing.gridInstances numMaterials).filter fun instData =>
    decide (0 ≤ instData.World.m41 ∧ instData.World.m41 ≤ 100 ∧
      -100 ≤ instData.World.m42 ∧ instData.World.m42 ≤ 100 ∧
      -100 ≤ instData.World.m43 ∧ instData.World.m43 ≤ 100)

/-- The grid of the sample (seven materials) with the sphere of radius `r`
about the origin of the mesh as bounds. -/
def Instancing.gridItems (r : Int) : List (Instancing.RenderItem Int ((Int × Int × Int) × Int)) :=
  Instancing.BuildRenderItems ((0, 0, 0), r) 36 0 0 7

/-- A fresh instance buffer with room for the 125 instances of the grid. -/
def Instancing.gridInstanceBuffer : UploadBuffer (Instancing.InstanceData Int) :=
  { data := List.replicate 125 (Instancing.demoInstance 0 0), copies := [] }

/-- A positive stand-in for `expf` over the rationals. -/
def demoExp (x : ℚ) : ℚ := 1 / (1 + x * x)

/-- A stand-in for the formatting of a float, over the rationals. -/
def demoFormat : FloatValue ℚ → String
  | .finite x => "(" ++ toString x.num ++ "/" ++ toString x.den ++ ")"
  | .posInf => "inf"
  | .negInf => "-inf"
  | .nan => "nan"

/-- Read-back data: element `i` is `i / 4`, but element 3 is a NaN. -/
def demoData (i : Nat) : FloatValue ℚ :=
  if i = 3 then .nan else .finite ((i : ℚ) / 4)

/-- A new timer on a counter of 10 MHz. -/
def demoTimer : GameTimer ℚ := GameTimer.construct 10000000

/-- A pause before the loop starts: the timer is stopped at 10 and restarted
at 20, reset at 30, and ticks at 40. -/
def pauseBeforeReset : List TimerCall := [.Stop 10, .Start 20, .Reset 30, .Tick 40]

/-- Stand-ins for the library routines, over the rationals: vectors are
left as they are, products are 0, matrices are the identity. -/
def demoCameraMath : CameraMath ℚ :=
  { tanf := fun x => x
    XMMatrixPerspectiveFovLH := fun _ _ _ _ => XMMatrixScaling 1 1 1
    XMVectorSubtract := fun a b => { x := a.x - b.x, y := a.y - b.y, z := a.z - b.z }
    XMVector3Normalize := fun v => v
    XMVector3Cross := fun a b =>
      { x := a.y * b.z - a.z * b.y, y := a.z * b.x - a.x * b.z, z := a.x * b.y - a.y * b.x }
    XMVector3Dot := fun a b => a.x * b.x + a.y * b.y + a.z * b.z
    XMVectorMultiplyAdd := fun d v p => { x := d * v.x + p.x, y := d * v.y + p.y, z := d * v.z + p.z }
    XMMatrixRotationAxis := fun _ _ => XMMatrixScaling 1 1 1
    XMMatrixRotationY := fun _ => XMMatrixScaling 1 1 1
    XMVector3TransformNormal := fun v _ => v }

/-- A camera at the origin that looks along `z`, its view matrix up to date. -/
def demoCamera : Camera ℚ :=
  { mPosition := { x := 0, y := 0, z := 0 }
    mRight := { x := 1, y := 0, z := 0 }
    mUp := { x := 0, y := 1, z := 0 }
    mLook := { x := 0, y := 0, z := 1 }
    mNearZ := 1
    mFarZ := 1000
    mAspect := 1
    mFovY := 1
    mNearWindowHeight := 1
    mFarWindowHeight := 1000
    mViewDirty := false
    mView := XMMatrixScaling 1 1 1
    mProj := XMMatrixScaling 1 1 1 }

/-- One item with four instances and two materials, all just edited, culling
on, the frustum `[-2, 4]`. -/
def Instancing.demoScene : Instancing.Scene Int (Int × Int) (Int × Int) :=
  { mAllRitems := [Instancing.demoItem]
    mMaterials := [demoMaterial 0, demoMaterial 1]
    mFrustumCullingEnabled := true
    mCamFrustum := (-2, 4) }

/-- Fresh buffers for four instances and two materials. -/
def Instancing.demoBuffers : Instancing.Buffers Int :=
  { InstanceBuffer := Instancing.demoInstanceBuffer
    MaterialBuffer :=
      { data := List.replicate 2 (Instancing.matData (demoMaterial 0)), copies := [] } }

/-- No key down, the camera at the origin. -/
def Instancing.demoInput : Instancing.Input Int :=
  { key1 := false, key2 := false, view := translation 0 0 0 }

/-- What holds of the fence clock, the queue and the slots in every state the
events can reach while the fence clock has not wrapped. -/
structure Inv {B S : Type} (a : D3DApp B S) : Prop where
  slots : a.mFrameResources.length = gNumFrameResources
  sorted : (a.mFence :: a.mCommandQueue).Pairwise (fun x y => x < y)
  bounded : ∀ v ∈ a.mFence :: a.mCommandQueue, v ≤ a.mCurrentFence
  fences : ∀ fr ∈ a.mFrameResources, fr.Fence ≤ a.mFence ∨ fr.Fence ∈ a.mCommandQueue
  signals : a.signalled.Pairwise (fun x y => x < y)
  signalsLe : ∀ v ∈ a.signalled, v ≤ a.mCurrentFence
  frames : a.submitted.Pairwise (fun x y => x < y)
  framesLe : ∀ v ∈ a.submitted, v ≤ a.mCurrentFence

/-- What holds after `k` calls of `Update`, `k` below the ring depth: only
slots `1..k` can have been submitted. -/
structure Fresh {B S : Type} (k : Nat) (a : D3DApp B S) : Prop where
  slots : a.mFrameResources.length = gNumFrameResources
  index : a.mCurrFrameResourceIndex = (k : Int)
  current : ∀ j, a.mCurrFrameResource = some j → j = k ∧ 1 ≤ k
  fences : ∀ j fr, a.mFrameResources[j]? = some fr → fr.Fence ≠ 0 → 1 ≤ j ∧ j ≤ k

/-- What holds in addition in the loop of `Run`, where `Update` and `Draw`
alternate: every submitted frame the GPU has not reached is the one recorded
in some slot, and between `Update` and `Draw` the selected slot is reached. -/
structure LoopInv {B S : Type} (pending : Bool) (a : D3DApp B S) : Prop where
  inv : Inv a
  held : ∀ v ∈ a.submitted, a.mFence < v →
    ∃ (j : Nat) (fr : FrameResource B), a.mFrameResources[j]? = some fr ∧ fr.Fence = v
  free : pending = true →
    ∃ (j : Nat) (fr : FrameResource B), a.mCurrFrameResource = some j ∧
      a.mFrameResources[j]? = some fr ∧ fr.Fence ≤ a.mFence

/-- What holds of the fences of the slots, given the slots submitted so far,
while the fence clock has not wrapped. -/
structure SlotInv {B S : Type} (drawn : List Nat) (a : D3DApp B S) : Prop where
  le : ∀ j f, fenceAt a j = some f → f ≤ a.mCurrentFence
  nonzero : ∀ j ∈ drawn, ∃ f, fenceAt a j = some f ∧ f ≠ 0
  distinct : ∀ i j f, i ≠ j → fenceAt a i = some f → fenceAt a j = some f → f = 0

/-- How the members of a timer relate to what the description of
`TotalTime` refers to, `carried` being the counts spent stopped before the
most recent `Reset`. -/
structure TimerRel {F : Type} (t : GameTimer F) (w : GameTimer.Stopwatch) (carried : Int) :
    Prop where
  stopped : w.stoppedAt = if t.mStopped then some t.mStopTime else none
  latest : w.latestTick = t.mCurrTime
  paused : t.mPausedTime = w.stoppedCounts + carried
  base : ∀ resetTime, w.resetTime = some resetTime → t.mBaseTime = resetTime

/-- An operation on lists that stores `g t` at every index `t` of `[lo, hi)`
and leaves the other elements and the length alone. -/
def Fills {α : Type} (op : List α → List α) (lo hi : Nat) (g : Nat → α) : Prop :=
  ∀ l : List α, (op l).length = l.length ∧
    ∀ t, t < l.length → (op l)[t]? = if lo ≤ t ∧ t < hi then some (g t) else l[t]?

/-! ## The frame loop: ring and fence -/

theorem waitForFence_ge {t c : Nat} {q : List Nat} {r : Nat × List Nat}
    (h : waitForFence t c q = some r) : t ≤ r.1 := by
  induction q generalizing c with
  | nil =>
    simp only [waitForFence] at h
    split at h
    · cases h; assumption
    · cases h
  | cons v q ih =>
    simp only [waitForFence] at h
    split at h
    · cases h; assumption
    · exact ih h

theorem waitForFence_suffix {t c : Nat} {q : List Nat} {r : Nat × List Nat}
    (h : waitForFence t c q = some r) : (r.1 :: r.2) <:+ (c :: q) := by
  induction q generalizing c with
  | nil =>
    simp only [waitForFence] at h
    split at h
    · cases h; exact List.suffix_refl _
    · cases h
  | cons v q ih =>
    simp only [waitForFence] at h
    split at h
    · cases h; exact List.suffix_refl _
    · exact (ih h).trans (List.suffix_cons c (v :: q))

theorem waitForFence_total {t c : Nat} {q : List Nat} (h : t ≤ c ∨ t ∈ q) :
    ∃ r, waitForFence t c q = some r := by
  induction q generalizing c with
  | nil =>
    rcases h with h | h
    · exact ⟨(c, []), by simp [waitForFence, h]⟩
    · cases h
  | cons v q ih =>
    by_cases hc : t ≤ c
    · exact ⟨(c, v :: q), by simp [waitForFence, hc]⟩
    · simp only [waitForFence, hc, if_false]
      apply ih
      rcases h with h | h
      · exact absurd h hc
      · rcases List.mem_cons.1 h with h | h
        · exact Or.inl (le_of_eq h)
        · exact Or.inr h

theorem mustWait_false_iff (f c : Nat) : mustWait f c = false ↔ f = 0 ∨ f ≤ c := by
  unfold mustWait
  by_cases h0 : f = 0
  · simp [h0]
  · simp [h0, Nat.not_lt]

theorem acquire_spec {B S : Type} {a : D3DApp B S} {idx : Int} {j : Nat} {fr : FrameResource B}
    {c : Nat} {q : List Nat} (h : acquire a = some (idx, j, fr, c, q)) :
    idx = Int.tmod (a.mCurrFrameResourceIndex + 1) (gNumFrameResources : Int) ∧
    slotIndex idx = some j ∧ a.mFrameResources[j]? = some fr ∧
    (fr.Fence = 0 ∨ fr.Fence ≤ c) ∧ (c :: q) <:+ (a.mFence :: a.mCommandQueue) ∧
    (mustWait fr.Fence a.mFence = false → c = a.mFence ∧ q = a.mCommandQueue) := by
  unfold acquire at h
  simp only at h
  split at h
  · cases h
  · rename_i j1 hj
    split at h
    · cases h
    · rename_i fr1 hfr
      split at h
      · cases h
      · rename_i c1 q1 hw
        cases h
        refine ⟨rfl, hj, hfr, ?_, ?_, ?_⟩
        · split at hw
          · exact Or.inr (waitForFence_ge hw)
          · rename_i hm
            cases hw
            exact (mustWait_false_iff _ _).1 (by simpa using hm)
        · split at hw
          · exact waitForFence_suffix hw
          · cases hw; exact List.suffix_refl _
        · intro hm
          rw [hm] at hw
          simp at hw
          exact ⟨hw.1.symm, hw.2.symm⟩

theorem slotIndex_spec {i : Int} {j : Nat} (h : slotIndex i = some j) :
    (j : Int) = i ∧ j < gNumFrameResources := by
  unfold slotIndex at h
  split at h
  · rename_i hi
    cases h
    simp only [gNumFrameResources] at hi ⊢
    omega
  · cases h

theorem Update_spec {I B S : Type} {upd : I → S → B → Option (S × B)} {input : I}
    {a a1 : D3DApp B S} (h : Update upd input a = some a1) :
    ∃ idx j fr c q sc b, acquire a = some (idx, j, fr, c, q) ∧
      upd input a.scene fr.buffers = some (sc, b) ∧
      a1 = { a with
        mCurrFrameResourceIndex := idx
        mCurrFrameResource := some j
        mFence := c
        mCommandQueue := q
        scene := sc
        mFrameResources := a.mFrameResources.set j { fr with buffers := b } } := by
  unfold Update at h
  split at h
  · cases h
  · rename_i idx j fr c q hacq
    split at h
    · cases h
    · rename_i sc b hupd
      cases h
      exact ⟨idx, j, fr, c, q, sc, b, hacq, hupd, rfl⟩

theorem Draw_spec {B S : Type} {a a1 : D3DApp B S} (h : Draw a = some a1) :
    ∃ j fr, a.mCurrFrameResource = some j ∧ a.mFrameResources[j]? = some fr ∧
      a1 = { a with
        mCurrentFence := (a.mCurrentFence + 1) % UINT64_SIZE
        mFrameResources :=
          a.mFrameResources.set j { fr with Fence := (a.mCurrentFence + 1) % UINT64_SIZE }
        mCommandQueue := a.mCommandQueue ++ [(a.mCurrentFence + 1) % UINT64_SIZE]
        signalled := a.signalled ++ [(a.mCurrentFence + 1) % UINT64_SIZE]
        submitted := a.submitted ++ [(a.mCurrentFence + 1) % UINT64_SIZE] } := by
  unfold Draw at h
  split at h
  · cases h
  · rename_i j hj
    split at h
    · cases h
    · rename_i fr hfr
      cases h
      exact ⟨j, fr, hj, hfr, rfl⟩

theorem FlushCommandQueue_spec {B S : Type} {a a1 : D3DApp B S}
    (h : FlushCommandQueue a = some a1) :
    ∃ c q, (c :: q) <:+ (a.mFence :: (a.mCommandQueue ++ [(a.mCurrentFence + 1) % UINT64_SIZE])) ∧
      (a.mCurrentFence + 1) % UINT64_SIZE ≤ c ∧
      a1 = { a with
        mCurrentFence := (a.mCurrentFence + 1) % UINT64_SIZE
        mFence := c
        mCommandQueue := q
        signalled := a.signalled ++ [(a.mCurrentFence + 1) % UINT64_SIZE] } := by
  unfold FlushCommandQueue at h
  simp only at h
  split at h
  · cases h
  · rename_i c q hw
    cases h
    refine ⟨c, q, ?_, ?_, rfl⟩
    · split at hw
      · exact waitForFence_suffix hw
      · cases hw; exact List.suffix_refl _
    · split at hw
      · exact waitForFence_ge hw
      · rename_i hlt
        cases hw
        exact Nat.le_of_not_lt hlt

theorem gpuStep_spec {B S : Type} (a : D3DApp B S) :
    ∃ c q, (c :: q) <:+ (a.mFence :: a.mCommandQueue) ∧
      gpuStep a = { a with mFence := c, mCommandQueue := q } := by
  unfold gpuStep
  split
  · rename_i hq
    exact ⟨a.mFence, [], by rw [hq], by rw [← hq]⟩
  · rename_i v q hq
    exact ⟨v, q, by rw [hq]; exact List.suffix_cons _ _, rfl⟩

/-- In a strictly increasing list, what stands before a suffix is below the
head of the suffix. -/
theorem sorted_suffix_split {l : List Nat} {c : Nat} {q : List Nat}
    (hs : l.Pairwise (fun x y => x < y)) (hsuf : (c :: q) <:+ l) :
    ∀ x ∈ l, x ≤ c ∨ x ∈ q := by
  obtain ⟨pre, rfl⟩ := hsuf
  intro x hx
  rcases List.mem_append.1 hx with hx | hx
  · exact Or.inl (le_of_lt ((List.pairwise_append.1 hs).2.2 x hx c (List.mem_cons_self _ _)))
  · rcases List.mem_cons.1 hx with hx | hx
    · exact Or.inl (le_of_eq hx)
    · exact Or.inr hx

theorem head_le_of_suffix {h c : Nat} {t q : List Nat}
    (hs : (h :: t).Pairwise (fun x y => x < y)) (hsuf : (c :: q) <:+ (h :: t)) : h ≤ c := by
  rcases List.suffix_cons_iff.1 hsuf with heq | hsuf1
  · cases heq; exact le_refl _
  · exact le_of_lt ((List.pairwise_cons.1 hs).1 c (hsuf1.subset (List.mem_cons_self _ _)))

theorem inv_gpu {B S : Type} {a : D3DApp B S} (h : Inv a) {c : Nat} {q : List Nat}
    (hsuf : (c :: q) <:+ (a.mFence :: a.mCommandQueue)) :
    Inv { a with mFence := c, mCommandQueue := q } where
  slots := h.slots
  sorted := h.sorted.sublist hsuf.sublist
  bounded := fun v hv => h.bounded v (hsuf.subset hv)
  fences := by
    intro fr hfr
    rcases h.fences fr hfr with h1 | h1
    · exact Or.inl (le_trans h1 (head_le_of_suffix h.sorted hsuf))
    · exact sorted_suffix_split h.sorted hsuf fr.Fence (List.mem_cons_of_mem _ h1)
  signals := h.signals
  signalsLe := h.signalsLe
  frames := h.frames
  framesLe := h.framesLe

theorem pairwise_lt_snoc {l : List Nat} {f n : Nat} (hs : l.Pairwise (fun x y => x < y))
    (hle : ∀ v ∈ l, v ≤ n) (hf : n < f) : (l ++ [f]).Pairwise (fun x y => x < y) := by
  refine List.pairwise_append.2 ⟨hs, List.pairwise_singleton _ _, ?_⟩
  intro x hx y hy
  rw [List.mem_singleton] at hy
  subst hy
  exact lt_of_le_of_lt (hle x hx) hf

theorem inv_signal {B S : Type} {a : D3DApp B S} (h : Inv a) :
    Inv { a with
      mCurrentFence := a.mCurrentFence + 1
      mCommandQueue := a.mCommandQueue ++ [a.mCurrentFence + 1]
      signalled := a.signalled ++ [a.mCurrentFence + 1] } where
  slots := h.slots
  sorted := by
    have := pairwise_lt_snoc h.sorted h.bounded (Nat.lt_succ_self a.mCurrentFence)
    simpa using this
  bounded := by
    intro v hv
    rcases List.mem_cons.1 hv with hv | hv
    · exact le_trans (h.bounded v (by simp [hv])) (Nat.le_succ _)
    · rcases List.mem_append.1 hv with hv | hv
      · exact le_trans (h.bounded v (List.mem_cons_of_mem _ hv)) (Nat.le_succ _)
      · exact le_of_eq (List.mem_singleton.1 hv)
  fences := by
    intro fr hfr
    rcases h.fences fr hfr with h1 | h1
    · exact Or.inl h1
    · exact Or.inr (List.mem_append_left _ h1)
  signals := pairwise_lt_snoc h.signals h.signalsLe (Nat.lt_succ_self _)
  signalsLe := by
    intro v hv
    rcases List.mem_append.1 hv with hv | hv
    · exact le_trans (h.signalsLe v hv) (Nat.le_succ _)
    · exact le_of_eq (List.mem_singleton.1 hv)
  frames := h.frames
  framesLe := fun v hv => le_trans (h.framesLe v hv) (Nat.le_succ _)

theorem mod_of_nowrap {n : Nat} (h : n + 1 < UINT64_SIZE) : (n + 1) % UINT64_SIZE = n + 1 :=
  Nat.mod_eq_of_lt h

theorem inv_update {I B S : Type} {upd : I → S → B → Option (S × B)} {input : I}
    {a a1 : D3DApp B S} (h : Inv a) (hu : Update upd input a = some a1) : Inv a1 := by
  obtain ⟨idx, j, fr, c, q, sc, b, hacq, -, rfl⟩ := Update_spec hu
  obtain ⟨-, -, hfr, -, hsuf, -⟩ := acquire_spec hacq
  have hg := inv_gpu h hsuf
  exact
    { slots := by simpa using h.slots
      sorted := hg.sorted
      bounded := hg.bounded
      fences := by
        intro fr1 hfr1
        rcases List.mem_or_eq_of_mem_set hfr1 with hm | hm
        · exact hg.fences fr1 hm
        · subst hm
          exact hg.fences fr (List.getElem?_mem hfr)
      signals := hg.signals
      signalsLe := hg.signalsLe
      frames := hg.frames
      framesLe := hg.framesLe }

theorem inv_draw {B S : Type} {a a1 : D3DApp B S} (h : Inv a)
    (hw : a.mCurrentFence + 1 < UINT64_SIZE) (hd : Draw a = some a1) : Inv a1 := by
  obtain ⟨j, fr, -, -, rfl⟩ := Draw_spec hd
  rw [mod_of_nowrap hw]
  have hs := inv_signal h
  exact
    { slots := by simpa using h.slots
      sorted := hs.sorted
      bounded := hs.bounded
      fences := by
        intro fr1 hfr1
        rcases List.mem_or_eq_of_mem_set hfr1 with hm | hm
        · exact hs.fences fr1 hm
        · subst hm
          exact Or.inr (by simp)
      signals := hs.signals
      signalsLe := hs.signalsLe
      frames := pairwise_lt_snoc h.frames h.framesLe (Nat.lt_succ_self _)
      framesLe := by
        intro v hv
        rcases List.mem_append.1 hv with hv | hv
        · exact le_trans (h.framesLe v hv) (Nat.le_succ _)
        · exact le_of_eq (List.mem_singleton.1 hv) }

theorem inv_flush {B S : Type} {a a1 : D3DApp B S} (h : Inv a)
    (hw : a.mCurrentFence + 1 < UINT64_SIZE) (hf : FlushCommandQueue a = some a1) : Inv a1 := by
  obtain ⟨c, q, hsuf, -, rfl⟩ := FlushCommandQueue_spec hf
  rw [mod_of_nowrap hw] at hsuf ⊢
  exact inv_gpu (inv_signal h) hsuf

theorem inv_gpuStep {B S : Type} {a : D3DApp B S} (h : Inv a) : Inv (gpuStep a) := by
  obtain ⟨c, q, hsuf, heq⟩ := gpuStep_spec a
  rw [heq]
  exact inv_gpu h hsuf

theorem inv_init {B S : Type} (b : B) (sc : S) : Inv (init b sc) where
  slots := by simp [Luna.init]
  sorted := by simp [Luna.init]
  bounded := by simp [Luna.init]
  fences := by
    intro fr hfr
    simp only [Luna.init] at hfr
    rw [List.eq_of_mem_replicate hfr]
    exact Or.inl (le_refl _)
  signals := by simp [Luna.init]
  signalsLe := by simp [Luna.init]
  frames := by simp [Luna.init]
  framesLe := by simp [Luna.init]

/-- The fence clock after a step: one more for `Draw` and a flush, unchanged
otherwise. -/
theorem step_fence {I B S : Type} {upd : I → S → B → Option (S × B)} {e : Event I}
    {a a1 : D3DApp B S} (h : step upd e a = some a1) :
    a1.mCurrentFence = if e.ticks then (a.mCurrentFence + 1) % UINT64_SIZE else a.mCurrentFence := by
  cases e with
  | update input =>
    obtain ⟨idx, j, fr, c, q, sc, b, -, -, rfl⟩ := Update_spec h
    rfl
  | draw =>
    obtain ⟨j, fr, -, -, rfl⟩ := Draw_spec h
    rfl
  | flush =>
    obtain ⟨c, q, -, -, rfl⟩ := FlushCommandQueue_spec h
    rfl
  | gpu =>
    obtain ⟨c, q, -, heq⟩ := gpuStep_spec a
    simp only [step, Option.some.injEq] at h
    rw [← h, heq]
    rfl

theorem inv_step {I B S : Type} {upd : I → S → B → Option (S × B)} {e : Event I}
    {a a1 : D3DApp B S} (h : Inv a) (hw : e.ticks = true → a.mCurrentFence + 1 < UINT64_SIZE)
    (hs : step upd e a = some a1) : Inv a1 := by
  cases e with
  | update input => exact inv_update h hs
  | draw => exact inv_draw h (hw rfl) hs
  | flush => exact inv_flush h (hw rfl) hs
  | gpu =>
    simp only [Luna.step, Option.some.injEq] at hs
    rw [← hs]
    exact inv_gpuStep h

theorem run_cons {I B S : Type} {upd : I → S → B → Option (S × B)} {e : Event I}
    {es : List (Event I)} {a a2 : D3DApp B S} (h : run upd (e :: es) a = some a2) :
    ∃ a1, step upd e a = some a1 ∧ run upd es a1 = some a2 := by
  simp only [run] at h
  exact Option.bind_eq_some.1 h

theorem inv_run {I B S : Type} {upd : I → S → B → Option (S × B)} {es : List (Event I)}
    {a a2 : D3DApp B S} (h : Inv a)
    (hw : a.mCurrentFence + es.countP Event.ticks < UINT64_SIZE)
    (hr : run upd es a = some a2) :
    Inv a2 ∧ a2.mCurrentFence = a.mCurrentFence + es.countP Event.ticks := by
  induction es generalizing a with
  | nil =>
    simp only [Luna.run, Option.some.injEq] at hr
    subst hr
    exact ⟨h, by simp⟩
  | cons e es ih =>
    obtain ⟨a1, hs, hr1⟩ := run_cons hr
    have hf := step_fence hs
    rw [List.countP_cons] at hw ⊢
    by_cases ht : e.ticks = true
    · simp only [ht, if_true] at hw hf ⊢
      have hw1 : a.mCurrentFence + 1 < UINT64_SIZE := by omega
      rw [mod_of_nowrap hw1] at hf
      have := ih (inv_step h (fun _ => hw1) hs) (by rw [hf]; omega) hr1
      exact ⟨this.1, by rw [this.2, hf]; omega⟩
    · simp only [ht] at hw hf ⊢
      have := ih (inv_step h (fun hh => absurd hh ht) hs) (by rw [hf]; simpa using hw) hr1
      exact ⟨this.1, by rw [this.2, hf]; simp⟩

theorem tmod_three_eq_emod (x : Int) (h0 : 0 ≤ Int.tmod x 3) : Int.tmod x 3 = x % 3 := by
  cases x with
  | ofNat n => exact Int.tmod_eq_emod (Int.ofNat_nonneg n) (by decide)
  | negSucc n =>
    have h1 : Int.tmod (Int.negSucc n) 3 = -(((n + 1) % 3 : Nat) : Int) := rfl
    rw [h1] at h0 ⊢
    have h2 : Int.negSucc n = -((n : Int) + 1) := rfl
    rw [h2]
    omega

theorem acquire_ring {B S : Type} {a : D3DApp B S} {idx : Int} {j : Nat} {fr : FrameResource B}
    {c : Nat} {q : List Nat} (h : acquire a = some (idx, j, fr, c, q)) :
    j < 3 ∧ idx = (j : Int) ∧ (j : Int) = (a.mCurrFrameResourceIndex + 1) % 3 := by
  obtain ⟨hidx, hj, -, -, -, -⟩ := acquire_spec h
  obtain ⟨hji, hj3⟩ := slotIndex_spec hj
  have h3 : ((gNumFrameResources : Nat) : Int) = 3 := rfl
  rw [h3] at hidx
  have h0 : 0 ≤ Int.tmod (a.mCurrFrameResourceIndex + 1) 3 := by
    rw [← hidx, ← hji]; exact Int.ofNat_nonneg j
  refine ⟨hj3, hji.symm, ?_⟩
  rw [hji, hidx]
  exact tmod_three_eq_emod _ h0

theorem Update_ring {I B S : Type} {upd : I → S → B → Option (S × B)} {input : I}
    {a a1 : D3DApp B S} (h : Update upd input a = some a1) :
    ∃ j : Nat, j < 3 ∧ a1.mCurrFrameResourceIndex = (j : Int) ∧
      (j : Int) = (a.mCurrFrameResourceIndex + 1) % 3 ∧ a1.mCurrFrameResource = some j := by
  obtain ⟨idx, j, fr, c, q, sc, b, hacq, -, rfl⟩ := Update_spec h
  obtain ⟨h1, h2, h3⟩ := acquire_ring hacq
  exact ⟨j, h1, h2, h3, rfl⟩

/-- Events other than `Update` leave the ring index, the selected slot, the
scene and the buffers of every slot alone. -/
theorem step_keeps_ring {I B S : Type} {upd : I → S → B → Option (S × B)} {e : Event I}
    {a a1 : D3DApp B S} (h : step upd e a = some a1) (hu : e.isUpdate = false) :
    a1.mCurrFrameResourceIndex = a.mCurrFrameResourceIndex ∧
    a1.mCurrFrameResource = a.mCurrFrameResource ∧ a1.scene = a.scene ∧
    a1.mFrameResources.length = a.mFrameResources.length ∧
    ∀ j : Nat, (a1.mFrameResources[j]?).map FrameResource.buffers =
      (a.mFrameResources[j]?).map FrameResource.buffers := by
  cases e with
  | update input => cases hu
  | draw =>
    obtain ⟨j, fr, -, hfr, rfl⟩ := Draw_spec h
    refine ⟨rfl, rfl, rfl, by simp, ?_⟩
    intro i
    by_cases hij : j = i
    · subst hij
      have hlt : j < a.mFrameResources.length := (List.getElem?_eq_some.1 hfr).1
      simp only [List.getElem?_set_self hlt, hfr, Option.map_some']
    · simp only [List.getElem?_set_ne hij]
  | flush =>
    obtain ⟨c, q, -, -, rfl⟩ := FlushCommandQueue_spec h
    exact ⟨rfl, rfl, rfl, rfl, fun _ => rfl⟩
  | gpu =>
    obtain ⟨c, q, -, heq⟩ := gpuStep_spec a
    simp only [step, Option.some.injEq] at h
    rw [← h, heq]
    exact ⟨rfl, rfl, rfl, rfl, fun _ => rfl⟩

theorem countP_isUpdate_cons {I : Type} (e : Event I) (es : List (Event I)) :
    (e :: es).countP Event.isUpdate = es.countP Event.isUpdate + (if e.isUpdate then 1 else 0) :=
  List.countP_cons _ _ _

theorem ring_run {I B S : Type} {upd : I → S → B → Option (S × B)} {es : List (Event I)}
    {a a2 : D3DApp B S} (hr : run upd es a = some a2) (i : Nat) (hi : i < 3)
    (hidx : a.mCurrFrameResourceIndex = (i : Int)) :
    a2.mCurrFrameResourceIndex = (((i + es.countP Event.isUpdate) % 3 : Nat) : Int) ∧
    (1 ≤ es.countP Event.isUpdate →
      a2.mCurrFrameResource = some ((i + es.countP Event.isUpdate) % 3)) ∧
    (es.countP Event.isUpdate = 0 → a2.mCurrFrameResource = a.mCurrFrameResource) := by
  induction es generalizing a i with
  | nil =>
    simp only [run, Option.some.injEq] at hr
    subst hr
    refine ⟨?_, ?_, fun _ => rfl⟩
    · rw [hidx]; simp [Nat.mod_eq_of_lt hi]
    · intro h; simp at h
  | cons e es ih =>
    obtain ⟨a1, hs, hr1⟩ := run_cons hr
    rw [countP_isUpdate_cons]
    cases hu : e.isUpdate with
    | false =>
      obtain ⟨h1, h2, -, -, -⟩ := step_keeps_ring hs hu
      have := ih hr1 i hi (by rw [h1, hidx])
      simp only [Bool.false_eq_true, if_false, Nat.add_zero]
      exact ⟨this.1, this.2.1, fun h => by rw [this.2.2 h, h2]⟩
    | true =>
      cases e with
      | update input =>
        obtain ⟨j, hj, hj1, hj2, hj3⟩ := Update_ring hs
        rw [hidx] at hj2
        have hji : j = (i + 1) % 3 := by omega
        have := ih hr1 j hj hj1
        simp only [if_true]
        have hmod : (j + es.countP Event.isUpdate) % 3
            = (i + (es.countP Event.isUpdate + 1)) % 3 := by omega
        rw [← hmod]
        refine ⟨this.1, ?_, fun h => by omega⟩
        intro _
        by_cases hk : 1 ≤ es.countP Event.isUpdate
        · exact this.2.1 hk
        · have hk0 : es.countP Event.isUpdate = 0 := by omega
          rw [this.2.2 hk0, hj3, hk0, Nat.add_zero, Nat.mod_eq_of_lt hj]
      | draw => cases hu
      | flush => cases hu
      | gpu => cases hu

theorem fresh_init {B S : Type} (b : B) (sc : S) : Fresh 0 (init b sc) where
  slots := by simp [Luna.init]
  index := rfl
  current := by intro j hj; cases hj
  fences := by
    intro j fr hfr hne
    have := List.eq_of_mem_replicate (List.getElem?_mem hfr)
    rw [this] at hne
    exact absurd rfl hne

theorem fresh_step {I B S : Type} {upd : I → S → B → Option (S × B)} {e : Event I}
    {a a1 : D3DApp B S} {k : Nat} (h : Fresh k a) (hs : step upd e a = some a1)
    (hk : k + (if e.isUpdate then 1 else 0) < 3) :
    Fresh (k + (if e.isUpdate then 1 else 0)) a1 := by
  cases e with
  | update input =>
    simp only [Event.isUpdate, if_true] at hk ⊢
    obtain ⟨idx, j, fr, c, q, sc, b, hacq, -, rfl⟩ := Update_spec hs
    obtain ⟨-, -, hfr, -, -, -⟩ := acquire_spec hacq
    obtain ⟨h1, h2, h3⟩ := acquire_ring hacq
    rw [h.index] at h3
    have hjk : j = k + 1 := by omega
    exact
      { slots := by simpa using h.slots
        index := by simp only [h2, hjk]
        current := by
          intro j1 hj1
          simp only [Option.some.injEq] at hj1
          omega
        fences := by
          intro j1 fr1 hfr1 hne
          by_cases hij : j = j1
          · subst hij
            have hlt : j < a.mFrameResources.length := (List.getElem?_eq_some.1 hfr).1
            rw [List.getElem?_set_self hlt, Option.some.injEq] at hfr1
            subst hfr1
            have := h.fences j fr hfr hne
            omega
          · rw [List.getElem?_set_ne hij] at hfr1
            have := h.fences j1 fr1 hfr1 hne
            omega }
  | draw =>
    simp only [Event.isUpdate, Bool.false_eq_true, if_false, Nat.add_zero] at hk ⊢
    obtain ⟨j, fr, hcur, hfr, rfl⟩ := Draw_spec hs
    obtain ⟨hjk, hk1⟩ := h.current j hcur
    exact
      { slots := by simpa using h.slots
        index := h.index
        current := h.current
        fences := by
          intro j1 fr1 hfr1 hne
          by_cases hij : j = j1
          · omega
          · rw [List.getElem?_set_ne hij] at hfr1
            exact h.fences j1 fr1 hfr1 hne }
  | flush =>
    simp only [Event.isUpdate, Bool.false_eq_true, if_false, Nat.add_zero] at hk ⊢
    obtain ⟨c, q, -, -, rfl⟩ := FlushCommandQueue_spec hs
    exact ⟨h.slots, h.index, h.current, h.fences⟩
  | gpu =>
    simp only [Event.isUpdate, Bool.false_eq_true, if_false, Nat.add_zero] at hk ⊢
    obtain ⟨c, q, -, heq⟩ := gpuStep_spec a
    simp only [Luna.step, Option.some.injEq] at hs
    rw [← hs, heq]
    exact ⟨h.slots, h.index, h.current, h.fences⟩

theorem fresh_run {I B S : Type} {upd : I → S → B → Option (S × B)} {es : List (Event I)}
    {a a2 : D3DApp B S} {k : Nat} (h : Fresh k a) (hr : run upd es a = some a2)
    (hk : k + es.countP Event.isUpdate < 3) : Fresh (k + es.countP Event.isUpdate) a2 := by
  induction es generalizing a k with
  | nil =>
    simp only [Luna.run, Option.some.injEq] at hr
    subst hr
    simpa using h
  | cons e es ih =>
    obtain ⟨a1, hs, hr1⟩ := run_cons hr
    rw [countP_isUpdate_cons] at hk ⊢
    have h1 := fresh_step h hs (by omega)
    have := ih h1 hr1 (by omega)
    have heq : k + (if e.isUpdate = true then 1 else 0) + es.countP Event.isUpdate
        = k + (es.countP Event.isUpdate + if e.isUpdate = true then 1 else 0) := by omega
    rw [heq] at this
    exact this

theorem slotIndex_natCast {j : Nat} (hj : j < 3) : slotIndex (j : Int) = some j := by
  unfold slotIndex
  rw [if_pos]
  · simp
  · simp only [gNumFrameResources]
    omega

theorem acquire_total {B S : Type} {a : D3DApp B S} (h : Inv a) (i : Nat)
    (hidx : a.mCurrFrameResourceIndex = (i : Int)) : ∃ r, acquire a = some r := by
  have h3 : ((gNumFrameResources : Nat) : Int) = 3 := rfl
  have htm : Int.tmod (a.mCurrFrameResourceIndex + 1) (gNumFrameResources : Int)
      = (((i + 1) % 3 : Nat) : Int) := by
    rw [hidx, h3, Int.ofNat_tmod]
    rfl
  have hlt : (i + 1) % 3 < a.mFrameResources.length := by
    rw [h.slots]; exact Nat.mod_lt _ (by decide)
  obtain ⟨fr, hfr⟩ : ∃ fr, a.mFrameResources[(i + 1) % 3]? = some fr :=
    ⟨_, List.getElem?_eq_getElem hlt⟩
  have hmem := List.getElem?_mem hfr
  unfold acquire
  simp only [htm, slotIndex_natCast (Nat.mod_lt (i + 1) (by decide : 0 < 3)), hfr]
  cases hm : mustWait fr.Fence a.mFence with
  | false => exact ⟨_, rfl⟩
  | true =>
    obtain ⟨r, hr⟩ := waitForFence_total (h.fences fr hmem)
    simp only [if_true, hr]
    exact ⟨_, rfl⟩

theorem iterate_gpuStep {B S : Type} (n : Nat) (a : D3DApp B S) :
    ∃ c q, gpuStep^[n] a = { a with mFence := c, mCommandQueue := q } := by
  induction n with
  | zero => exact ⟨a.mFence, a.mCommandQueue, rfl⟩
  | succ n ih =>
    obtain ⟨c, q, hcq⟩ := ih
    obtain ⟨c1, q1, -, h1⟩ := gpuStep_spec (gpuStep^[n] a)
    rw [Function.iterate_succ_apply', h1, hcq]
    exact ⟨c1, q1, rfl⟩

theorem step_signalled {I B S : Type} {upd : I → S → B → Option (S × B)} {e : Event I}
    {a a1 : D3DApp B S} (h : step upd e a = some a1) :
    a1.signalled =
      if e.ticks then a.signalled ++ [(a.mCurrentFence + 1) % UINT64_SIZE] else a.signalled := by
  cases e with
  | update input =>
    obtain ⟨idx, j, fr, c, q, sc, b, -, -, rfl⟩ := Update_spec h
    rfl
  | draw =>
    obtain ⟨j, fr, -, -, rfl⟩ := Draw_spec h
    rfl
  | flush =>
    obtain ⟨c, q, -, -, rfl⟩ := FlushCommandQueue_spec h
    rfl
  | gpu =>
    obtain ⟨c, q, -, heq⟩ := gpuStep_spec a
    simp only [step, Option.some.injEq] at h
    rw [← h, heq]
    rfl

theorem loopInv_gpu {B S : Type} {p : Bool} {a : D3DApp B S} (h : LoopInv p a) {c : Nat}
    {q : List Nat} (hsuf : (c :: q) <:+ (a.mFence :: a.mCommandQueue)) :
    LoopInv p { a with mFence := c, mCommandQueue := q } where
  inv := inv_gpu h.inv hsuf
  held := by
    intro v hv hlt
    exact h.held v hv (lt_of_le_of_lt (head_le_of_suffix h.inv.sorted hsuf) hlt)
  free := by
    intro hp
    obtain ⟨j, fr, h1, h2, h3⟩ := h.free hp
    exact ⟨j, fr, h1, h2, le_trans h3 (head_le_of_suffix h.inv.sorted hsuf)⟩

theorem loopInv_init {B S : Type} (b : B) (sc : S) : LoopInv false (init b sc) where
  inv := inv_init b sc
  held := by intro v hv; simp [Luna.init] at hv
  free := by intro h; cases h

theorem loopInv_step {I B S : Type} {upd : I → S → B → Option (S × B)} {e : Event I}
    {es : List (Event I)} {p : Bool} {a a1 : D3DApp B S} (h : LoopInv p a)
    (hl : frameLoop p (e :: es) = true)
    (hw : e.ticks = true → a.mCurrentFence + 1 < UINT64_SIZE)
    (hs : step upd e a = some a1) :
    LoopInv (pendingAfter p [e]) a1 ∧ frameLoop (pendingAfter p [e]) es = true := by
  cases e with
  | update input =>
    simp only [frameLoop, Bool.and_eq_true, Bool.not_eq_true'] at hl
    refine ⟨?_, hl.2⟩
    have hinv1 := inv_update h.inv hs
    obtain ⟨idx, j, fr, c, q, sc, b, hacq, -, rfl⟩ := Update_spec hs
    obtain ⟨-, -, hfr, hf, hsuf, -⟩ := acquire_spec hacq
    have hg := loopInv_gpu h hsuf
    have hlt : j < a.mFrameResources.length := (List.getElem?_eq_some.1 hfr).1
    exact
      { inv := hinv1
        held := by
          intro v hv hlt1
          obtain ⟨j1, fr1, h1, h2⟩ := hg.held v hv hlt1
          by_cases hij : j = j1
          · subst hij
            refine ⟨j, { fr with buffers := b }, List.getElem?_set_self hlt, ?_⟩
            have : some fr1 = some fr := h1.symm.trans hfr
            rw [← h2, Option.some.inj this]
          · exact ⟨j1, fr1, by simp only [List.getElem?_set_ne hij]; exact h1, h2⟩
        free := by
          intro _
          refine ⟨j, { fr with buffers := b }, rfl, List.getElem?_set_self hlt, ?_⟩
          rcases hf with hf | hf
          · show fr.Fence ≤ c
            rw [hf]; exact Nat.zero_le _
          · exact hf }
  | draw =>
    simp only [frameLoop, Bool.and_eq_true] at hl
    refine ⟨?_, hl.2⟩
    have hinv1 := inv_draw h.inv (hw rfl) hs
    obtain ⟨jc, frc, hc1, hc2, hc3⟩ := h.free hl.1
    obtain ⟨j, fr, hcur, hfr, rfl⟩ := Draw_spec hs
    have hjj : jc = j := Option.some.inj (hc1.symm.trans hcur)
    subst hjj
    have hff : frc = fr := Option.some.inj (hc2.symm.trans hfr)
    subst hff
    have hlt : jc < a.mFrameResources.length := (List.getElem?_eq_some.1 hfr).1
    exact
      { inv := hinv1
        held := by
          intro v hv hlt1
          rcases List.mem_append.1 hv with hv | hv
          · obtain ⟨j1, fr1, h1, h2⟩ := h.held v hv hlt1
            have hij : jc ≠ j1 := by
              intro hij
              subst hij
              have : frc = fr1 := Option.some.inj (hfr.symm.trans h1)
              subst this
              have hlt2 : a.mFence < v := hlt1
              omega
            exact ⟨j1, fr1, by simp only [List.getElem?_set_ne hij]; exact h1, h2⟩
          · rw [List.mem_singleton] at hv
            exact ⟨jc, _, List.getElem?_set_self hlt, hv.symm⟩
        free := by intro hp; cases hp }
  | flush =>
    simp only [frameLoop, Bool.and_eq_true, Bool.not_eq_true'] at hl
    refine ⟨?_, hl.2⟩
    have hinv1 := inv_flush h.inv (hw rfl) hs
    obtain ⟨c, q, -, hge, rfl⟩ := FlushCommandQueue_spec hs
    rw [mod_of_nowrap (hw rfl)] at hge
    exact
      { inv := hinv1
        held := by
          intro v hv hlt1
          have h1 : v ≤ a.mCurrentFence := h.inv.framesLe v hv
          have h2 : c < v := hlt1
          omega
        free := by intro hp; cases hp }
  | gpu =>
    simp only [frameLoop] at hl
    refine ⟨?_, hl⟩
    obtain ⟨c, q, hsuf, heq⟩ := gpuStep_spec a
    simp only [Luna.step, Option.some.injEq] at hs
    rw [← hs, heq]
    exact loopInv_gpu h hsuf

theorem pendingAfter_cons {I : Type} (p : Bool) (e : Event I) (es : List (Event I)) :
    pendingAfter p (e :: es) = pendingAfter (pendingAfter p [e]) es := by
  cases e <;> rfl

theorem loopInv_run {I B S : Type} {upd : I → S → B → Option (S × B)} {es : List (Event I)}
    {p : Bool} {a a2 : D3DApp B S} (h : LoopInv p a) (hl : frameLoop p es = true)
    (hw : a.mCurrentFence + es.countP Event.ticks < UINT64_SIZE)
    (hr : run upd es a = some a2) : LoopInv (pendingAfter p es) a2 := by
  induction es generalizing a p with
  | nil =>
    simp only [Luna.run, Option.some.injEq] at hr
    subst hr
    exact h
  | cons e es ih =>
    obtain ⟨a1, hs, hr1⟩ := run_cons hr
    have hf := step_fence hs
    rw [List.countP_cons] at hw
    have hw1 : e.ticks = true → a.mCurrentFence + 1 < UINT64_SIZE := by
      intro ht
      simp only [ht, if_true] at hw
      omega
    obtain ⟨h1, hl1⟩ := loopInv_step h hl hw1 hs
    rw [pendingAfter_cons]
    refine ih h1 hl1 ?_ hr1
    by_cases ht : e.ticks = true
    · simp only [ht, if_true] at hw hf
      rw [hf, mod_of_nowrap (hw1 ht)]
      omega
    · simp only [ht] at hw hf
      rw [hf]
      simpa using hw

/-- A duplicate-free list whose members all come from a list of indices
through `g` is no longer than that list. -/
theorem length_le_of_indexed {l : List Nat} {J : List Nat} {g : Nat → Option Nat}
    (hnd : l.Nodup) (hg : ∀ v ∈ l, ∃ j ∈ J, g j = some v) : l.length ≤ J.length := by
  have h1 : (l.map some).Nodup := hnd.map (fun _ _ h => Option.some.inj h)
  have h2 : l.map some ⊆ J.map g := by
    intro x hx
    obtain ⟨v, hv, rfl⟩ := List.mem_map.1 hx
    obtain ⟨j, hj, hgj⟩ := hg v hv
    exact List.mem_map.2 ⟨j, hj, hgj⟩
  have := (h1.subperm h2).length_le
  simpa using this

theorem loopInv_inFlight_le {B S : Type} {p : Bool} {a : D3DApp B S} (h : LoopInv p a) :
    inFlight a ≤ 3 ∧ (p = true → inFlight a ≤ 2) := by
  have hnd : (a.submitted.filter (fun v => decide (a.mFence < v))).Nodup :=
    (h.inv.frames.imp (fun hlt => Nat.ne_of_lt hlt)).filter _
  have hslot : ∀ v ∈ a.submitted.filter (fun v => decide (a.mFence < v)),
      ∃ j, j < 3 ∧ (a.mFrameResources[j]?).map FrameResource.Fence = some v ∧ a.mFence < v := by
    intro v hv
    obtain ⟨hv1, hv2⟩ := List.mem_filter.1 hv
    have hlt : a.mFence < v := of_decide_eq_true hv2
    obtain ⟨j, fr, h1, h2⟩ := h.held v hv1 hlt
    have hj : j < a.mFrameResources.length := (List.getElem?_eq_some.1 h1).1
    rw [h.inv.slots] at hj
    exact ⟨j, hj, by rw [h1, ← h2]; rfl, hlt⟩
  constructor
  · have := length_le_of_indexed (J := List.range 3)
      (g := fun j => (a.mFrameResources[j]?).map FrameResource.Fence) hnd
      (fun v hv => by
        obtain ⟨j, hj, hg, -⟩ := hslot v hv
        exact ⟨j, List.mem_range.2 hj, hg⟩)
    simpa [inFlight] using this
  · intro hp
    obtain ⟨jc, frc, -, hc2, hc3⟩ := h.free hp
    have hjc : jc < a.mFrameResources.length := (List.getElem?_eq_some.1 hc2).1
    rw [h.inv.slots] at hjc
    have hjc : jc < 3 := hjc
    have := length_le_of_indexed (J := (List.range 3).erase jc)
      (g := fun j => (a.mFrameResources[j]?).map FrameResource.Fence) hnd
      (fun v hv => by
        obtain ⟨j, hj, hg, hlt⟩ := hslot v hv
        refine ⟨j, ?_, hg⟩
        rw [(List.nodup_range 3).mem_erase_iff]
        refine ⟨?_, List.mem_range.2 hj⟩
        intro hjj
        subst hjj
        rw [hc2] at hg
        have : frc.Fence = v := Option.some.inj hg
        omega)
    rw [List.length_erase_of_mem (List.mem_range.2 hjc)] at this
    simpa [inFlight] using this

/-! ### The claims about the ring and the fence clock -/

/-- C1 (ring non-overlap). In every state the events reach from the start
while the fence clock has not wrapped, the ring part of `Update` returns (its
wait ends), and whenever `Update` has returned, the `Fence` stored in the slot
it selected is 0 or at most the completed value of the fence. -/
theorem ring_non_overlap {I B S : Type} (upd : I → S → B → Option (S × B)) (b : B) (sc : S)
    (es : List (Event I)) (a : D3DApp B S) (hr : run upd es (init b sc) = some a)
    (hw : es.countP Event.ticks < UINT64_SIZE) :
    (acquire a).isSome = true ∧
    ∀ input a1, Update upd input a = some a1 →
      ∃ f, currFence a1 = some f ∧ (f = 0 ∨ f ≤ a1.mFence) := by
  have hinv := (inv_run (inv_init b sc) (by simpa [Luna.init] using hw) hr).1
  have hring := (ring_run hr 0 (by decide) rfl).1
  constructor
  · obtain ⟨r, hr1⟩ := acquire_total hinv _ hring
    rw [hr1]; rfl
  · intro input a1 hu
    obtain ⟨idx, j, fr, c, q, sc1, b1, hacq, -, rfl⟩ := Update_spec hu
    obtain ⟨-, -, hfr, hf, -, -⟩ := acquire_spec hacq
    have hlt : j < a.mFrameResources.length := (List.getElem?_eq_some.1 hfr).1
    refine ⟨fr.Fence, ?_, hf⟩
    simp only [currFence, List.getElem?_set_self hlt, Option.map_some']

theorem ring_non_overlap_witness :
    run noWrites threeIdleFrames (init () ()) = some afterThreeIdleFrames ∧
    (acquire afterThreeIdleFrames).isSome = true ∧
    ∀ input a1, Update noWrites input afterThreeIdleFrames = some a1 →
      ∃ f, currFence a1 = some f ∧ (f = 0 ∨ f ≤ a1.mFence) :=
  ⟨by decide,
    ring_non_overlap noWrites () () threeIdleFrames afterThreeIdleFrames (by decide)
      (by decide)⟩

/-- C2 (ring index). After `k` calls of `Update` from the start the index is
`k mod 3`, lies in `[0, 3)`, and for `k ≥ 1` the selected slot is slot
`k mod 3`; every further `Update` that returns sets the index to
`(index + 1) mod 3` and selects that slot. -/
theorem ring_index_advances {I B S : Type} (upd : I → S → B → Option (S × B)) (b : B) (sc : S)
    (es : List (Event I)) (a : D3DApp B S) (hr : run upd es (init b sc) = some a) :
    a.mCurrFrameResourceIndex = ((es.countP Event.isUpdate % gNumFrameResources : Nat) : Int) ∧
    (0 ≤ a.mCurrFrameResourceIndex ∧ a.mCurrFrameResourceIndex < 3) ∧
    (1 ≤ es.countP Event.isUpdate →
      a.mCurrFrameResource = some (es.countP Event.isUpdate % gNumFrameResources)) ∧
    ∀ input a1, Update upd input a = some a1 →
      a1.mCurrFrameResourceIndex = (a.mCurrFrameResourceIndex + 1) % (gNumFrameResources : Int) ∧
      a1.mCurrFrameResourceIndex
        = (((es.countP Event.isUpdate + 1) % gNumFrameResources : Nat) : Int) ∧
      a1.mCurrFrameResource = some ((es.countP Event.isUpdate + 1) % gNumFrameResources) := by
  obtain ⟨h1, h2, -⟩ := ring_run hr 0 (by decide) rfl
  simp only [Nat.zero_add] at h1 h2
  have h3 : gNumFrameResources = 3 := rfl
  rw [h3]
  refine ⟨h1, by omega, h2, ?_⟩
  intro input a1 hu
  obtain ⟨j, hj, hj1, hj2, hj3⟩ := Update_ring hu
  have hj4 : j = (es.countP Event.isUpdate + 1) % 3 := by omega
  refine ⟨by rw [hj1, hj2]; rfl, by rw [hj1, hj4], by rw [hj3, hj4]⟩

theorem ring_index_advances_witness :
    run noWrites threeFrames (init () ()) = some afterThreeFrames ∧
    afterThreeFrames.mCurrFrameResourceIndex = ((3 % 3 : Nat) : Int) ∧
    afterThreeFrames.mCurrFrameResource = some (3 % 3) :=
  ⟨by decide,
    (ring_index_advances noWrites () () threeFrames afterThreeFrames (by decide)).1,
    (ring_index_advances noWrites () () threeFrames afterThreeFrames (by decide)).2.2.1
      (by decide)⟩

/-- C3 (the first frames never wait). From freshly built frame resources,
after fewer than `gNumFrameResources` calls of `Update` the next call selects
slot `(k + 1) mod 3`, finds its `Fence` equal to 0, fails the wait test for
every completed value, and leaves the fence and the queue as they were. -/
theorem first_frames_never_wait {I B S : Type} (upd : I → S → B → Option (S × B)) (b : B)
    (sc : S) (es : List (Event I)) (a : D3DApp B S) (hr : run upd es (init b sc) = some a)
    (hk : es.countP Event.isUpdate < gNumFrameResources) :
    ∃ fr, acquire a = some ((((es.countP Event.isUpdate + 1) % gNumFrameResources : Nat) : Int),
        (es.countP Event.isUpdate + 1) % gNumFrameResources, fr, a.mFence, a.mCommandQueue) ∧
      a.mFrameResources[(es.countP Event.isUpdate + 1) % gNumFrameResources]? = some fr ∧
      fr.Fence = 0 ∧ ∀ c, mustWait fr.Fence c = false := by
  have h3 : gNumFrameResources = 3 := rfl
  rw [h3] at hk ⊢
  have hf := fresh_run (fresh_init b sc) hr (by omega)
  rw [Nat.zero_add] at hf
  generalize es.countP Event.isUpdate = k at hk hf
  have htm : Int.tmod (a.mCurrFrameResourceIndex + 1) ((3 : Nat) : Int)
      = (((k + 1) % 3 : Nat) : Int) := by
    rw [hf.index, Int.ofNat_tmod]
    rfl
  have hlt : (k + 1) % 3 < a.mFrameResources.length := by
    rw [hf.slots]; exact Nat.mod_lt _ (by decide)
  obtain ⟨fr, hfr⟩ : ∃ fr, a.mFrameResources[(k + 1) % 3]? = some fr :=
    ⟨_, List.getElem?_eq_getElem hlt⟩
  have hz : fr.Fence = 0 := by
    by_contra hne
    have := hf.fences _ fr hfr hne
    omega
  refine ⟨fr, ?_, hfr, hz, fun c => by simp [mustWait, hz]⟩
  unfold acquire
  simp only [h3, htm, slotIndex_natCast (Nat.mod_lt (k + 1) (by decide : 0 < 3)), hfr]
  simp [mustWait, hz]

theorem first_frames_never_wait_witness :
    run noWrites twoFrames (init () ()) = some afterTwoFrames ∧
    ∃ fr, acquire afterTwoFrames
        = some ((((2 + 1) % 3 : Nat) : Int), (2 + 1) % 3, fr, afterTwoFrames.mFence,
            afterTwoFrames.mCommandQueue) ∧
      afterTwoFrames.mFrameResources[(2 + 1) % 3]? = some fr ∧
      fr.Fence = 0 ∧ ∀ c, mustWait fr.Fence c = false :=
  ⟨by decide,
    first_frames_never_wait noWrites () () twoFrames afterTwoFrames (by decide) (by decide)⟩

/-- C5 (submission). After an `Update` that returned (and any progress of the
GPU since), `Draw` returns; it sets `mCurrentFence` to its successor as a
64-bit value, which is `mCurrentFence + 1` unless the counter wraps, stores
that value in the `Fence` of the slot `Update` selected, and leaves the other
slots, the ring index and the selected slot unchanged. -/
theorem draw_records_fence {I B S : Type} (upd : I → S → B → Option (S × B)) (input : I)
    (n : Nat) (a0 a1 : D3DApp B S) (hu : Update upd input a0 = some a1) :
    ∃ j fr a2, a1.mCurrFrameResource = some j ∧ (j : Int) = a1.mCurrFrameResourceIndex ∧
      (gpuStep^[n] a1).mFrameResources[j]? = some fr ∧
      Draw (gpuStep^[n] a1) = some a2 ∧
      a2.mCurrentFence = (a1.mCurrentFence + 1) % UINT64_SIZE ∧
      (a1.mCurrentFence + 1 < UINT64_SIZE → a2.mCurrentFence = a1.mCurrentFence + 1) ∧
      a2.mFrameResources[j]? = some { fr with Fence := a2.mCurrentFence } ∧
      (∀ i : Nat, i ≠ j → a2.mFrameResources[i]? = a1.mFrameResources[i]?) ∧
      a2.mFrameResources.length = a1.mFrameResources.length ∧
      a2.mCurrFrameResourceIndex = a1.mCurrFrameResourceIndex ∧
      a2.mCurrFrameResource = a1.mCurrFrameResource := by
  obtain ⟨idx, j, fr, c, q, sc, b, hacq, -, rfl⟩ := Update_spec hu
  obtain ⟨-, -, hfr, -, -, -⟩ := acquire_spec hacq
  obtain ⟨-, hidx, -⟩ := acquire_ring hacq
  have hlt : j < a0.mFrameResources.length := (List.getElem?_eq_some.1 hfr).1
  obtain ⟨c1, q1, hg⟩ := iterate_gpuStep n
    ({ a0 with
        mCurrFrameResourceIndex := idx
        mCurrFrameResource := some j
        mFence := c
        mCommandQueue := q
        scene := sc
        mFrameResources := a0.mFrameResources.set j { fr with buffers := b } } : D3DApp B S)
  rw [hg]
  have hlt1 : j < (a0.mFrameResources.set j { fr with buffers := b }).length := by simpa using hlt
  have hget : (a0.mFrameResources.set j { fr with buffers := b })[j]?
      = some { fr with buffers := b } := List.getElem?_set_self hlt
  refine ⟨j, { fr with buffers := b },
    { mCurrentFence := (a0.mCurrentFence + 1) % UINT64_SIZE
      mFence := c1
      mCommandQueue := q1 ++ [(a0.mCurrentFence + 1) % UINT64_SIZE]
      signalled := a0.signalled ++ [(a0.mCurrentFence + 1) % UINT64_SIZE]
      submitted := a0.submitted ++ [(a0.mCurrentFence + 1) % UINT64_SIZE]
      mFrameResources := (a0.mFrameResources.set j { fr with buffers := b }).set j
        { Fence := (a0.mCurrentFence + 1) % UINT64_SIZE, buffers := b }
      mCurrFrameResource := some j
      mCurrFrameResourceIndex := idx
      scene := sc },
    rfl, hidx.symm, hget, ?_, rfl, fun h => Nat.mod_eq_of_lt h, ?_, ?_, ?_, rfl, rfl⟩
  · simp only [Draw, hget]
  · exact List.getElem?_set_self hlt1
  · intro i hi
    exact List.getElem?_set_ne (Ne.symm hi)
  · simp

theorem draw_records_fence_witness :
    Update noWrites () afterThreeFrames = some fourthUpdate ∧
    ∃ j fr a2, fourthUpdate.mCurrFrameResource = some j ∧
      (j : Int) = fourthUpdate.mCurrFrameResourceIndex ∧
      (gpuStep^[1] fourthUpdate).mFrameResources[j]? = some fr ∧
      Draw (gpuStep^[1] fourthUpdate) = some a2 ∧
      a2.mCurrentFence = (fourthUpdate.mCurrentFence + 1) % UINT64_SIZE ∧
      (fourthUpdate.mCurrentFence + 1 < UINT64_SIZE →
        a2.mCurrentFence = fourthUpdate.mCurrentFence + 1) ∧
      a2.mFrameResources[j]? = some { fr with Fence := a2.mCurrentFence } ∧
      (∀ i : Nat, i ≠ j → a2.mFrameResources[i]? = fourthUpdate.mFrameResources[i]?) ∧
      a2.mFrameResources.length = fourthUpdate.mFrameResources.length ∧
      a2.mCurrFrameResourceIndex = fourthUpdate.mCurrFrameResourceIndex ∧
      a2.mCurrFrameResource = fourthUpdate.mCurrFrameResource :=
  ⟨by decide, draw_records_fence noWrites () 1 afterThreeFrames fourthUpdate (by decide)⟩

/-- C6 (the fence clock is strictly increasing). While the 64-bit counter has
not wrapped, `mCurrentFence` equals the number of `Draw` submissions and
flushes so far and the values signalled on the queue are strictly
increasing; a `Draw` or a flush raises the counter by exactly 1 and signals
the new value, and no other event changes the counter or signals. -/
theorem fence_clock_strictly_increasing {I B S : Type} (upd : I → S → B → Option (S × B))
    (b : B) (sc : S) (es : List (Event I)) (a : D3DApp B S)
    (hr : run upd es (init b sc) = some a) (hw : es.countP Event.ticks < UINT64_SIZE) :
    a.mCurrentFence = es.countP Event.ticks ∧
    a.signalled.Pairwise (fun x y => x < y) ∧
    (∀ v ∈ a.signalled, v ≤ a.mCurrentFence) ∧
    ∀ e a1, step upd e a = some a1 →
      (e.ticks = true → a.mCurrentFence + 1 < UINT64_SIZE →
        a1.mCurrentFence = a.mCurrentFence + 1 ∧
        a1.signalled = a.signalled ++ [a.mCurrentFence + 1]) ∧
      (e.ticks = false →
        a1.mCurrentFence = a.mCurrentFence ∧ a1.signalled = a.signalled) := by
  obtain ⟨hinv, hf⟩ := inv_run (inv_init b sc) (by simpa [Luna.init] using hw) hr
  refine ⟨by simpa [Luna.init] using hf, hinv.signals, hinv.signalsLe, ?_⟩
  intro e a1 hs
  have h1 := step_fence hs
  have h2 := step_signalled hs
  constructor
  · intro ht hlt
    rw [ht, if_pos rfl, mod_of_nowrap hlt] at h1 h2
    exact ⟨h1, h2⟩
  · intro ht
    rw [ht] at h1 h2
    exact ⟨h1, h2⟩

theorem fence_clock_strictly_increasing_witness :
    run noWrites threeFrames (init () ()) = some afterThreeFrames ∧
    afterThreeFrames.mCurrentFence = threeFrames.countP Event.ticks ∧
    afterThreeFrames.signalled.Pairwise (fun x y => x < y) :=
  ⟨by decide,
    (fence_clock_strictly_increasing noWrites () () threeFrames afterThreeFrames (by decide)
      (by decide)).1,
    (fence_clock_strictly_increasing noWrites () () threeFrames afterThreeFrames (by decide)
      (by decide)).2.1⟩

/-- C4, as stated, fails: after three frames with the GPU idle, three
submitted frames are unreached, at a point of the frame loop. -/
theorem in_flight_bound_counterexample :
    frameLoop false threeIdleFrames = true ∧
    run noWrites threeIdleFrames (init () ()) = some afterThreeIdleFrames ∧
    inFlight afterThreeIdleFrames = 3 ∧
    ¬ (inFlight afterThreeIdleFrames ≤ gNumFrameResources - 1) := by
  decide

/-- C4, amended. At every point of the frame loop, while the fence clock has
not wrapped, at most `gNumFrameResources = 3` submitted frames are unreached,
and at most `gNumFrameResources - 1 = 2` from the return of `Update` until
`Draw` submits. -/
theorem in_flight_bound {I B S : Type} (upd : I → S → B → Option (S × B)) (b : B) (sc : S)
    (es : List (Event I)) (a : D3DApp B S) (hl : frameLoop false es = true)
    (hr : run upd es (init b sc) = some a) (hw : es.countP Event.ticks < UINT64_SIZE) :
    inFlight a ≤ gNumFrameResources ∧
    (pendingAfter false es = true → inFlight a ≤ gNumFrameResources - 1) :=
  loopInv_inFlight_le
    (loopInv_run (loopInv_init b sc) hl (by simpa [Luna.init] using hw) hr)

theorem in_flight_bound_witness :
    frameLoop false (threeFrames ++ [.update ()]) = true ∧
    run noWrites (threeFrames ++ [.update ()]) (init () ()) = some fourthUpdate ∧
    inFlight fourthUpdate ≤ gNumFrameResources ∧
    (pendingAfter false (threeFrames ++ [.update ()]) = true →
      inFlight fourthUpdate ≤ gNumFrameResources - 1) :=
  ⟨by decide, by decide,
    in_flight_bound noWrites () () (threeFrames ++ [.update ()]) fourthUpdate (by decide)
      (by decide) (by decide)⟩

/-! ## Dirty counters -/

theorem CopyData_spec {T : Type} {b b1 : UploadBuffer T} {i : Nat} {d : T}
    (h : b.CopyData i d = some b1) :
    i < b.data.length ∧ b1.data = b.data.set i d ∧ b1.copies = b.copies ++ [i] := by
  unfold UploadBuffer.CopyData at h
  split at h
  · rename_i hlt
    cases h
    exact ⟨hlt, rfl, rfl⟩
  · cases h

theorem count_singleton_ne {a b : Nat} (h : b ≠ a) : List.count a [b] = 0 := by
  rw [List.count_eq_zero]
  simpa using h.symm

theorem dirtyLoop_cons {E T : Type} {ops : DirtyOps E T} {cb cb2 : UploadBuffer T} {e : E}
    {es es2 : List E} (h : dirtyLoop ops cb (e :: es) = some (cb2, es2)) :
    ∃ cb1 es1, dirtyLoop ops cb1 es = some (cb2, es1) ∧ es2 = ops.refresh e :: es1 ∧
      ((0 < ops.dirty e ∧ cb.CopyData (ops.index e) (ops.consts e) = some cb1) ∨
        (¬ 0 < ops.dirty e ∧ cb1 = cb)) := by
  simp only [dirtyLoop] at h
  split at h
  · rename_i hd
    split at h
    · cases h
    · rename_i cb1 hc
      split at h
      · cases h
      · rename_i cb3 es1 hl
        cases h
        exact ⟨cb1, es1, hl, by simp [DirtyOps.refresh, hd], Or.inl ⟨hd, hc⟩⟩
  · rename_i hd
    split at h
    · cases h
    · rename_i cb3 es1 hl
      cases h
      exact ⟨cb, es1, hl, by simp [DirtyOps.refresh, hd], Or.inr ⟨hd, rfl⟩⟩

theorem dirtyLoop_items {E T : Type} {ops : DirtyOps E T} {cb cb2 : UploadBuffer T}
    {es es2 : List E} (h : dirtyLoop ops cb es = some (cb2, es2)) :
    es2 = es.map ops.refresh := by
  induction es generalizing cb es2 with
  | nil =>
    simp only [dirtyLoop, Option.some.injEq, Prod.mk.injEq] at h
    rw [← h.2]; rfl
  | cons e es ih =>
    obtain ⟨cb1, es1, hl, heq, -⟩ := dirtyLoop_cons h
    rw [heq, ih hl]; rfl

/-- Elements with another index leave element `c` of the buffer alone. -/
theorem dirtyLoop_other {E T : Type} {ops : DirtyOps E T} {c : Nat} {cb cb2 : UploadBuffer T}
    {es es2 : List E} (hne : ∀ x ∈ es, ops.index x ≠ c)
    (h : dirtyLoop ops cb es = some (cb2, es2)) :
    cb2.copies.count c = cb.copies.count c ∧ cb2.data[c]? = cb.data[c]? := by
  induction es generalizing cb es2 with
  | nil =>
    simp only [dirtyLoop, Option.some.injEq, Prod.mk.injEq] at h
    rw [← h.1]; exact ⟨rfl, rfl⟩
  | cons e es ih =>
    obtain ⟨cb1, es1, hl, -, hcase⟩ := dirtyLoop_cons h
    have h1 := ih (fun x hx => hne x (List.mem_cons_of_mem _ hx)) hl
    rcases hcase with ⟨-, hc⟩ | ⟨-, rfl⟩
    · obtain ⟨-, hdata, hcopies⟩ := CopyData_spec hc
      have hec : ops.index e ≠ c := hne e (List.mem_cons_self _ _)
      rw [h1.1, h1.2, hdata, hcopies, List.getElem?_set_ne hec, List.count_append,
        count_singleton_ne hec]
      exact ⟨rfl, rfl⟩
    · exact h1

/-- The effect of one pass on the buffer element of an item whose index no
other item shares. -/
theorem dirtyLoop_at {E T : Type} {ops : DirtyOps E T} {cb cb2 : UploadBuffer T}
    {es es2 : List E} {p : Nat} {e : E} (he : es[p]? = some e)
    (huniq : ∀ (q : Nat) (x : E), es[q]? = some x → q ≠ p → ops.index x ≠ ops.index e)
    (h : dirtyLoop ops cb es = some (cb2, es2)) :
    cb2.copies.count (ops.index e)
      = cb.copies.count (ops.index e) + (if 0 < ops.dirty e then 1 else 0) ∧
    cb2.data[ops.index e]?
      = if 0 < ops.dirty e then some (ops.consts e) else cb.data[ops.index e]? := by
  induction es generalizing cb es2 p with
  | nil => simp at he
  | cons x xs ih =>
    obtain ⟨cb1, es1, hl, -, hcase⟩ := dirtyLoop_cons h
    cases p with
    | zero =>
      simp only [List.getElem?_cons_zero, Option.some.injEq] at he
      subst he
      have hne : ∀ y ∈ xs, ops.index y ≠ ops.index x := by
        intro y hy
        obtain ⟨q, hq⟩ := List.mem_iff_getElem?.1 hy
        exact huniq (q + 1) y (by simpa using hq) (by omega)
      have h1 := dirtyLoop_other hne hl
      rcases hcase with ⟨hd, hc⟩ | ⟨hd, rfl⟩
      · obtain ⟨hlt, hdata, hcopies⟩ := CopyData_spec hc
        rw [h1.1, h1.2, hdata, hcopies, List.getElem?_set_self hlt, List.count_append]
        simp [hd]
      · rw [h1.1, h1.2]
        simp [hd]
    | succ n =>
      have he1 : xs[n]? = some e := by simpa using he
      have hxe : ops.index x ≠ ops.index e := huniq 0 x (by simp) (by omega)
      have h1 := ih he1
        (fun q y hq hqn => huniq (q + 1) y (by simpa using hq) (by omega)) hl
      rcases hcase with ⟨-, hc⟩ | ⟨-, rfl⟩
      · obtain ⟨-, hdata, hcopies⟩ := CopyData_spec hc
        rw [h1.1, h1.2, hdata, hcopies, List.getElem?_set_ne hxe, List.count_append,
          count_singleton_ne hxe]
        exact ⟨by omega, rfl⟩
      · exact h1

theorem refreshed_zero (i j : Nat) : refreshed i 0 j = false := rfl

theorem refreshed_facts :
    ∀ i < 3, ∀ m < 3, ∀ j < 3,
      refreshed i (m + 1) j = (decide ((i + 1) % 3 = j) || refreshed ((i + 1) % 3) m j) ∧
      refreshed ((i + 1) % 3) m ((i + 1) % 3) = false := by
  decide

theorem refreshed_all : ∀ i < 3, ∀ j < 3, refreshed i 3 j = true := by
  decide

theorem refresh_index {E T : Type} {ops : DirtyOps E T} (law : ops.Lawful) (x : E) :
    ops.index (ops.refresh x) = ops.index x := by
  unfold DirtyOps.refresh
  split
  · exact law.index_tick x
  · rfl

theorem refresh_consts {E T : Type} {ops : DirtyOps E T} (law : ops.Lawful) (x : E) :
    ops.consts (ops.refresh x) = ops.consts x := by
  unfold DirtyOps.refresh
  split
  · exact law.consts_tick x
  · rfl

theorem refresh_dirty {E T : Type} {ops : DirtyOps E T} (law : ops.Lawful) (x : E) (n : Nat)
    (hd : ops.dirty x = (n : Int)) : ops.dirty (ops.refresh x) = ((n - 1 : Nat) : Int) := by
  unfold DirtyOps.refresh
  split
  · rw [law.dirty_tick x]; omega
  · omega

theorem refresh_iterate {E T : Type} {ops : DirtyOps E T} (x : E) (n k : Nat)
    (hd : ops.dirty x = (n : Int)) :
    ops.tick^[min k (n - 1)] (ops.refresh x) = ops.tick^[min (k + 1) n] x := by
  unfold DirtyOps.refresh
  cases n with
  | zero =>
    have h0 : ¬ ops.dirty x > 0 := by omega
    simp [h0]
  | succ n =>
    have h0 : ops.dirty x > 0 := by omega
    rw [if_pos h0, Nat.succ_min_succ, Function.iterate_succ_apply]
    rfl

theorem bufferAt_set {B T : Type} (buf : B → UploadBuffer T)
    (l : List (FrameResource B)) (j0 j : Nat) (fr0 : FrameResource B) (b : B)
    (hfr : l[j0]? = some fr0) :
    (((l.set j0 { fr0 with buffers := b })[j]?).map fun fr => buf fr.buffers)
      = if j = j0 then some (buf b) else (l[j]?).map fun fr => buf fr.buffers := by
  have hlt : j0 < l.length := (List.getElem?_eq_some.1 hfr).1
  by_cases hj : j = j0
  · subst hj
    rw [List.getElem?_set_self hlt, if_pos rfl]
    rfl
  · rw [List.getElem?_set_ne (Ne.symm hj), if_neg hj]

/-- The dirty counter of an item with an index of its own, along any sequence
of events: after `k` calls of `Update` the item has been refreshed
`min k n` times, once in each of the slots those calls selected. -/
theorem dirty_run {I B S E T : Type} {upd : I → S → B → Option (S × B)} (ops : DirtyOps E T)
    (law : ops.Lawful) (items : S → List E) (buf : B → UploadBuffer T)
    (H : ∀ input sc b sc1 b1, upd input sc b = some (sc1, b1) →
      dirtyLoop ops (buf b) (items sc) = some (buf b1, items sc1))
    {es : List (Event I)} {a a2 : D3DApp B S} (hr : run upd es a = some a2)
    (i n p : Nat) (e : E) (hi : i < 3) (hidx : a.mCurrFrameResourceIndex = (i : Int))
    (he : (items a.scene)[p]? = some e) (hn : n ≤ 3) (hd : ops.dirty e = (n : Int))
    (huniq : ∀ (q : Nat) (x : E), (items a.scene)[q]? = some x → q ≠ p →
      ops.index x ≠ ops.index e) :
    (items a2.scene)[p]? = some (ops.tick^[min (es.countP Event.isUpdate) n] e) ∧
    ∀ j < 3, ∀ cb, bufferAt buf a j = some cb →
      ∃ cb2, bufferAt buf a2 j = some cb2 ∧
        cb2.copies.count (ops.index e) = cb.copies.count (ops.index e) +
          (if refreshed i (min (es.countP Event.isUpdate) n) j then 1 else 0) ∧
        cb2.data[ops.index e]? =
          if refreshed i (min (es.countP Event.isUpdate) n) j then some (ops.consts e)
          else cb.data[ops.index e]? := by
  induction es generalizing a i n e with
  | nil =>
    simp only [run, Option.some.injEq] at hr
    subst hr
    refine ⟨by simpa using he, ?_⟩
    intro j _ cb hcb
    exact ⟨cb, hcb, by simp [refreshed_zero], by simp [refreshed_zero]⟩
  | cons ev es ih =>
    obtain ⟨a1, hs, hr1⟩ := run_cons hr
    rw [countP_isUpdate_cons]
    cases hu : ev.isUpdate with
    | false =>
      obtain ⟨h1, -, h3, -, h5⟩ := step_keeps_ring hs hu
      have hb : ∀ j, bufferAt buf a1 j = bufferAt buf a j := by
        intro j
        have := congrArg (Option.map buf) (h5 j)
        simpa [bufferAt, Option.map_map, Function.comp_def] using this
      have := ih hr1 i n e hi (by rw [h1, hidx]) (by rw [h3]; exact he) hn hd
        (by rw [h3]; exact huniq)
      simp only [Bool.false_eq_true, if_false, Nat.add_zero]
      refine ⟨this.1, ?_⟩
      intro j hj cb hcb
      exact this.2 j hj cb (by rw [hb]; exact hcb)
    | true =>
      cases ev with
      | update input =>
        simp only [if_true]
        obtain ⟨idx, j0, fr0, c, q, sc, b, hacq, hupd, rfl⟩ := Update_spec hs
        obtain ⟨-, -, hfr, -, -, -⟩ := acquire_spec hacq
        obtain ⟨hj0, hidx0, hmod⟩ := acquire_ring hacq
        rw [hidx] at hmod
        have hj0i : j0 = (i + 1) % 3 := by omega
        have hloop := H input a.scene fr0.buffers sc b hupd
        have hitems := dirtyLoop_items hloop
        have hat := dirtyLoop_at he huniq hloop
        have he1 : (items sc)[p]? = some (ops.refresh e) := by
          rw [hitems, List.getElem?_map, he]; rfl
        have huniq1 : ∀ (q : Nat) (x : E), (items sc)[q]? = some x → q ≠ p →
            ops.index x ≠ ops.index (ops.refresh e) := by
          intro q1 x hx hq
          rw [hitems, List.getElem?_map] at hx
          obtain ⟨y, hy, rfl⟩ := Option.map_eq_some'.1 hx
          rw [refresh_index law, refresh_index law]
          exact huniq q1 y hy hq
        have ih1 := ih hr1 j0 (n - 1) (ops.refresh e) hj0 hidx0 he1 (by omega)
          (refresh_dirty law e n hd) huniq1
        rw [refresh_iterate e n _ hd, refresh_index law, refresh_consts law] at ih1
        refine ⟨ih1.1, ?_⟩
        intro j hj cb hcb
        have hb1 : bufferAt buf
            ({ a with
                mCurrFrameResourceIndex := idx
                mCurrFrameResource := some j0
                mFence := c
                mCommandQueue := q
                scene := sc
                mFrameResources := a.mFrameResources.set j0 { fr0 with buffers := b } } :
              D3DApp B S) j
            = if j = j0 then some (buf b) else bufferAt buf a j :=
          bufferAt_set buf a.mFrameResources j0 j fr0 b hfr
        have hm1 : min (es.countP Event.isUpdate) (n - 1) < 3 := by omega
        obtain ⟨hrec, hself⟩ := refreshed_facts i hi _ hm1 j hj
        rw [← hj0i] at hrec hself
        by_cases hjj : j = j0
        · subst hjj
          rw [if_pos rfl] at hb1
          have hcb0 : cb = buf fr0.buffers := by
            have : bufferAt buf a j = some (buf fr0.buffers) := by
              simp only [bufferAt, hfr, Option.map_some']
            exact Option.some.inj (hcb.symm.trans this)
          subst hcb0
          obtain ⟨cb2, h1, h2, h3⟩ := ih1.2 j hj (buf b) hb1
          rw [hself] at h2 h3
          refine ⟨cb2, h1, ?_, ?_⟩
          · rw [h2, hat.1]
            cases n with
            | zero => simp [refreshed_zero, hd]
            | succ n =>
              simp only [Nat.add_sub_cancel] at hrec
              rw [Nat.succ_min_succ, hrec]
              have : (0 : Int) < ops.dirty e := by omega
              simp [this, hj0i]
          · rw [h3]
            simp only [Bool.false_eq_true, if_false]
            rw [hat.2]
            cases n with
            | zero => simp [refreshed_zero, hd]
            | succ n =>
              simp only [Nat.add_sub_cancel] at hrec
              rw [Nat.succ_min_succ, hrec]
              have : (0 : Int) < ops.dirty e := by omega
              simp [this, hj0i]
        · rw [if_neg hjj] at hb1
          obtain ⟨cb2, h1, h2, h3⟩ := ih1.2 j hj cb (hb1.trans hcb)
          refine ⟨cb2, h1, ?_, ?_⟩
          · rw [h2]
            cases n with
            | zero => simp [refreshed_zero]
            | succ n =>
              simp only [Nat.add_sub_cancel] at hrec
              rw [Nat.succ_min_succ, hrec]
              have : ¬ j0 = j := fun h => hjj h.symm
              simp [this]
          · rw [h3]
            cases n with
            | zero => simp [refreshed_zero]
            | succ n =>
              simp only [Nat.add_sub_cancel] at hrec
              rw [Nat.succ_min_succ, hrec]
              have : ¬ j0 = j := fun h => hjj h.symm
              simp [this]
      | draw => cases hu
      | flush => cases hu
      | gpu => cases hu

theorem index_unique_of_nodup {E : Type} {f : E → Nat} {l : List E} (hnd : (l.map f).Nodup)
    {p q : Nat} {e x : E} (he : l[p]? = some e) (hx : l[q]? = some x) (hq : q ≠ p) :
    f x ≠ f e := by
  intro heq
  have h1 : (l.map f)[p]? = some (f e) := by rw [List.getElem?_map, he]; rfl
  have h2 : (l.map f)[q]? = some (f x) := by rw [List.getElem?_map, hx]; rfl
  have hp : p < (l.map f).length := (List.getElem?_eq_some.1 h1).1
  have hq1 : q < (l.map f).length := (List.getElem?_eq_some.1 h2).1
  rcases Nat.lt_or_gt_of_ne hq with hlt | hgt
  · exact (List.nodup_iff_getElem?_ne_getElem?.1 hnd q p hlt hp) (by rw [h1, h2, heq])
  · exact (List.nodup_iff_getElem?_ne_getElem?.1 hnd p q hgt hq1) (by rw [h1, h2, heq])

/-- The contract of a dirty counter for a sample whose `Update` runs the loop
`ops` on the buffer `buf` of the selected slot and the elements `items` of the
scene. -/
theorem dirty_contract {I B S E T : Type} {upd : I → S → B → Option (S × B)}
    (ops : DirtyOps E T) (law : ops.Lawful) (items : S → List E) (buf : B → UploadBuffer T)
    (H : ∀ input sc b sc1 b1, upd input sc b = some (sc1, b1) →
      dirtyLoop ops (buf b) (items sc) = some (buf b1, items sc1))
    {es : List (Event I)} {a a2 : D3DApp B S} (hr : run upd es a = some a2)
    (i n p : Nat) (e : E) (hi : i < 3) (hidx : a.mCurrFrameResourceIndex = (i : Int))
    (he : (items a.scene)[p]? = some e) (hn : n ≤ 3) (hd : ops.dirty e = (n : Int))
    (hnd : ((items a.scene).map ops.index).Nodup) :
    (items a2.scene)[p]? = some (ops.tick^[min (es.countP Event.isUpdate) n] e) ∧
    ∀ j < 3, ∀ fr, a.mFrameResources[j]? = some fr →
      ∃ fr2, a2.mFrameResources[j]? = some fr2 ∧
        (buf fr2.buffers).copies.count (ops.index e)
          = (buf fr.buffers).copies.count (ops.index e) +
            (if refreshed i (min (es.countP Event.isUpdate) n) j then 1 else 0) ∧
        (buf fr2.buffers).data[ops.index e]? =
          if refreshed i (min (es.countP Event.isUpdate) n) j then some (ops.consts e)
          else (buf fr.buffers).data[ops.index e]? := by
  obtain ⟨h1, h2⟩ := dirty_run ops law items buf H hr i n p e hi hidx he hn hd
    (fun q x hx hq => index_unique_of_nodup hnd he hx hq)
  refine ⟨h1, ?_⟩
  intro j hj fr hfr
  obtain ⟨cb2, hcb2, h3, h4⟩ := h2 j hj (buf fr.buffers)
    (by simp only [bufferAt, hfr, Option.map_some'])
  obtain ⟨fr2, hfr2, rfl⟩ := Option.map_eq_some'.1 hcb2
  exact ⟨fr2, hfr2, h3, h4⟩

namespace LitColumns

theorem UpdateObjectCBs_eq {F : Type} (es : List (RenderItem F))
    (cb : UploadBuffer (ObjectConstants F)) :
    UpdateObjectCBs cb es = dirtyLoop (objOps F) cb es := by
  induction es generalizing cb with
  | nil => rfl
  | cons e es ih =>
    simp only [UpdateObjectCBs, dirtyLoop, ih]
    by_cases hd : e.NumFramesDirty > 0
    · have hd1 : (objOps F).dirty e > 0 := hd
      rw [if_pos hd, if_pos hd1]
      cases hc : cb.CopyData e.ObjCBIndex (objConstants e) with
      | none =>
        have hc1 : cb.CopyData ((objOps F).index e) ((objOps F).consts e) = none := hc
        rw [hc1]
      | some cb1 =>
        have hc1 : cb.CopyData ((objOps F).index e) ((objOps F).consts e) = some cb1 := hc
        rw [hc1]
        dsimp only
        cases dirtyLoop (objOps F) cb1 es <;> rfl
    · have hd1 : ¬ (objOps F).dirty e > 0 := hd
      rw [if_neg hd, if_neg hd1]
      cases dirtyLoop (objOps F) cb es <;> rfl

theorem UpdateMaterialCBs_eq {F : Type} (ms : List (Material F))
    (cb : UploadBuffer (MaterialConstants F)) :
    UpdateMaterialCBs cb ms = dirtyLoop (matOps F) cb ms := by
  induction ms generalizing cb with
  | nil => rfl
  | cons e es ih =>
    simp only [UpdateMaterialCBs, dirtyLoop, ih]
    by_cases hd : e.NumFramesDirty > 0
    · have hd1 : (matOps F).dirty e > 0 := hd
      rw [if_pos hd, if_pos hd1]
      cases hc : cb.CopyData e.MatCBIndex (matConstants e) with
      | none =>
        have hc1 : cb.CopyData ((matOps F).index e) ((matOps F).consts e) = none := hc
        rw [hc1]
      | some cb1 =>
        have hc1 : cb.CopyData ((matOps F).index e) ((matOps F).consts e) = some cb1 := hc
        rw [hc1]
        dsimp only
        cases dirtyLoop (matOps F) cb1 es <;> rfl
    · have hd1 : ¬ (matOps F).dirty e > 0 := hd
      rw [if_neg hd, if_neg hd1]
      cases dirtyLoop (matOps F) cb es <;> rfl

theorem objOps_lawful (F : Type) : (objOps F).Lawful :=
  ⟨fun _ => rfl, fun _ => rfl, fun _ => rfl⟩

theorem matCBOps_lawful (F : Type) : (matOps F).Lawful :=
  ⟨fun _ => rfl, fun _ => rfl, fun _ => rfl⟩

theorem objOps_iterate {F : Type} (m : Nat) (e : RenderItem F) :
    (objOps F).tick^[m] e = { e with NumFramesDirty := e.NumFramesDirty - (m : Int) } := by
  induction m generalizing e with
  | zero => cases e; simp
  | succ m ih =>
    rw [Function.iterate_succ_apply, ih]
    simp only [objOps, Nat.cast_add, Nat.cast_one]
    congr 1
    omega

theorem matCBOps_iterate {F : Type} (m : Nat) (e : Material F) :
    (matOps F).tick^[m] e = { e with NumFramesDirty := e.NumFramesDirty - (m : Int) } := by
  induction m generalizing e with
  | zero => cases e; simp
  | succ m ih =>
    rw [Function.iterate_succ_apply, ih]
    simp only [matOps, Nat.cast_add, Nat.cast_one]
    congr 1
    omega

theorem updateCBs_spec {F : Type} {input : Unit} {sc sc1 : Scene F} {b b1 : Buffers F}
    (h : updateCBs input sc b = some (sc1, b1)) :
    dirtyLoop (objOps F) b.ObjectCB sc.mAllRitems = some (b1.ObjectCB, sc1.mAllRitems) ∧
    dirtyLoop (matOps F) b.MaterialCB sc.mMaterials = some (b1.MaterialCB, sc1.mMaterials) := by
  unfold updateCBs at h
  split at h
  · cases h
  · rename_i ocb items ho
    split at h
    · cases h
    · rename_i mcb mats hm
      cases h
      exact ⟨(UpdateObjectCBs_eq _ _).symm.trans ho, (UpdateMaterialCBs_eq _ _).symm.trans hm⟩

end LitColumns

namespace Instancing

theorem UpdateMaterialBuffer_eq {F : Type} (ms : List (Material F))
    (cb : UploadBuffer (MaterialData F)) :
    UpdateMaterialBuffer cb ms = dirtyLoop (matOps F) cb ms := by
  induction ms generalizing cb with
  | nil => rfl
  | cons e es ih =>
    simp only [UpdateMaterialBuffer, dirtyLoop, ih]
    by_cases hd : e.NumFramesDirty > 0
    · have hd1 : (matOps F).dirty e > 0 := hd
      rw [if_pos hd, if_pos hd1]
      cases hc : cb.CopyData e.MatCBIndex (matData e) with
      | none =>
        have hc1 : cb.CopyData ((matOps F).index e) ((matOps F).consts e) = none := hc
        rw [hc1]
      | some cb1 =>
        have hc1 : cb.CopyData ((matOps F).index e) ((matOps F).consts e) = some cb1 := hc
        rw [hc1]
        dsimp only
        cases dirtyLoop (matOps F) cb1 es <;> rfl
    · have hd1 : ¬ (matOps F).dirty e > 0 := hd
      rw [if_neg hd, if_neg hd1]
      cases dirtyLoop (matOps F) cb es <;> rfl

theorem matBufferOps_lawful (F : Type) : (matOps F).Lawful :=
  ⟨fun _ => rfl, fun _ => rfl, fun _ => rfl⟩

theorem matBufferOps_iterate {F : Type} (m : Nat) (e : Material F) :
    (matOps F).tick^[m] e = { e with NumFramesDirty := e.NumFramesDirty - (m : Int) } := by
  induction m generalizing e with
  | zero => cases e; simp
  | succ m ih =>
    rw [Function.iterate_succ_apply, ih]
    simp only [matOps, Nat.cast_add, Nat.cast_one]
    congr 1
    omega

theorem updateBuffers_spec {F Frustum Sphere : Type} {dx : DirectXMath F Frustum Sphere}
    {input : Input F} {sc sc1 : Scene F Frustum Sphere} {b b1 : Buffers F}
    (h : updateBuffers dx input sc b = some (sc1, b1)) :
    dirtyLoop (matOps F) b.MaterialBuffer sc.mMaterials
      = some (b1.MaterialBuffer, sc1.mMaterials) := by
  unfold updateBuffers at h
  simp only at h
  split at h
  · cases h
  · rename_i ibuf items hi
    split at h
    · cases h
    · rename_i mbuf mats hm
      cases h
      exact (UpdateMaterialBuffer_eq _ _).symm.trans hm

end Instancing

theorem refreshed_iff (i m j : Nat) :
    refreshed i m j = true ↔ ∃ t < m, (i + 1 + t) % gNumFrameResources = j := by
  simp [refreshed, List.any_eq_true]

theorem dirty_after (n k : Nat) (d : Int) (hd : d = (n : Int)) :
    d - ((min k n : Nat) : Int) = ((n - min k n : Nat) : Int) := by
  omega

/-! ### The claims about dirty counters -/

/-- C7 (dirty propagation is complete). In `LitColumnsApp`, if a render item
whose object-buffer index no other item shares has `NumFramesDirty` equal to
`gNumFrameResources`, then after any events with at least that many calls of
`Update` every slot holds, at the index of the item in its object buffer, the
transposed `World` and `TexTransform` of the item, which are still those of
the item. -/
theorem dirty_propagation_complete {F : Type} (es : List (Event Unit))
    (a a2 : D3DApp (LitColumns.Buffers F) (LitColumns.Scene F)) (i p : Nat)
    (e : LitColumns.RenderItem F)
    (hr : run LitColumns.updateCBs es a = some a2)
    (hslots : a.mFrameResources.length = gNumFrameResources)
    (hi : i < gNumFrameResources) (hidx : a.mCurrFrameResourceIndex = (i : Int))
    (he : a.scene.mAllRitems[p]? = some e)
    (hd : e.NumFramesDirty = (gNumFrameResources : Int))
    (hnd : (a.scene.mAllRitems.map fun x => x.ObjCBIndex).Nodup)
    (hk : gNumFrameResources ≤ es.countP Event.isUpdate) :
    (∃ e2, a2.scene.mAllRitems[p]? = some e2 ∧ e2.World = e.World ∧
      e2.TexTransform = e.TexTransform ∧ e2.ObjCBIndex = e.ObjCBIndex) ∧
    ∀ j < gNumFrameResources, ∃ fr, a2.mFrameResources[j]? = some fr ∧
      fr.buffers.ObjectCB.data[e.ObjCBIndex]? =
        some { World := XMMatrixTranspose e.World
               TexTransform := XMMatrixTranspose e.TexTransform } := by
  obtain ⟨h1, h2⟩ := dirty_contract (LitColumns.objOps F) (LitColumns.objOps_lawful F)
    (fun sc : LitColumns.Scene F => sc.mAllRitems)
      (fun b : LitColumns.Buffers F => b.ObjectCB)
    (fun _ _ _ _ _ h => (LitColumns.updateCBs_spec h).1) hr i 3 p e hi hidx he (le_refl 3) hd hnd
  have hmin : min (es.countP Event.isUpdate) 3 = 3 := Nat.min_eq_right hk
  rw [hmin] at h1 h2
  constructor
  · rw [LitColumns.objOps_iterate] at h1
    exact ⟨_, h1, rfl, rfl, rfl⟩
  · intro j hj
    have hlt : j < a.mFrameResources.length := by rw [hslots]; exact hj
    obtain ⟨fr2, hfr2, -, h4⟩ := h2 j hj _ (List.getElem?_eq_getElem hlt)
    rw [refreshed_all i hi j hj, if_pos rfl] at h4
    exact ⟨fr2, hfr2, h4⟩

theorem dirty_propagation_complete_witness :
    ∃ a2, run LitColumns.updateCBs (demoEvents ()) (init LitColumns.demoBuffers LitColumns.demoScene)
        = some a2 ∧
      ∀ j < gNumFrameResources, ∃ fr, a2.mFrameResources[j]? = some fr ∧
        fr.buffers.ObjectCB.data[0]? =
          some { World := XMMatrixTranspose (translation 5 1 0)
                 TexTransform := XMMatrixTranspose (translation 0 0 0) } :=
  ⟨(run LitColumns.updateCBs (demoEvents ())
      (init LitColumns.demoBuffers LitColumns.demoScene)).get (by decide),
    (Option.some_get _).symm,
    (dirty_propagation_complete (demoEvents ())
      (init LitColumns.demoBuffers LitColumns.demoScene) _ 0 0
      { World := translation 5 1 0, TexTransform := translation 0 0 0
        NumFramesDirty := 3, ObjCBIndex := 0 }
      (Option.some_get _).symm (by decide) (by decide) rfl rfl rfl (by decide) (by decide)).2⟩

/-! ## Instance culling -/

namespace Instancing

/-- The inner loop of `UpdateInstanceData`: from count `n`, the survivors go
to elements `n, n + 1, ...` in order, nothing else changes, and the count
rises by their number. -/
theorem instanceLoop_spec {F Frustum Sphere : Type} (dx : DirectXMath F Frustum Sphere)
    (invView : XMFLOAT4X4 F) (frustum : Frustum) (culling : Bool) (bounds : Sphere)
    (insts : List (InstanceData F)) (buf : UploadBuffer (InstanceData F)) (n : Nat)
    (hcap : n + (insts.filter (visibilityTest dx invView frustum culling bounds)).length
      ≤ buf.data.length) :
    ∃ buf1, instanceLoop dx invView frustum culling bounds buf n insts
        = some (buf1, n + (insts.filter (visibilityTest dx invView frustum culling bounds)).length) ∧
      buf1.data.length = buf.data.length ∧
      buf1.copies = buf.copies ++
        List.range' n (insts.filter (visibilityTest dx invView frustum culling bounds)).length ∧
      (∀ t, buf1.data[n + t]? =
        if t < (insts.filter (visibilityTest dx invView frustum culling bounds)).length then
          ((insts.filter (visibilityTest dx invView frustum culling bounds)).map instanceEntry)[t]?
        else buf.data[n + t]?) ∧
      (∀ i, i < n → buf1.data[i]? = buf.data[i]?) := by
  induction insts generalizing buf n with
  | nil =>
    refine ⟨buf, rfl, rfl, by simp, ?_, fun _ _ => rfl⟩
    intro t
    simp
  | cons x rest ih =>
    by_cases hv : visibilityTest dx invView frustum culling bounds x = true
    · simp only [List.filter_cons_of_pos hv, List.length_cons] at hcap ⊢
      have hlt : n < buf.data.length := by omega
      obtain ⟨buf2, h1, h2, h3, h4, h5⟩ := ih
        ({ data := buf.data.set n (instanceEntry x), copies := buf.copies ++ [n] } :
          UploadBuffer (InstanceData F)) (n + 1) (by simp only [List.length_set]; omega)
      refine ⟨buf2, ?_, ?_, ?_, ?_, ?_⟩
      · simp only [instanceLoop, hv, if_true, UploadBuffer.CopyData, if_pos hlt]
        rw [h1]
        congr 2
        omega
      · simpa using h2
      · rw [h3, List.range'_succ, List.append_assoc]
        rfl
      · intro t
        cases t with
        | zero =>
          have := h5 n (Nat.lt_succ_self n)
          simp only [Nat.add_zero, List.getElem?_set_self hlt] at this ⊢
          rw [this]
          simp
        | succ t =>
          have := h4 t
          rw [show n + 1 + t = n + (t + 1) by omega] at this
          rw [this]
          have hne : n ≠ n + (t + 1) := by omega
          simp only [Nat.add_lt_add_iff_right, List.map_cons, List.getElem?_cons_succ,
            List.getElem?_set_ne hne]
      · intro i hi
        rw [h5 i (by omega)]
        exact List.getElem?_set_ne (by omega)
    · have hv1 : ¬ visibilityTest dx invView frustum culling bounds x = true := hv
      simp only [List.filter_cons_of_neg hv1] at hcap ⊢
      obtain ⟨buf2, h1, h2, h3, h4, h5⟩ := ih buf n hcap
      refine ⟨buf2, ?_, h2, h3, h4, h5⟩
      simp only [instanceLoop, hv1]
      exact h1

/-- One item: the survivors fill elements `0..c-1` in order, the rest of the
buffer is untouched, the indices copied to are `0, 1, ..., c-1`, and the
item gets `VisibleInstanceCount = c`. -/
theorem updateItem_spec {F Frustum Sphere : Type} (dx : DirectXMath F Frustum Sphere)
    (invView : XMFLOAT4X4 F) (frustum : Frustum) (culling : Bool)
    (buf : UploadBuffer (InstanceData F)) (ritem : RenderItem F Sphere)
    (hcap : (ritem.Instances.filter
      (visibilityTest dx invView frustum culling ritem.Bounds)).length ≤ buf.data.length) :
    ∃ buf1, updateItem dx invView frustum culling buf ritem
        = some (buf1, { ritem with VisibleInstanceCount :=
            (ritem.Instances.filter
              (visibilityTest dx invView frustum culling ritem.Bounds)).length }) ∧
      buf1.data.length = buf.data.length ∧
      buf1.data.take (ritem.Instances.filter
          (visibilityTest dx invView frustum culling ritem.Bounds)).length
        = (ritem.Instances.filter
            (visibilityTest dx invView frustum culling ritem.Bounds)).map instanceEntry ∧
      buf1.data.drop (ritem.Instances.filter
          (visibilityTest dx invView frustum culling ritem.Bounds)).length
        = buf.data.drop (ritem.Instances.filter
            (visibilityTest dx invView frustum culling ritem.Bounds)).length ∧
      buf1.copies = buf.copies ++ List.range (ritem.Instances.filter
          (visibilityTest dx invView frustum culling ritem.Bounds)).length := by
  obtain ⟨buf1, h1, h2, h3, h4, -⟩ := instanceLoop_spec dx invView frustum culling ritem.Bounds
    ritem.Instances buf 0 (by simpa using hcap)
  simp only [Nat.zero_add] at h1 h4
  refine ⟨buf1, ?_, h2, ?_, ?_, ?_⟩
  · simp only [updateItem, h1]
  · apply List.ext_getElem?
    intro t
    rw [List.getElem?_take]
    split
    · rename_i ht
      rw [h4 t, if_pos ht]
    · rename_i ht
      rw [List.getElem?_eq_none]
      simpa using ht
  · apply List.ext_getElem?
    intro t
    rw [List.getElem?_drop, List.getElem?_drop]
    have := h4 (List.length (List.filter
      (visibilityTest dx invView frustum culling ritem.Bounds) ritem.Instances) + t)
    rw [this, if_neg (by omega)]
  · rw [h3, List.range_eq_range']

theorem UpdateInstanceData_spec {F Frustum Sphere : Type} (dx : DirectXMath F Frustum Sphere)
    (view : XMFLOAT4X4 F) (frustum : Frustum) (culling : Bool)
    (ritems : List (RenderItem F Sphere)) (buf : UploadBuffer (InstanceData F))
    (hcap : ∀ ritem ∈ ritems,
      (survivors dx view frustum culling ritem).length ≤ buf.data.length) :
    ∃ buf2, UpdateInstanceData dx view frustum culling buf ritems
        = some (buf2, ritems.map fun ritem =>
            { ritem with VisibleInstanceCount := (survivors dx view frustum culling ritem).length }) ∧
      buf2.data.length = buf.data.length := by
  induction ritems generalizing buf with
  | nil => exact ⟨buf, rfl, rfl⟩
  | cons ritem rest ih =>
    obtain ⟨buf1, h1, h2, -⟩ := updateItem_spec dx (dx.XMMatrixInverse view) frustum culling buf
      ritem (hcap ritem (List.mem_cons_self _ _))
    obtain ⟨buf2, h3, h4⟩ := ih buf1
      (fun r hr => by rw [h2]; exact hcap r (List.mem_cons_of_mem _ hr))
    refine ⟨buf2, ?_, h4.trans h2⟩
    simp only [UpdateInstanceData, h1, h3, List.map_cons]
    rfl

theorem visibilityTest_eq_keptBySpec {F Frustum Sphere : Type} (dx : DirectXMath F Frustum Sphere)
    (invView : XMFLOAT4X4 F) (frustum : Frustum) (culling : Bool) (bounds : Sphere)
    (inst : InstanceData F) :
    visibilityTest dx invView frustum culling bounds inst
      = keptBySpec culling (dx.Contains (localSpaceFrustum dx invView frustum inst) bounds) := by
  unfold visibilityTest
  cases dx.Contains (localSpaceFrustum dx invView frustum inst) bounds <;>
    cases culling <;> rfl

/-! ### The claims about instance culling -/

/-- C9 (compaction). When the instance buffer has room for the survivors of
every item, `UpdateInstanceData` returns and gives every item
`VisibleInstanceCount = c`, the number of its instances that pass the test,
which is the instance count `DrawRenderItems` passes on; while an item is
processed its survivors are copied, in their original order, to elements
`0, 1, ..., c-1` (one copy each) and no other element changes; for a single
item, as in the sample, that is the buffer `UpdateInstanceData` leaves. -/
theorem visible_instances_compacted {F Frustum Sphere : Type}
    (dx : DirectXMath F Frustum Sphere) (view : XMFLOAT4X4 F) (frustum : Frustum)
    (culling : Bool) (buf : UploadBuffer (InstanceData F)) (ritems : List (RenderItem F Sphere))
    (hcap : ∀ ritem ∈ ritems,
      (survivors dx view frustum culling ritem).length ≤ buf.data.length) :
    (∃ buf2, UpdateInstanceData dx view frustum culling buf ritems
        = some (buf2, ritems.map fun ritem =>
            { ritem with VisibleInstanceCount := (survivors dx view frustum culling ritem).length }) ∧
      buf2.data.length = buf.data.length ∧
      ∀ ritem, ritems = [ritem] →
        buf2.data.take (survivors dx view frustum culling ritem).length
          = (survivors dx view frustum culling ritem).map instanceEntry ∧
        buf2.data.drop (survivors dx view frustum culling ritem).length
          = buf.data.drop (survivors dx view frustum culling ritem).length) ∧
    (DrawRenderItems (ritems.map fun ritem =>
        { ritem with VisibleInstanceCount := (survivors dx view frustum culling ritem).length })).map
        (fun call => call.InstanceCount)
      = ritems.map (fun ritem => (survivors dx view frustum culling ritem).length) ∧
    ∀ ritem ∈ ritems, ∀ cb : UploadBuffer (InstanceData F), cb.data.length = buf.data.length →
      ∃ cb1, updateItem dx (dx.XMMatrixInverse view) frustum culling cb ritem
          = some (cb1, { ritem with
              VisibleInstanceCount := (survivors dx view frustum culling ritem).length }) ∧
        cb1.data.take (survivors dx view frustum culling ritem).length
          = (survivors dx view frustum culling ritem).map instanceEntry ∧
        cb1.data.drop (survivors dx view frustum culling ritem).length
          = cb.data.drop (survivors dx view frustum culling ritem).length ∧
        cb1.copies = cb.copies ++ List.range (survivors dx view frustum culling ritem).length := by
  refine ⟨?_, ?_, ?_⟩
  · obtain ⟨buf2, h1, h2⟩ := UpdateInstanceData_spec dx view frustum culling ritems buf hcap
    refine ⟨buf2, h1, h2, ?_⟩
    intro ritem hr
    subst hr
    obtain ⟨buf1, h3, -, h5, h6, -⟩ := updateItem_spec dx (dx.XMMatrixInverse view) frustum
      culling buf ritem (hcap ritem (List.mem_singleton_self _))
    have h7 : UpdateInstanceData dx view frustum culling buf [ritem]
        = some (buf1, [{ ritem with
            VisibleInstanceCount := (survivors dx view frustum culling ritem).length }]) := by
      simp only [UpdateInstanceData, h3]
      rfl
    have h8 : buf2 = buf1 := by
      have := h1.symm.trans h7
      simp only [Option.some.injEq, Prod.mk.injEq] at this
      exact this.1
    subst h8
    exact ⟨h5, h6⟩
  · simp [DrawRenderItems, Function.comp_def]
  · intro ritem hr cb hcb
    obtain ⟨cb1, h3, -, h5, h6, h7⟩ := updateItem_spec dx (dx.XMMatrixInverse view) frustum
      culling cb ritem (by rw [hcb]; exact hcap ritem hr)
    exact ⟨cb1, h3, h5, h6, h7⟩

theorem visible_instances_compacted_witness :
    ∃ buf2, UpdateInstanceData demoDX (translation 0 0 0) (-2, 4) true demoInstanceBuffer [demoItem]
        = some (buf2, [{ demoItem with VisibleInstanceCount := 2 }]) ∧
      buf2.data.take 2 = [instanceEntry (demoInstance 0 1), instanceEntry (demoInstance 4 2)] := by
  obtain ⟨⟨buf2, h1, -, h3⟩, -, -⟩ := visible_instances_compacted demoDX (translation 0 0 0)
    (-2, 4) true demoInstanceBuffer [demoItem] (by decide)
  exact ⟨buf2, h1, (h3 demoItem rfl).1⟩

/-- C10 (what is culled). The test of `UpdateInstanceData` keeps an instance
exactly when culling is disabled or `Contains` does not answer `DISJOINT`,
which is the rule of the specification (`INTERSECTS` and `CONTAINS` are both
kept); the entries written for an item are exactly the instances that rule
keeps, and with culling disabled `VisibleInstanceCount` is
`Instances.size()`. -/
theorem culling_keeps_non_disjoint {F Frustum Sphere : Type}
    (dx : DirectXMath F Frustum Sphere) (view : XMFLOAT4X4 F) (frustum : Frustum)
    (culling : Bool) (buf : UploadBuffer (InstanceData F)) (ritem : RenderItem F Sphere)
    (hcap : (ritem.Instances.filter fun inst => keptBySpec culling
      (dx.Contains (localSpaceFrustum dx (dx.XMMatrixInverse view) frustum inst)
        ritem.Bounds)).length ≤ buf.data.length) :
    (∀ inst, visibilityTest dx (dx.XMMatrixInverse view) frustum culling ritem.Bounds inst = true ↔
      (culling = false ∨
        dx.Contains (localSpaceFrustum dx (dx.XMMatrixInverse view) frustum inst) ritem.Bounds
          ≠ ContainmentType.DISJOINT)) ∧
    (∃ buf1, updateItem dx (dx.XMMatrixInverse view) frustum culling buf ritem
        = some (buf1, { ritem with VisibleInstanceCount :=
            (ritem.Instances.filter fun inst => keptBySpec culling
              (dx.Contains (localSpaceFrustum dx (dx.XMMatrixInverse view) frustum inst)
                ritem.Bounds)).length }) ∧
      buf1.data.take (ritem.Instances.filter fun inst => keptBySpec culling
            (dx.Contains (localSpaceFrustum dx (dx.XMMatrixInverse view) frustum inst)
              ritem.Bounds)).length
        = (ritem.Instances.filter fun inst => keptBySpec culling
            (dx.Contains (localSpaceFrustum dx (dx.XMMatrixInverse view) frustum inst)
              ritem.Bounds)).map instanceEntry) ∧
    (culling = false →
      (ritem.Instances.filter fun inst => keptBySpec culling
        (dx.Contains (localSpaceFrustum dx (dx.XMMatrixInverse view) frustum inst)
          ritem.Bounds)) = ritem.Instances ∧
      ∃ buf1, updateItem dx (dx.XMMatrixInverse view) frustum culling buf ritem
        = some (buf1, { ritem with VisibleInstanceCount := ritem.Instances.length })) := by
  have hfun : visibilityTest dx (dx.XMMatrixInverse view) frustum culling ritem.Bounds
      = fun inst => keptBySpec culling
        (dx.Contains (localSpaceFrustum dx (dx.XMMatrixInverse view) frustum inst)
          ritem.Bounds) :=
    funext fun inst => visibilityTest_eq_keptBySpec dx _ frustum culling ritem.Bounds inst
  have hupd : ∃ buf1, updateItem dx (dx.XMMatrixInverse view) frustum culling buf ritem
      = some (buf1, { ritem with VisibleInstanceCount :=
          (ritem.Instances.filter fun inst => keptBySpec culling
            (dx.Contains (localSpaceFrustum dx (dx.XMMatrixInverse view) frustum inst)
              ritem.Bounds)).length }) ∧
      buf1.data.take (ritem.Instances.filter fun inst => keptBySpec culling
            (dx.Contains (localSpaceFrustum dx (dx.XMMatrixInverse view) frustum inst)
              ritem.Bounds)).length
        = (ritem.Instances.filter fun inst => keptBySpec culling
            (dx.Contains (localSpaceFrustum dx (dx.XMMatrixInverse view) frustum inst)
              ritem.Bounds)).map instanceEntry := by
    rw [← hfun] at hcap ⊢
    obtain ⟨buf1, h1, -, h3, -, -⟩ := updateItem_spec dx (dx.XMMatrixInverse view) frustum
      culling buf ritem hcap
    exact ⟨buf1, h1, h3⟩
  refine ⟨?_, hupd, ?_⟩
  · intro inst
    unfold visibilityTest
    cases dx.Contains (localSpaceFrustum dx (dx.XMMatrixInverse view) frustum inst)
      ritem.Bounds <;> cases culling <;> decide
  · intro hc
    have hall : (ritem.Instances.filter fun inst => keptBySpec culling
        (dx.Contains (localSpaceFrustum dx (dx.XMMatrixInverse view) frustum inst)
          ritem.Bounds)) = ritem.Instances := by
      subst hc
      apply List.filter_eq_self.2
      intro inst _
      cases dx.Contains (localSpaceFrustum dx (dx.XMMatrixInverse view) frustum inst)
        ritem.Bounds <;> rfl
    obtain ⟨buf1, h1, -⟩ := hupd
    rw [hall] at h1
    exact ⟨hall, buf1, h1⟩

theorem culling_keeps_non_disjoint_witness :
    (∃ buf1, updateItem demoDX (demoDX.XMMatrixInverse (translation 0 0 0)) (-2, 4) true
        demoInstanceBuffer demoItem = some (buf1, { demoItem with VisibleInstanceCount := 2 })) ∧
    (∃ buf1, updateItem demoDX (demoDX.XMMatrixInverse (translation 0 0 0)) (-2, 4) false
        demoInstanceBuffer demoItem = some (buf1, { demoItem with VisibleInstanceCount := 4 })) := by
  obtain ⟨-, ⟨buf1, h1, -⟩, -⟩ := culling_keeps_non_disjoint demoDX (translation 0 0 0)
    (-2, 4) true demoInstanceBuffer demoItem (by decide)
  obtain ⟨-, -, h2⟩ := culling_keeps_non_disjoint demoDX (translation 0 0 0)
    (-2, 4) false demoInstanceBuffer demoItem (by decide)
  exact ⟨⟨buf1, h1⟩, (h2 rfl).2⟩

end Instancing

/-! ## Instance culling: ranges, entries, the view-to-local matrix, the grid -/

theorem toMatrix_ofMatrix {F : Type} (A : Matrix (Fin 4) (Fin 4) F) :
    (XMFLOAT4X4.ofMatrix A).toMatrix = A := by
  ext i j
  fin_cases i <;> fin_cases j <;> rfl

theorem toMatrix_transpose {F : Type} (m : XMFLOAT4X4 F) :
    (XMMatrixTranspose m).toMatrix = m.toMatrix.transpose := by
  ext i j
  fin_cases i <;> fin_cases j <;> rfl

theorem fills_set {α : Type} (g : Nat → α) (i : Nat) (v : α) (hv : g i = v) :
    Fills (fun l => l.set i v) i (i + 1) g := by
  intro l
  refine ⟨List.length_set _ _ _, ?_⟩
  intro t ht
  by_cases h : i = t
  · subst h
    rw [List.getElem?_set_self ht, if_pos ⟨le_refl _, Nat.lt_succ_self _⟩, hv]
  · rw [List.getElem?_set_ne h, if_neg (by omega)]

theorem fills_fold {α : Type} (g : Nat → α) (op : Nat → List α → List α) (lo m : Nat) (n : Nat)
    (h : ∀ r, r < n → Fills (op r) (lo + r * m) (lo + (r + 1) * m) g) :
    Fills (fun l => (List.range n).foldl (fun acc r => op r acc) l) lo (lo + n * m) g := by
  induction n with
  | zero =>
    intro l
    refine ⟨rfl, ?_⟩
    intro t _
    simp only [List.range_zero, List.foldl_nil]
    rw [if_neg (by omega)]
  | succ n ih =>
    intro l
    have ih1 := ih (fun r hr => h r (Nat.lt_succ_of_lt hr)) l
    have h1 := h n (Nat.lt_succ_self n) ((List.range n).foldl (fun acc r => op r acc) l)
    simp only [List.range_succ, List.foldl_append, List.foldl_cons, List.foldl_nil]
    refine ⟨h1.1.trans ih1.1, ?_⟩
    intro t ht
    rw [h1.2 t (by rw [ih1.1]; exact ht), ih1.2 t ht]
    have e : (n + 1) * m = n * m + m := Nat.succ_mul n m
    by_cases c1 : lo + n * m ≤ t ∧ t < lo + (n + 1) * m
    · rw [if_pos c1, if_pos ⟨by omega, by omega⟩]
    · rw [if_neg c1]
      by_cases c2 : lo ≤ t ∧ t < lo + n * m
      · rw [if_pos c2, if_pos ⟨by omega, by omega⟩]
      · rw [if_neg c2, if_neg (by omega)]

namespace Instancing

theorem exactDX_inverse {F Frustum Sphere : Type} [Field F]
    (T : Frustum → XMFLOAT4X4 F → Frustum) (C : Frustum → Sphere → ContainmentType)
    (m : XMFLOAT4X4 F) :
    ((exactDX T C).XMMatrixInverse m).toMatrix = m.toMatrix⁻¹ := by
  simp only [exactDX, toMatrix_ofMatrix, Matrix.inv_def, Ring.inverse_eq_inv']

theorem exactDX_multiply {F Frustum Sphere : Type} [Field F]
    (T : Frustum → XMFLOAT4X4 F → Frustum) (C : Frustum → Sphere → ContainmentType)
    (m1 m2 : XMFLOAT4X4 F) :
    ((exactDX T C).XMMatrixMultiply m1 m2).toMatrix = m1.toMatrix * m2.toMatrix := by
  simp only [exactDX, toMatrix_ofMatrix]

theorem writtenRanges_spec {F Frustum Sphere : Type} (dx : DirectXMath F Frustum Sphere)
    (view : XMFLOAT4X4 F) (frustum : Frustum) (culling : Bool)
    (ritems : List (RenderItem F Sphere)) (buf : UploadBuffer (InstanceData F))
    (hcap : ∀ ritem ∈ ritems,
      (survivors dx view frustum culling ritem).length ≤ buf.data.length) :
    writtenRanges dx view frustum culling buf ritems
      = some (ritems.map fun ritem =>
          List.range (survivors dx view frustum culling ritem).length) := by
  induction ritems generalizing buf with
  | nil => rfl
  | cons ritem rest ih =>
    obtain ⟨buf1, h1, h2, -, -, h5⟩ := updateItem_spec dx (dx.XMMatrixInverse view) frustum
      culling buf ritem (hcap ritem (List.mem_cons_self _ _))
    have h3 := ih buf1 (fun r hr => by rw [h2]; exact hcap r (List.mem_cons_of_mem _ hr))
    simp only [writtenRanges, h1, h3, List.map_cons, h5, List.drop_left]
    rfl

theorem range_disjoint_iff (a b : Nat) :
    (List.range a).Disjoint (List.range b) ↔ a = 0 ∨ b = 0 := by
  constructor
  · intro h
    by_contra hc
    have ha : 0 < a := by omega
    have hb : 0 < b := by omega
    exact h (List.mem_range.2 ha) (List.mem_range.2 hb)
  · rintro (rfl | rfl)
    · simp [List.Disjoint]
    · simp [List.Disjoint]

/-- The three loops of `BuildRenderItems` leave, at every index below 125,
the instance of the cell `(k, i, j) = (index / 25, index / 5 % 5, index % 5)`. -/
theorem gridInstances_eq (numMaterials : Nat) :
    gridInstances numMaterials
      = (List.range 125).map fun index =>
          gridInstance numMaterials (index / 25) (index / 5 % 5) (index % 5) := by
  have hj : ∀ k i j, k < 5 → i < 5 → j < 5 →
      Fills (fun l : List (InstanceData Int) =>
          l.set (k * 5 * 5 + i * 5 + j) (gridInstance numMaterials k i j))
        (k * 25 + i * 5 + j * 1) (k * 25 + i * 5 + (j + 1) * 1)
        (fun index => gridInstance numMaterials (index / 25) (index / 5 % 5) (index % 5)) := by
    intro k i j hk hi hj
    have e1 : k * 5 * 5 + i * 5 + j = k * 25 + i * 5 + j * 1 := by omega
    have e2 : k * 25 + i * 5 + (j + 1) * 1 = k * 25 + i * 5 + j * 1 + 1 := by omega
    rw [e1, e2]
    apply fills_set
    have a1 : (k * 25 + i * 5 + j * 1) / 25 = k := by omega
    have a2 : (k * 25 + i * 5 + j * 1) / 5 % 5 = i := by omega
    have a3 : (k * 25 + i * 5 + j * 1) % 5 = j := by omega
    simp only [a1, a2, a3]
  have hi : ∀ k i, k < 5 → i < 5 →
      Fills (fun l : List (InstanceData Int) =>
          (List.range 5).foldl (fun instances j =>
            instances.set (k * 5 * 5 + i * 5 + j) (gridInstance numMaterials k i j)) l)
        (k * 25 + i * 5) (k * 25 + (i + 1) * 5)
        (fun index => gridInstance numMaterials (index / 25) (index / 5 % 5) (index % 5)) := by
    intro k i hk hi
    have := fills_fold _ (fun j (l : List (InstanceData Int)) =>
      l.set (k * 5 * 5 + i * 5 + j) (gridInstance numMaterials k i j)) (k * 25 + i * 5) 1 5
      (fun j hj5 => hj k i j hk hi hj5)
    have e : k * 25 + (i + 1) * 5 = k * 25 + i * 5 + 5 * 1 := by omega
    rw [e]
    exact this
  have hk : ∀ k, k < 5 →
      Fills (fun l : List (InstanceData Int) =>
          (List.range 5).foldl (fun instances i =>
            (List.range 5).foldl (fun instances j =>
              instances.set (k * 5 * 5 + i * 5 + j) (gridInstance numMaterials k i j))
              instances) l)
        (0 + k * 25) (0 + (k + 1) * 25)
        (fun index => gridInstance numMaterials (index / 25) (index / 5 % 5) (index % 5)) := by
    intro k hk
    have := fills_fold _ (fun i (l : List (InstanceData Int)) =>
      (List.range 5).foldl (fun instances j =>
        instances.set (k * 5 * 5 + i * 5 + j) (gridInstance numMaterials k i j)) l)
      (k * 25) 5 5 (fun i hi5 => hi k i hk hi5)
    have e1 : 0 + k * 25 = k * 25 := by omega
    have e2 : 0 + (k + 1) * 25 = k * 25 + 5 * 5 := by omega
    rw [e1, e2]
    exact this
  have hall := fills_fold _ (fun k (l : List (InstanceData Int)) =>
      (List.range 5).foldl (fun instances i =>
        (List.range 5).foldl (fun instances j =>
          instances.set (k * 5 * 5 + i * 5 + j) (gridInstance numMaterials k i j))
          instances) l) 0 25 5 hk
  have hres := hall (List.replicate (5 * 5 * 5)
      { World := XMMatrixScaling 1 1 1, TexTransform := XMMatrixScaling 1 1 1, MaterialIndex := 0 })
  apply List.ext_getElem?
  intro t
  by_cases ht : t < 125
  · have := hres.2 t (by simpa using ht)
    rw [if_pos ⟨by omega, by omega⟩] at this
    rw [List.getElem?_map, List.getElem?_range ht]
    exact this
  · rw [List.getElem?_eq_none, List.getElem?_eq_none]
    · simp only [List.length_map, List.length_range]
      omega
    · have := hres.1
      simp only [List.length_replicate] at this
      have e : (gridInstances numMaterials).length = 125 := this
      omega

theorem gridInstances_length (numMaterials : Nat) :
    (gridInstances numMaterials).length = 125 := by
  rw [gridInstances_eq]
  simp

set_option maxRecDepth 1000000

theorem centres_count (numMaterials : Nat) : (centresInRightHalf numMaterials).length = 75 := by
  rw [centresInRightHalf, gridInstances_eq, List.filter_map, List.length_map]
  rfl

theorem boxGap_zero (lo hi c : Int) (h1 : lo ≤ c) (h2 : c ≤ hi) :
    (if c < lo then lo - c else if hi < c then c - hi else 0) = 0 := by
  rw [if_neg (by omega), if_neg (by omega)]

/-- The test of `UpdateInstanceData` on a cell of the grid, for the box
`rightHalf`, the identity view and a sphere of radius below 50 about the
origin of the mesh: the cell is kept exactly when its column `j` is 2, 3 or 4,
that is when its centre has `x ≥ 0`. -/
theorem boxDX_grid_test (numMaterials k i j : Nat) (r : Int) (hk : k < 5) (hi : i < 5)
    (hj : j < 5) (h0 : 0 ≤ r) (h50 : r < 50) :
    visibilityTest boxDX (boxDX.XMMatrixInverse (translation 0 0 0)) rightHalf true
      ((0, 0, 0), r) (gridInstance numMaterials k i j) = decide (2 ≤ j) := by
  have hi1 : (i : Int) < 5 := by exact_mod_cast hi
  have hk1 : (k : Int) < 5 := by exact_mod_cast hk
  have hj1 : (j : Int) < 5 := by exact_mod_cast hj
  have hi0 : (0 : Int) ≤ i := Int.natCast_nonneg i
  have hk0 : (0 : Int) ≤ k := Int.natCast_nonneg k
  have hj0 : (0 : Int) ≤ j := Int.natCast_nonneg j
  have e1 : (-200 : Int) / 2 = -100 := by decide
  have e2 : (200 : Int) / ((5 - 1 : Nat) : Int) = 50 := by decide
  have hrr : r * r < 2500 := by nlinarith
  simp only [visibilityTest, localSpaceFrustum, boxDX, gridInstance, rightHalf, translation,
    e1, e2]
  rw [boxGap_zero (-100 + (-0 + -(-100 + (i : Int) * 50))) (100 + (-0 + -(-100 + (i : Int) * 50)))
      0 (by omega) (by omega),
    boxGap_zero (-100 + (-0 + -(-100 + (k : Int) * 50))) (100 + (-0 + -(-100 + (k : Int) * 50)))
      0 (by omega) (by omega)]
  by_cases h2 : 2 ≤ j
  · have h2' : (2 : Int) ≤ j := by exact_mod_cast h2
    rw [boxGap_zero _ _ 0 (by omega) (by omega)]
    simp only [mul_zero, add_zero, decide_eq_true h2]
    rw [if_neg (by nlinarith)]
    split <;> rfl
  · have h2' : (j : Int) ≤ 1 := by
      have : j ≤ 1 := by omega
      exact_mod_cast this
    have hlo : 50 ≤ 0 + (-0 + -(-100 + (j : Int) * 50)) - 0 := by omega
    rw [if_pos (show 0 < 0 + (-0 + -(-100 + (j : Int) * 50)) by omega)]
    simp only [mul_zero, add_zero, decide_eq_false h2]
    rw [if_pos (by nlinarith)]
    rfl

theorem boxDX_grid_count (numMaterials : Nat) (r : Int) (h0 : 0 ≤ r) (h50 : r < 50) :
    ((gridInstances numMaterials).filter (visibilityTest boxDX
      (boxDX.XMMatrixInverse (translation 0 0 0)) rightHalf true ((0, 0, 0), r))).length = 75 := by
  rw [gridInstances_eq, List.filter_map, List.length_map]
  have hf : (List.range 125).filter ((visibilityTest boxDX
        (boxDX.XMMatrixInverse (translation 0 0 0)) rightHalf true ((0, 0, 0), r)) ∘
        fun index => gridInstance numMaterials (index / 25) (index / 5 % 5) (index % 5))
      = (List.range 125).filter fun index => decide (2 ≤ index % 5) := by
    apply List.filter_congr
    intro index hindex
    have hlt : index < 125 := List.mem_range.1 hindex
    exact boxDX_grid_test numMaterials _ _ _ r (by omega) (by omega) (by omega) h0 h50
  rw [hf]
  decide

/-! ### The claims about ranges, entries, the view-to-local matrix, the grid -/

/-- C11, refuted as stated: with two render items that both have survivors
(`demoItem` keeps two instances, `demoItem2` one), one call of
`UpdateInstanceData` writes elements `0, 1` for the first item and element
`0` again for the second, so the two ranges are not disjoint; element 0 holds
the first survivor of the first item after the pass of that item and the
survivor of the second item when the call returns. -/
theorem item_ranges_overlap_counterexample :
    writtenRanges demoDX (translation 0 0 0) (-2, 4) true demoInstanceBuffer [demoItem, demoItem2]
      = some [[0, 1], [0]] ∧
    ¬ [[0, 1], [0]].Pairwise (List.Disjoint : List Nat → List Nat → Prop) ∧
    (updateItem demoDX (demoDX.XMMatrixInverse (translation 0 0 0)) (-2, 4) true
        demoInstanceBuffer demoItem).map (fun r => r.1.data[0]?)
      = some (some (instanceEntry (demoInstance 0 1))) ∧
    (UpdateInstanceData demoDX (translation 0 0 0) (-2, 4) true demoInstanceBuffer
        [demoItem, demoItem2]).map (fun r => r.1.data[0]?)
      = some (some (instanceEntry (demoInstance 1 5))) := by
  refine ⟨by decide, ?_, by decide, by decide⟩
  simp [List.Disjoint]

/-- C11, amended. In one call of `UpdateInstanceData` (with room in the
buffer for the survivors of every item) the indices written for an item are
`0, 1, ..., c-1`, with `c` the number of its survivors: every item starts at
element 0. So the ranges of two items are disjoint exactly when one of them
has no survivor; of two items the second overwrites the first from element 0
on (the buffer ends with the survivors of the second item in front); and for
a single render item, as the sample builds, no two ranges exist. -/
theorem item_ranges_start_at_zero {F Frustum Sphere : Type} (dx : DirectXMath F Frustum Sphere)
    (view : XMFLOAT4X4 F) (frustum : Frustum) (culling : Bool)
    (buf : UploadBuffer (InstanceData F)) (ritems : List (RenderItem F Sphere))
    (hcap : ∀ ritem ∈ ritems,
      (survivors dx view frustum culling ritem).length ≤ buf.data.length) :
    writtenRanges dx view frustum culling buf ritems
      = some (ritems.map fun ritem =>
          List.range (survivors dx view frustum culling ritem).length) ∧
    (∀ ritem1 ∈ ritems, ∀ ritem2 ∈ ritems,
      ((List.range (survivors dx view frustum culling ritem1).length).Disjoint
          (List.range (survivors dx view frustum culling ritem2).length) ↔
        (survivors dx view frustum culling ritem1).length = 0 ∨
          (survivors dx view frustum culling ritem2).length = 0)) ∧
    (∀ ritem1 ritem2, ritems = [ritem1, ritem2] →
      ∃ buf2 items, UpdateInstanceData dx view frustum culling buf ritems = some (buf2, items) ∧
        buf2.data.take (survivors dx view frustum culling ritem2).length
          = (survivors dx view frustum culling ritem2).map instanceEntry) ∧
    (∀ ritem, ritems = [ritem] → ∀ ranges,
      writtenRanges dx view frustum culling buf ritems = some ranges →
        ranges.Pairwise List.Disjoint) := by
  have h1 := writtenRanges_spec dx view frustum culling ritems buf hcap
  refine ⟨h1, fun _ _ _ _ => range_disjoint_iff _ _, ?_, ?_⟩
  · intro ritem1 ritem2 hr
    subst hr
    obtain ⟨buf1, e1, l1, -⟩ := updateItem_spec dx (dx.XMMatrixInverse view) frustum
      culling buf ritem1 (hcap ritem1 (by simp))
    obtain ⟨buf2, e2, -, t2, -⟩ := updateItem_spec dx (dx.XMMatrixInverse view) frustum
      culling buf1 ritem2 (by rw [l1]; exact hcap ritem2 (by simp))
    refine ⟨buf2, [{ ritem1 with
        VisibleInstanceCount := (survivors dx view frustum culling ritem1).length },
      { ritem2 with
        VisibleInstanceCount := (survivors dx view frustum culling ritem2).length }], ?_, t2⟩
    simp only [UpdateInstanceData, e1, e2]
    rfl
  · intro ritem hr ranges hranges
    subst hr
    rw [h1] at hranges
    simp only [List.map_cons, List.map_nil, Option.some.injEq] at hranges
    subst hranges
    exact List.pairwise_singleton _ _

theorem item_ranges_start_at_zero_witness :
    writtenRanges demoDX (translation 0 0 0) (-2, 4) true demoInstanceBuffer [demoItem, demoItem2]
      = some [List.range 2, List.range 1] :=
  (item_ranges_start_at_zero demoDX (translation 0 0 0) (-2, 4) true demoInstanceBuffer
    [demoItem, demoItem2] (by decide)).1

/-- C12 (what an entry holds). When the buffer has room for the survivors of
an item, the pass of `UpdateInstanceData` over the item copies to elements
`0, ..., c-1`, and the entry it writes for the survivor number `t` has the
transposed world matrix of that instance, its transposed texture transform
and its material index; `XMMatrixTranspose` is the matrix transpose. -/
theorem written_entries_are_transposed {F Frustum Sphere : Type}
    (dx : DirectXMath F Frustum Sphere) (view : XMFLOAT4X4 F) (frustum : Frustum)
    (culling : Bool) (buf : UploadBuffer (InstanceData F)) (ritem : RenderItem F Sphere)
    (hcap : (survivors dx view frustum culling ritem).length ≤ buf.data.length) :
    ∃ buf1, updateItem dx (dx.XMMatrixInverse view) frustum culling buf ritem
        = some (buf1, { ritem with
            VisibleInstanceCount := (survivors dx view frustum culling ritem).length }) ∧
      buf1.copies = buf.copies ++ List.range (survivors dx view frustum culling ritem).length ∧
      ∀ (t : Nat) (instData : InstanceData F),
        (survivors dx view frustum culling ritem)[t]? = some instData →
        ∃ data, buf1.data[t]? = some data ∧
          data.World = XMMatrixTranspose instData.World ∧
          data.TexTransform = XMMatrixTranspose instData.TexTransform ∧
          data.MaterialIndex = instData.MaterialIndex ∧
          data.World.toMatrix = instData.World.toMatrix.transpose ∧
          data.TexTransform.toMatrix = instData.TexTransform.toMatrix.transpose := by
  obtain ⟨buf1, h1, -, h3, -, h5⟩ := updateItem_spec dx (dx.XMMatrixInverse view) frustum
    culling buf ritem hcap
  refine ⟨buf1, h1, h5, ?_⟩
  intro t instData ht
  have hlt : t < (survivors dx view frustum culling ritem).length := by
    by_contra hc
    rw [List.getElem?_eq_none (by omega)] at ht
    exact Option.noConfusion ht
  have h4 : buf1.data[t]? = some (instanceEntry instData) := by
    have := congrArg (fun l => l[t]?) h3
    simp only [List.getElem?_take] at this
    have hlt1 : t < (ritem.Instances.filter (visibilityTest dx (dx.XMMatrixInverse view)
      frustum culling ritem.Bounds)).length := hlt
    rw [if_pos hlt1] at this
    rw [this, List.getElem?_map]
    have ht1 : (ritem.Instances.filter (visibilityTest dx (dx.XMMatrixInverse view)
      frustum culling ritem.Bounds))[t]? = some instData := ht
    rw [ht1]
    rfl
  exact ⟨instanceEntry instData, h4, rfl, rfl, rfl, toMatrix_transpose _, toMatrix_transpose _⟩

theorem written_entries_are_transposed_witness :
    ∃ buf1, updateItem demoDX (demoDX.XMMatrixInverse (translation 0 0 0)) (-2, 4) true
        demoInstanceBuffer demoItem = some (buf1, { demoItem with VisibleInstanceCount := 2 }) ∧
      ∃ data, buf1.data[1]? = some data ∧
        data.World = XMMatrixTranspose (translation 4 0 0) ∧ data.MaterialIndex = 2 := by
  obtain ⟨buf1, h1, -, h3⟩ := written_entries_are_transposed demoDX (translation 0 0 0)
    (-2, 4) true demoInstanceBuffer demoItem (by decide)
  obtain ⟨data, h4, h5, -, h7, -⟩ := h3 1 (demoInstance 4 2) (by decide)
  exact ⟨buf1, h1, data, h4, h5, h7⟩

/-- C13 (the view-to-local matrix). The frustum `UpdateInstanceData` tests
an instance against is the camera frustum transformed by `viewToLocal`, the
product `XMMatrixMultiply(invView, invWorld)`. When the two library routines
are exact (`XMMatrixInverse` inverts every matrix of non-zero determinant,
`XMMatrixMultiply(M1, M2)` is `M1 * M2`) and `view` and `World` are
invertible, that matrix is `inverse(view) * inverse(world)`, which is the
inverse of `world * view`, on both sides. -/
theorem view_to_local_inverts_world_view {F Frustum Sphere : Type} [Field F]
    (dx : DirectXMath F Frustum Sphere)
    (hinv : ∀ m : XMFLOAT4X4 F, m.toMatrix.det ≠ 0 →
      (dx.XMMatrixInverse m).toMatrix = m.toMatrix⁻¹)
    (hmul : ∀ m1 m2 : XMFLOAT4X4 F,
      (dx.XMMatrixMultiply m1 m2).toMatrix = m1.toMatrix * m2.toMatrix)
    (view : XMFLOAT4X4 F) (mCamFrustum : Frustum) (instData : InstanceData F)
    (hview : view.toMatrix.det ≠ 0) (hworld : instData.World.toMatrix.det ≠ 0) :
    localSpaceFrustum dx (dx.XMMatrixInverse view) mCamFrustum instData
      = dx.Transform mCamFrustum (viewToLocal dx (dx.XMMatrixInverse view) instData) ∧
    (viewToLocal dx (dx.XMMatrixInverse view) instData).toMatrix
      = view.toMatrix⁻¹ * instData.World.toMatrix⁻¹ ∧
    (viewToLocal dx (dx.XMMatrixInverse view) instData).toMatrix
      = (instData.World.toMatrix * view.toMatrix)⁻¹ ∧
    (instData.World.toMatrix * view.toMatrix)
      * (viewToLocal dx (dx.XMMatrixInverse view) instData).toMatrix = 1 ∧
    (viewToLocal dx (dx.XMMatrixInverse view) instData).toMatrix
      * (instData.World.toMatrix * view.toMatrix) = 1 := by
  have h1 : (viewToLocal dx (dx.XMMatrixInverse view) instData).toMatrix
      = view.toMatrix⁻¹ * instData.World.toMatrix⁻¹ := by
    simp only [viewToLocal, hmul, hinv view hview, hinv instData.World hworld]
  have h2 : view.toMatrix⁻¹ * instData.World.toMatrix⁻¹
      = (instData.World.toMatrix * view.toMatrix)⁻¹ := (Matrix.mul_inv_rev _ _).symm
  have hdet : IsUnit (instData.World.toMatrix * view.toMatrix).det := by
    rw [Matrix.det_mul]
    exact (mul_ne_zero hworld hview).isUnit
  refine ⟨rfl, h1, h1.trans h2, ?_, ?_⟩
  · rw [h1, h2]
    exact Matrix.mul_nonsing_inv _ hdet
  · rw [h1, h2]
    exact Matrix.nonsing_inv_mul _ hdet

theorem view_to_local_inverts_world_view_witness :
    demoView.toMatrix.det ≠ 0 ∧ demoScaled.World.toMatrix.det ≠ 0 ∧
    (demoScaled.World.toMatrix * demoView.toMatrix)
      * (viewToLocal demoExactDX (demoExactDX.XMMatrixInverse demoView) demoScaled).toMatrix = 1 :=
  have hview : demoView.toMatrix.det ≠ 0 := by
    simp [demoView, XMMatrixTranslation, XMFLOAT4X4.toMatrix, Matrix.det_succ_row_zero,
      Fin.sum_univ_succ, Matrix.det_fin_three]
  have hworld : demoScaled.World.toMatrix.det ≠ 0 := by
    simp [demoScaled, XMMatrixScaling, XMFLOAT4X4.toMatrix, Matrix.det_succ_row_zero,
      Fin.sum_univ_succ, Matrix.det_fin_three]
  ⟨hview, hworld,
    (view_to_local_inverts_world_view demoExactDX
      (fun m _ => exactDX_inverse _ _ m) (fun m1 m2 => exactDX_multiply _ _ m1 m2)
      demoView () demoScaled hview hworld).2.2.2.1⟩

/-- C14, refuted as stated: with the exact box `rightHalf` as the frustum
and a bounding sphere of radius 60 about the origin of the mesh, the
instances of the column at `x = -50` reach into the half, so
`UpdateInstanceData` reports 100 visible instances of the grid, while 75
cells have their centre in the half. -/
theorem grid_count_counterexample :
    (UpdateInstanceData boxDX (translation 0 0 0) rightHalf true gridInstanceBuffer
        (gridItems 60)).map (fun r => r.2.map fun ritem => ritem.VisibleInstanceCount)
      = some [100] ∧
    (centresInRightHalf 7).length = 75 := by
  constructor
  · decide
  · decide

/-- C14, amended. For the grid of `BuildRenderItems` (125 instances, 75 of
them with their centre in the right half of the bounding box) and culling
enabled, `UpdateInstanceData` returns, when the buffer has room for 125
entries, with `VisibleInstanceCount` equal to the number of instances whose
bounding sphere the library does not report `DISJOINT` from the frustum, a
function of the inputs alone; that number is the number of cells with their
centre in the half, 75, when the sphere of an instance meets the frustum
exactly if its centre lies in the half; that is so for the exact box
`rightHalf`, the identity view and a sphere about the origin of the mesh with
a radius below the spacing 50 of the grid. -/
theorem grid_visible_count {Frustum Sphere : Type} (dx : DirectXMath Int Frustum Sphere)
    (view : XMFLOAT4X4 Int) (mCamFrustum : Frustum) (Bounds : Sphere)
    (IndexCount StartIndexLocation : Nat) (BaseVertexLocation : Int) (numMaterials : Nat)
    (buf : UploadBuffer (InstanceData Int)) (hcap : 125 ≤ buf.data.length) :
    (gridInstances numMaterials).length = 125 ∧
    (centresInRightHalf numMaterials).length = 75 ∧
    (∃ buf2, UpdateInstanceData dx view mCamFrustum true buf
        (BuildRenderItems Bounds IndexCount StartIndexLocation BaseVertexLocation numMaterials)
      = some (buf2,
          [{ Bounds := Bounds
             Instances := gridInstances numMaterials
             IndexCount := IndexCount
             VisibleInstanceCount := ((gridInstances numMaterials).filter fun instData =>
               dx.Contains (localSpaceFrustum dx (dx.XMMatrixInverse view) mCamFrustum instData)
                 Bounds != ContainmentType.DISJOINT).length
             StartIndexLocation := StartIndexLocation
             BaseVertexLocation := BaseVertexLocation }])) ∧
    ((∀ instData ∈ gridInstances numMaterials,
        dx.Contains (localSpaceFrustum dx (dx.XMMatrixInverse view) mCamFrustum instData) Bounds
            ≠ ContainmentType.DISJOINT ↔
          instData ∈ centresInRightHalf numMaterials) →
      ((gridInstances numMaterials).filter fun instData =>
        dx.Contains (localSpaceFrustum dx (dx.XMMatrixInverse view) mCamFrustum instData)
          Bounds != ContainmentType.DISJOINT).length = 75) ∧
    (∀ r : Int, 0 ≤ r → r < 50 →
      ∃ buf2, UpdateInstanceData boxDX (translation 0 0 0) rightHalf true buf
          (BuildRenderItems ((0, 0, 0), r) IndexCount StartIndexLocation BaseVertexLocation
            numMaterials)
        = some (buf2,
            [{ Bounds := ((0, 0, 0), r)
               Instances := gridInstances numMaterials
               IndexCount := IndexCount
               VisibleInstanceCount := 75
               StartIndexLocation := StartIndexLocation
               BaseVertexLocation := BaseVertexLocation }])) := by
  have hfilter : (gridInstances numMaterials).filter (visibilityTest dx (dx.XMMatrixInverse view)
        mCamFrustum true Bounds)
      = (gridInstances numMaterials).filter fun instData =>
        dx.Contains (localSpaceFrustum dx (dx.XMMatrixInverse view) mCamFrustum instData)
          Bounds != ContainmentType.DISJOINT := by
    apply List.filter_congr
    intro instData _
    simp [visibilityTest]
  refine ⟨gridInstances_length numMaterials, centres_count numMaterials, ?_, ?_, ?_⟩
  · obtain ⟨buf2, h1, -⟩ := UpdateInstanceData_spec dx view mCamFrustum true
      (BuildRenderItems Bounds IndexCount StartIndexLocation BaseVertexLocation numMaterials) buf
      (by
        intro ritem hr
        refine le_trans (List.length_filter_le _ _) ?_
        simp only [BuildRenderItems, List.mem_singleton] at hr
        subst hr
        rw [gridInstances_length]
        exact hcap)
    refine ⟨buf2, ?_⟩
    simp only [BuildRenderItems, List.map_cons, List.map_nil, survivors] at h1
    rw [hfilter] at h1
    exact h1
  · intro h
    refine Eq.trans ?_ (centres_count numMaterials)
    unfold centresInRightHalf
    refine congrArg List.length ?_
    apply List.filter_congr
    intro instData hmem
    have := h instData hmem
    unfold centresInRightHalf at this
    rw [List.mem_filter] at this
    by_cases hc : dx.Contains (localSpaceFrustum dx (dx.XMMatrixInverse view) mCamFrustum
        instData) Bounds = ContainmentType.DISJOINT
    · have h2 := (not_congr this).1 (fun hn => hn hc)
      simp only [hmem, true_and] at h2
      simp [hc, h2]
    · have h2 := this.1 hc
      simp [hc, h2.2]
  · intro r h0 h50
    obtain ⟨buf2, h1, -⟩ := UpdateInstanceData_spec boxDX (translation 0 0 0) rightHalf true
      (BuildRenderItems ((0, 0, 0), r) IndexCount StartIndexLocation BaseVertexLocation
        numMaterials) buf
      (by
        intro ritem hr
        refine le_trans (List.length_filter_le _ _) ?_
        simp only [BuildRenderItems, List.mem_singleton] at hr
        subst hr
        rw [gridInstances_length]
        exact hcap)
    refine ⟨buf2, ?_⟩
    simp only [BuildRenderItems, List.map_cons, List.map_nil, survivors] at h1
    rw [boxDX_grid_count numMaterials r h0 h50] at h1
    exact h1

theorem grid_visible_count_witness :
    ∃ buf2, UpdateInstanceData boxDX (translation 0 0 0) rightHalf true gridInstanceBuffer
        (gridItems 5)
      = some (buf2,
          [{ Bounds := ((0, 0, 0), 5)
             Instances := gridInstances 7
             IndexCount := 36
             VisibleInstanceCount := 75
             StartIndexLocation := 0
             BaseVertexLocation := 0 }]) := by
  obtain ⟨-, -, -, -, h⟩ := grid_visible_count boxDX (translation 0 0 0) rightHalf
    ((0, 0, 0), 5) 36 0 0 7 gridInstanceBuffer (by decide)
  exact h 5 (by decide) (by decide)

end Instancing

/-! ## Gaussian weights, recorded barriers, the result file -/

theorem floatToInt_of_range (z : Int) (h1 : INT_MIN ≤ z) (h2 : z ≤ INT_MAX) :
    floatToInt z = some z := by
  simp [floatToInt, h1, h2]

theorem floatToInt_of_gt (z : Int) (h : INT_MAX < z) : floatToInt z = none := by
  have : ¬ z ≤ INT_MAX := not_le.2 h
  simp [floatToInt, this]

theorem barriersOn_append {F : Type} (resource : Resource) (a b : List (Command F)) :
    barriersOn resource (a ++ b) = barriersOn resource a ++ barriersOn resource b := by
  induction a with
  | nil => rfl
  | cons c rest ih =>
    cases c <;>
      first
      | exact ih
      | (simp only [List.cons_append, barriersOn]
         split
         · exact congrArg (List.cons _) ih
         · exact ih)

theorem shapes_items_no_barrier {F : Type} (resource : Resource)
    (ritems : List (ShapesApp.RenderItem F)) :
    barriersOn resource (ShapesApp.DrawRenderItems ritems) = [] := by
  induction ritems with
  | nil => rfl
  | cons ri rest ih => exact ih

theorem litColumns_items_no_barrier {F : Type} (resource : Resource) (ritems : List DrawArgs) :
    barriersOn resource (LitColumnsApp.DrawRenderItems ritems : List (Command F)) = [] := by
  induction ritems with
  | nil => rfl
  | cons ri rest ih => exact ih

theorem instancing_items_no_barrier {F Sphere : Type} (resource : Resource)
    (ritems : List (Instancing.RenderItem F Sphere)) :
    barriersOn resource (InstancingAndCullingApp.DrawRenderItems ritems) = [] := by
  induction ritems with
  | nil => rfl
  | cons ri rest ih => exact ih

theorem pairing_of_shape {F : Type} (backBuffer : Resource) (before inside : List (Command F))
    (h1 : barriersOn backBuffer before = []) (h2 : barriersOn backBuffer inside = [])
    (h3 : ∀ c ∈ before, c.isClearOrDraw = false) :
    TransitionPairing backBuffer
      (before
        ++ Command.ResourceBarrier backBuffer D3D12_RESOURCE_STATE_PRESENT
            D3D12_RESOURCE_STATE_RENDER_TARGET
        :: (inside ++ [Command.ResourceBarrier backBuffer D3D12_RESOURCE_STATE_RENDER_TARGET
            D3D12_RESOURCE_STATE_PRESENT])) := by
  have hb : barriersOn backBuffer
      (before
        ++ Command.ResourceBarrier backBuffer D3D12_RESOURCE_STATE_PRESENT
            D3D12_RESOURCE_STATE_RENDER_TARGET
        :: (inside ++ [Command.ResourceBarrier backBuffer D3D12_RESOURCE_STATE_RENDER_TARGET
            D3D12_RESOURCE_STATE_PRESENT]))
      = [(D3D12_RESOURCE_STATE_PRESENT, D3D12_RESOURCE_STATE_RENDER_TARGET),
         (D3D12_RESOURCE_STATE_RENDER_TARGET, D3D12_RESOURCE_STATE_PRESENT)] := by
    rw [barriersOn_append, h1, List.nil_append]
    simp only [barriersOn, if_true]
    rw [barriersOn_append, h2, List.nil_append]
    simp only [barriersOn, if_true]
  refine ⟨hb, ⟨before, inside, rfl, h3⟩, ?_⟩
  rw [stateAfter, hb]
  decide

theorem followTransitions_append (state : Nat) (a b : List (Nat × Nat)) :
    followTransitions state (a ++ b)
      = (followTransitions state a).bind fun s => followTransitions s b := by
  induction a generalizing state with
  | nil => rfl
  | cons t rest ih =>
    obtain ⟨x, y⟩ := t
    simp only [List.cons_append, followTransitions]
    split
    · exact ih y
    · rfl

theorem stateAfter_append {F : Type} (resource : Resource) (state : Nat)
    (a b : List (Command F)) :
    stateAfter resource state (a ++ b)
      = (stateAfter resource state a).bind fun s => stateAfter resource s b := by
  simp only [stateAfter, barriersOn_append, followTransitions_append]

namespace BlurFilter

theorem foldl_add_eq_sum {F : Type} [AddCommMonoid F] (l : List F) :
    l.foldl (fun weightSum w => weightSum + w) 0 = l.sum := by
  rw [List.sum_eq_foldl]

/-- What `CalcGaussWeights` returns for a radius in `[0, MaxBlurRadius]`. -/
theorem CalcGaussWeights_ok {F : Type} [LinearOrderedField F] [FloorRing F] (expf : F → F)
    (MaxBlurRadius : Int) (hmax : MaxBlurRadius ≤ INT_MAX) (sigma : F)
    (h0 : 0 ≤ ⌈2 * sigma⌉) (hr : ⌈2 * sigma⌉ ≤ MaxBlurRadius) :
    CalcGaussWeights expf MaxBlurRadius sigma
      = .ok (((List.range (2 * ⌈2 * sigma⌉.toNat + 1)).map fun t : Nat =>
            expf (-(((t : Int) - ⌈2 * sigma⌉ : Int) : F) * (((t : Int) - ⌈2 * sigma⌉ : Int) : F)
              / (2 * sigma * sigma))).map fun w =>
          w * (1 / ((List.range (2 * ⌈2 * sigma⌉.toNat + 1)).map fun t : Nat =>
            expf (-(((t : Int) - ⌈2 * sigma⌉ : Int) : F) * (((t : Int) - ⌈2 * sigma⌉ : Int) : F)
              / (2 * sigma * sigma))).sum)) := by
  have hmin : INT_MIN ≤ ⌈2 * sigma⌉ := le_trans (by decide) h0
  unfold CalcGaussWeights
  simp only [floatToInt_of_range _ hmin (le_trans hr hmax)]
  rw [if_neg (not_not.2 hr), if_neg (not_lt.2 h0), foldl_add_eq_sum]

theorem ceil_two_sigma {F : Type} [LinearOrderedField F] [FloorRing F] :
    ⌈(2 : F) * (5 / 2)⌉ = 5 := by
  have : (2 : F) * (5 / 2) = ((5 : ℤ) : F) := by norm_num
  rw [this, Int.ceil_intCast]

theorem CalcGaussWeights_radius {F : Type} [LinearOrderedField F] [FloorRing F] (expf : F → F)
    (MaxBlurRadius : Int) (sigma : F) (weights : List F)
    (h : CalcGaussWeights expf MaxBlurRadius sigma = .ok weights) :
    0 ≤ ⌈2 * sigma⌉ ∧ ⌈2 * sigma⌉ ≤ MaxBlurRadius ∧ ⌈2 * sigma⌉ ≤ INT_MAX ∧
      (weights.length : Int) = 2 * ⌈2 * sigma⌉ + 1 := by
  unfold CalcGaussWeights at h
  by_cases hrange : INT_MIN ≤ ⌈2 * sigma⌉ ∧ ⌈2 * sigma⌉ ≤ INT_MAX
  · simp only [floatToInt, if_pos hrange] at h
    by_cases hle : ⌈2 * sigma⌉ ≤ MaxBlurRadius
    · rw [if_neg (not_not.2 hle)] at h
      by_cases hneg : ⌈2 * sigma⌉ < 0
      · rw [if_pos hneg] at h
        exact Outcome.noConfusion h
      · rw [if_neg hneg] at h
        have h0 : 0 ≤ ⌈2 * sigma⌉ := not_lt.1 hneg
        refine ⟨h0, hle, hrange.2, ?_⟩
        simp only [Outcome.ok.injEq] at h
        rw [← h]
        simp only [List.length_map, List.length_range]
        push_cast
        rw [Int.toNat_of_nonneg h0]
    · rw [if_pos hle] at h
      exact Outcome.noConfusion h
  · simp only [floatToInt, if_neg hrange] at h
    exact Outcome.noConfusion h

theorem tdiv_two (r : Int) (h0 : 0 ≤ r) : (2 * r + 1).tdiv 2 = r := by
  rw [Int.tdiv_eq_ediv (by omega) (by omega)]
  omega

theorem blurPasses_map0 {F : Type} (mWidth mHeight n : Nat) :
    stateAfter .mBlurMap0 D3D12_RESOURCE_STATE_GENERIC_READ
      (blurPasses mWidth mHeight n : List (Command F))
      = some D3D12_RESOURCE_STATE_GENERIC_READ := by
  induction n with
  | zero => rfl
  | succ n ih =>
    have h1 : stateAfter .mBlurMap0 D3D12_RESOURCE_STATE_GENERIC_READ
        (blurPass mWidth mHeight : List (Command F))
        = some D3D12_RESOURCE_STATE_GENERIC_READ := rfl
    rw [blurPasses, stateAfter_append, h1]
    exact ih

theorem blurPasses_map1 {F : Type} (mWidth mHeight n : Nat) :
    stateAfter .mBlurMap1 D3D12_RESOURCE_STATE_UNORDERED_ACCESS
      (blurPasses mWidth mHeight n : List (Command F))
      = some D3D12_RESOURCE_STATE_UNORDERED_ACCESS := by
  induction n with
  | zero => rfl
  | succ n ih =>
    have h1 : stateAfter .mBlurMap1 D3D12_RESOURCE_STATE_UNORDERED_ACCESS
        (blurPass mWidth mHeight : List (Command F))
        = some D3D12_RESOURCE_STATE_UNORDERED_ACCESS := rfl
    rw [blurPasses, stateAfter_append, h1]
    exact ih

theorem blurCommands_map0 {F : Type} (mWidth mHeight : Nat) (input : Resource)
    (hin : input ≠ .mBlurMap0) (blurCount : Int) (state : Nat) :
    stateAfter .mBlurMap0 state (blurCommands mWidth mHeight input blurCount : List (Command F))
      = if state = D3D12_RESOURCE_STATE_COMMON then some D3D12_RESOURCE_STATE_GENERIC_READ
        else none := by
  have h := blurPasses_map0 (F := F) mWidth mHeight blurCount.toNat
  unfold stateAfter at h ⊢
  unfold blurCommands
  rw [barriersOn_append]
  simp only [barriersOn, if_neg hin, if_true, List.cons_append, List.nil_append,
    followTransitions]
  by_cases hs : state = D3D12_RESOURCE_STATE_COMMON
  · rw [if_pos hs.symm, if_pos hs]
    simpa using h
  · rw [if_neg (fun e => hs e.symm), if_neg hs]

theorem blurCommands_map1 {F : Type} (mWidth mHeight : Nat) (input : Resource)
    (hin : input ≠ .mBlurMap1) (blurCount : Int) (state : Nat) :
    stateAfter .mBlurMap1 state (blurCommands mWidth mHeight input blurCount : List (Command F))
      = if state = D3D12_RESOURCE_STATE_COMMON then some D3D12_RESOURCE_STATE_UNORDERED_ACCESS
        else none := by
  have h := blurPasses_map1 (F := F) mWidth mHeight blurCount.toNat
  unfold stateAfter at h ⊢
  unfold blurCommands
  rw [barriersOn_append]
  simp only [barriersOn, if_neg hin, if_true, List.cons_append, List.nil_append,
    followTransitions]
  by_cases hs : state = D3D12_RESOURCE_STATE_COMMON
  · rw [if_pos hs.symm, if_pos hs]
    simpa using h
  · rw [if_neg (fun e => hs e.symm), if_neg hs]

end BlurFilter

namespace VecAddCSApp

theorem inRange_iff {F : Type} [LinearOrderedField F] (v : FloatValue F) :
    (FloatValue.ge v (.finite 1) && FloatValue.le v (.finite 10)) = v.within 1 10 := by
  cases v with
  | finite x => simp [FloatValue.ge, FloatValue.le, FloatValue.within]
  | posInf => simp [FloatValue.ge, FloatValue.le, FloatValue.within]
  | negInf => simp [FloatValue.ge, FloatValue.le, FloatValue.within]
  | nan => simp [FloatValue.ge, FloatValue.le, FloatValue.within]

end VecAddCSApp

theorem demoFormat_ne (v : FloatValue ℚ) : demoFormat v ≠ "Length out of range" := by
  intro h
  have := congrArg String.data h
  cases v <;> simp [demoFormat, String.data_append] at this

/-! ### The claims about the Gaussian weights, the barriers, the result file -/

namespace BlurFilter

/-- C16 (the kernel radius). When `CalcGaussWeights(sigma)` returns, it
returns `2r + 1` weights for `r = ceil(2 * sigma)`, so `weights.size() / 2`,
the radius `Execute` recovers, is `ceil(2 * sigma)`. For the `sigma = 2.5`
of `Execute` (and a `MaxBlurRadius` of at least 5) the kernel has 11 weights
and `Execute` passes the radius 5 and these 11 weights as root constants. -/
theorem gauss_radius_is_ceil {F : Type} [LinearOrderedField F] [FloorRing F] (expf : F → F)
    (MaxBlurRadius : Int) (sigma : F) (weights : List F)
    (h : CalcGaussWeights expf MaxBlurRadius sigma = .ok weights) :
    (weights.length : Int) = 2 * ⌈2 * sigma⌉ + 1 ∧
    (weights.length : Int).tdiv 2 = ⌈2 * sigma⌉ ∧
    (5 ≤ MaxBlurRadius → MaxBlurRadius ≤ INT_MAX →
      ∀ (mWidth mHeight : Nat) (input : Resource) (blurCount : Int),
        ∃ kernel : List F,
          CalcGaussWeights expf MaxBlurRadius (5 / 2) = .ok kernel ∧
          kernel.length = 11 ∧
          Execute expf MaxBlurRadius mWidth mHeight input blurCount
            = .ok (.SetComputeRootSignature
                :: .SetComputeRoot32BitConstants 0 [.int 5] 0
                :: .SetComputeRoot32BitConstants 0 (kernel.map .float) 1
                :: blurCommands mWidth mHeight input blurCount)) := by
  obtain ⟨h0, -, -, hlen⟩ := CalcGaussWeights_radius expf MaxBlurRadius sigma weights h
  refine ⟨hlen, by rw [hlen]; exact tdiv_two _ h0, ?_⟩
  intro h5 hmax mWidth mHeight input blurCount
  have hc : ⌈(2 : F) * (5 / 2)⌉ = 5 := ceil_two_sigma
  obtain ⟨kernel, hok⟩ : ∃ kernel, CalcGaussWeights expf MaxBlurRadius (5 / 2) = .ok kernel :=
    ⟨_, CalcGaussWeights_ok expf MaxBlurRadius hmax (5 / 2) (by rw [hc]; decide)
      (by rw [hc]; exact h5)⟩
  obtain ⟨-, -, -, hk⟩ := CalcGaussWeights_radius expf MaxBlurRadius (5 / 2) kernel hok
  rw [hc] at hk
  have hk11 : kernel.length = 11 := by omega
  refine ⟨kernel, hok, hk11, ?_⟩
  unfold Execute
  rw [hok]
  simp only [hk11]
  rfl

theorem gauss_radius_is_ceil_witness :
    ∃ weights : List ℚ, CalcGaussWeights demoExp 5 (5 / 2) = .ok weights ∧
      weights.length = 11 ∧ (weights.length : Int).tdiv 2 = 5 ∧
      Execute demoExp 5 1280 720 (.swapChainBuffer 0) 4
        = .ok (.SetComputeRootSignature
            :: .SetComputeRoot32BitConstants 0 [.int 5] 0
            :: .SetComputeRoot32BitConstants 0 (weights.map .float) 1
            :: blurCommands 1280 720 (.swapChainBuffer 0) 4) := by
  obtain ⟨weights, hok⟩ : ∃ weights, CalcGaussWeights demoExp 5 (5 / 2) = .ok weights :=
    ⟨_, CalcGaussWeights_ok demoExp 5 (by decide) (5 / 2) (by rw [ceil_two_sigma]; decide)
      (by rw [ceil_two_sigma])⟩
  obtain ⟨-, h2, h3⟩ := gauss_radius_is_ceil demoExp 5 (5 / 2) weights hok
  obtain ⟨kernel, k1, k2, k3⟩ := h3 (le_refl _) (by decide) 1280 720 (.swapChainBuffer 0) 4
  rw [hok] at k1
  simp only [Outcome.ok.injEq] at k1
  subst k1
  rw [ceil_two_sigma] at h2
  exact ⟨weights, hok, k2, h2, k3⟩

/-- Beyond the range of `int`: at `sigma = 2^30` the radius `ceil(2 * sigma)`
is `2^31 = INT_MAX + 1`, the conversion `(int)ceil(2.0f * sigma)` is
undefined, and the call stops there, before the assertion. -/
theorem CalcGaussWeights_beyond_int {F : Type} [LinearOrderedField F] [FloorRing F]
    (expf : F → F) (MaxBlurRadius : Int) :
    ⌈(2 : F) * 1073741824⌉ = INT_MAX + 1 ∧
    CalcGaussWeights expf MaxBlurRadius 1073741824 = .undefinedConversion ∧
    CalcGaussWeights expf MaxBlurRadius 1073741824 ≠ .assertionFailed := by
  have hc : ⌈(2 : F) * 1073741824⌉ = 2147483648 := by
    have : (2 : F) * 1073741824 = ((2147483648 : ℤ) : F) := by norm_num
    rw [this, Int.ceil_intCast]
  have h : CalcGaussWeights expf MaxBlurRadius 1073741824 = .undefinedConversion := by
    unfold CalcGaussWeights
    simp only [hc, floatToInt_of_gt 2147483648 (by decide)]
  refine ⟨by rw [hc]; decide, h, ?_⟩
  rw [h]
  exact fun hne => Outcome.noConfusion hne

/-- C19, on the code: `Execute` (with a `MaxBlurRadius` of at least 5, so
that `CalcGaussWeights(2.5f)` returns, and an input other than the two maps)
takes `mBlurMap0` from `COMMON` to `GENERIC_READ` and `mBlurMap1` from
`COMMON` to `UNORDERED_ACCESS`, for every blur count; neither is `COMMON`,
the state the first barriers of `Execute` declare as `StateBefore`, so from
any other state `Execute` has no consistent state sequence, and two calls of
`Execute` recorded one after the other have none for either map. -/
theorem execute_leaves_maps_out_of_common {F : Type} [LinearOrderedField F] [FloorRing F]
    (expf : F → F) (MaxBlurRadius : Int) (h5 : 5 ≤ MaxBlurRadius)
    (hmax : MaxBlurRadius ≤ INT_MAX) (mWidth mHeight : Nat) (input : Resource)
    (hin0 : input ≠ .mBlurMap0) (hin1 : input ≠ .mBlurMap1) (blurCount : Int) :
    ∃ cmds : List (Command F),
      Execute expf MaxBlurRadius mWidth mHeight input blurCount = .ok cmds ∧
      stateAfter .mBlurMap0 D3D12_RESOURCE_STATE_COMMON cmds
        = some D3D12_RESOURCE_STATE_GENERIC_READ ∧
      stateAfter .mBlurMap1 D3D12_RESOURCE_STATE_COMMON cmds
        = some D3D12_RESOURCE_STATE_UNORDERED_ACCESS ∧
      D3D12_RESOURCE_STATE_GENERIC_READ ≠ D3D12_RESOURCE_STATE_COMMON ∧
      D3D12_RESOURCE_STATE_UNORDERED_ACCESS ≠ D3D12_RESOURCE_STATE_COMMON ∧
      (∀ state, state ≠ D3D12_RESOURCE_STATE_COMMON →
        stateAfter .mBlurMap0 state cmds = none ∧ stateAfter .mBlurMap1 state cmds = none) ∧
      ∀ nextBlurCount : Int, ∃ next : List (Command F),
        Execute expf MaxBlurRadius mWidth mHeight input nextBlurCount = .ok next ∧
        stateAfter .mBlurMap0 D3D12_RESOURCE_STATE_COMMON (cmds ++ next) = none ∧
        stateAfter .mBlurMap1 D3D12_RESOURCE_STATE_COMMON (cmds ++ next) = none := by
  obtain ⟨kernel, hok⟩ : ∃ kernel, CalcGaussWeights expf MaxBlurRadius (5 / 2) = .ok kernel :=
    ⟨_, CalcGaussWeights_ok expf MaxBlurRadius hmax (5 / 2) (by rw [ceil_two_sigma]; decide)
      (by rw [ceil_two_sigma]; exact h5)⟩
  have hex : ∀ count : Int, Execute expf MaxBlurRadius mWidth mHeight input count
      = .ok (.SetComputeRootSignature
          :: .SetComputeRoot32BitConstants 0 [.int ((kernel.length : Int).tdiv 2)] 0
          :: .SetComputeRoot32BitConstants 0 (kernel.map .float) 1
          :: blurCommands mWidth mHeight input count) := by
    intro count
    unfold Execute
    rw [hok]
  have h0 : ∀ (count : Int) (state : Nat),
      stateAfter .mBlurMap0 state
        (.SetComputeRootSignature
          :: .SetComputeRoot32BitConstants 0 [.int ((kernel.length : Int).tdiv 2)] 0
          :: .SetComputeRoot32BitConstants 0 (kernel.map .float) 1
          :: blurCommands mWidth mHeight input count : List (Command F))
        = if state = D3D12_RESOURCE_STATE_COMMON then some D3D12_RESOURCE_STATE_GENERIC_READ
          else none :=
    fun count state => blurCommands_map0 mWidth mHeight input hin0 count state
  have h1 : ∀ (count : Int) (state : Nat),
      stateAfter .mBlurMap1 state
        (.SetComputeRootSignature
          :: .SetComputeRoot32BitConstants 0 [.int ((kernel.length : Int).tdiv 2)] 0
          :: .SetComputeRoot32BitConstants 0 (kernel.map .float) 1
          :: blurCommands mWidth mHeight input count : List (Command F))
        = if state = D3D12_RESOURCE_STATE_COMMON then some D3D12_RESOURCE_STATE_UNORDERED_ACCESS
          else none :=
    fun count state => blurCommands_map1 mWidth mHeight input hin1 count state
  refine ⟨_, hex blurCount, ?_, ?_, by decide, by decide, ?_, ?_⟩
  · rw [h0, if_pos rfl]
  · rw [h1, if_pos rfl]
  · intro state hs
    rw [h0, h1, if_neg hs, if_neg hs]
    exact ⟨rfl, rfl⟩
  · intro nextBlurCount
    refine ⟨_, hex nextBlurCount, ?_, ?_⟩
    · rw [stateAfter_append, h0, if_pos rfl, Option.some_bind, h0, if_neg (by decide)]
    · rw [stateAfter_append, h1, if_pos rfl, Option.some_bind, h1, if_neg (by decide)]

theorem execute_leaves_maps_out_of_common_witness :
    ∃ cmds : List (Command ℚ),
      Execute demoExp 5 1280 720 (.swapChainBuffer 0) 4 = .ok cmds ∧
      stateAfter .mBlurMap0 D3D12_RESOURCE_STATE_COMMON cmds
        = some D3D12_RESOURCE_STATE_GENERIC_READ ∧
      stateAfter .mBlurMap0 D3D12_RESOURCE_STATE_COMMON (cmds ++ cmds) = none := by
  obtain ⟨cmds, h1, h2, -, -, -, -, h7⟩ := execute_leaves_maps_out_of_common demoExp 5
    (le_refl _) (by decide) 1280 720 (.swapChainBuffer 0) (by decide) (by decide) 4
  obtain ⟨next, h8, h9, -⟩ := h7 4
  rw [h1] at h8
  simp only [Outcome.ok.injEq] at h8
  subst h8
  exact ⟨cmds, h1, h2, h9⟩

end BlurFilter

/-- C18 (transition pairing for the back buffer). In the `Draw` of every
sample among the sources (`InitDirect3DApp`, `BoxApp`, `ShapesApp`,
`LitColumnsApp`, `CircleToCylinder`, the two `VecAddCSApp`,
`InstancingAndCullingApp`), for every back-buffer index and every list of
render items, the barriers recorded for the current back buffer are exactly
`PRESENT -> RENDER_TARGET` and then `RENDER_TARGET -> PRESENT`; no clear or
draw command precedes the first, the second is the last command of the
list, and the list takes the back buffer from `PRESENT` back to `PRESENT`. -/
theorem back_buffer_transitions_paired {F Sphere : Type} (mCurrBackBufferIndex : Nat)
    (mNumIndices mkCircleVertexCount : Nat) (shapes : List (ShapesApp.RenderItem F))
    (columns : List DrawArgs) (skulls : List (Instancing.RenderItem F Sphere)) :
    TransitionPairing (.swapChainBuffer mCurrBackBufferIndex)
      (InitDirect3DApp.Draw mCurrBackBufferIndex : List (Command F)) ∧
    TransitionPairing (.swapChainBuffer mCurrBackBufferIndex)
      (BoxApp.Draw mCurrBackBufferIndex mNumIndices : List (Command F)) ∧
    TransitionPairing (.swapChainBuffer mCurrBackBufferIndex)
      (ShapesApp.Draw mCurrBackBufferIndex shapes) ∧
    TransitionPairing (.swapChainBuffer mCurrBackBufferIndex)
      (LitColumnsApp.Draw mCurrBackBufferIndex columns : List (Command F)) ∧
    TransitionPairing (.swapChainBuffer mCurrBackBufferIndex)
      (CircleToCylinder.Draw mCurrBackBufferIndex mkCircleVertexCount : List (Command F)) ∧
    TransitionPairing (.swapChainBuffer mCurrBackBufferIndex)
      (VecAddCSApp.Draw mCurrBackBufferIndex : List (Command F)) ∧
    TransitionPairing (.swapChainBuffer mCurrBackBufferIndex)
      (InstancingAndCullingApp.Draw mCurrBackBufferIndex skulls) := by
  refine ⟨?_, ?_, ?_, ?_, ?_, ?_, ?_⟩
  · exact pairing_of_shape (.swapChainBuffer mCurrBackBufferIndex) [.RSSetViewports, .RSSetScissorRects]
      [.OMSetRenderTargets (.swapChainBuffer mCurrBackBufferIndex) .depthStencilBuffer,
        .ClearRenderTargetView (.swapChainBuffer mCurrBackBufferIndex),
        .ClearDepthStencilView .depthStencilBuffer]
      rfl rfl (by simp [Command.isClearOrDraw])
  · exact pairing_of_shape (.swapChainBuffer mCurrBackBufferIndex) [.RSSetScissorRects, .RSSetViewports]
      [.OMSetRenderTargets (.swapChainBuffer mCurrBackBufferIndex) .depthStencilBuffer,
        .ClearRenderTargetView (.swapChainBuffer mCurrBackBufferIndex),
        .ClearDepthStencilView .depthStencilBuffer,
        .SetDescriptorHeaps,
        .SetGraphicsRootSignature,
        .IASetVertexBuffers 0 2,
        .IASetIndexBuffer,
        .IASetPrimitiveTopology,
        .SetGraphicsRootDescriptorTable 0,
        .DrawIndexedInstanced mNumIndices 1 0 0 0]
      rfl rfl (by simp [Command.isClearOrDraw])
  · exact pairing_of_shape (.swapChainBuffer mCurrBackBufferIndex) [.RSSetViewports, .RSSetScissorRects]
      ([.ClearRenderTargetView (.swapChainBuffer mCurrBackBufferIndex),
        .ClearDepthStencilView .depthStencilBuffer,
        .OMSetRenderTargets (.swapChainBuffer mCurrBackBufferIndex) .depthStencilBuffer,
        .SetDescriptorHeaps,
        .SetGraphicsRootSignature,
        .SetGraphicsRootDescriptorTable 1] ++ ShapesApp.DrawRenderItems shapes)
      rfl (by rw [barriersOn_append, shapes_items_no_barrier]; rfl)
      (by simp [Command.isClearOrDraw])
  · exact pairing_of_shape (.swapChainBuffer mCurrBackBufferIndex) [.RSSetViewports, .RSSetScissorRects]
      ([.ClearRenderTargetView (.swapChainBuffer mCurrBackBufferIndex),
        .ClearDepthStencilView .depthStencilBuffer,
        .OMSetRenderTargets (.swapChainBuffer mCurrBackBufferIndex) .depthStencilBuffer,
        .SetDescriptorHeaps,
        .SetGraphicsRootSignature,
        .SetGraphicsRootConstantBufferView 3] ++ LitColumnsApp.DrawRenderItems columns)
      rfl (by rw [barriersOn_append, litColumns_items_no_barrier (F := F)]; rfl)
      (by simp [Command.isClearOrDraw])
  · exact pairing_of_shape (.swapChainBuffer mCurrBackBufferIndex) [.RSSetViewports, .RSSetScissorRects]
      [.ClearRenderTargetView (.swapChainBuffer mCurrBackBufferIndex),
        .ClearDepthStencilView .depthStencilBuffer,
        .OMSetRenderTargets (.swapChainBuffer mCurrBackBufferIndex) .depthStencilBuffer,
        .SetGraphicsRootSignature,
        .SetGraphicsRootConstantBufferView 0,
        .IASetPrimitiveTopology,
        .IASetVertexBuffers 0 1,
        .IASetIndexBuffer,
        .DrawInstanced mkCircleVertexCount 1 0 0]
      rfl rfl (by simp [Command.isClearOrDraw])
  · exact pairing_of_shape (.swapChainBuffer mCurrBackBufferIndex) [.RSSetViewports, .RSSetScissorRects]
      [.OMSetRenderTargets (.swapChainBuffer mCurrBackBufferIndex) .depthStencilBuffer,
        .ClearRenderTargetView (.swapChainBuffer mCurrBackBufferIndex),
        .ClearDepthStencilView .depthStencilBuffer]
      rfl rfl (by simp [Command.isClearOrDraw])
  · exact pairing_of_shape (.swapChainBuffer mCurrBackBufferIndex) [.RSSetViewports, .RSSetScissorRects]
      ([.ClearRenderTargetView (.swapChainBuffer mCurrBackBufferIndex),
        .ClearDepthStencilView .depthStencilBuffer,
        .OMSetRenderTargets (.swapChainBuffer mCurrBackBufferIndex) .depthStencilBuffer,
        .SetDescriptorHeaps,
        .SetGraphicsRootSignature,
        .SetGraphicsRootShaderResourceView 1,
        .SetGraphicsRootConstantBufferView 2,
        .SetGraphicsRootDescriptorTable 3] ++ InstancingAndCullingApp.DrawRenderItems skulls)
      rfl (by rw [barriersOn_append, instancing_items_no_barrier]; rfl)
      (by simp [Command.isClearOrDraw])

namespace VecAddCSApp

/-- C20 (the result file). `DoComputeWork` writes 64 lines; line `i` is the
formatted value of element `i` of the read-back data when that value is
within `[1, 10]` (1 and 10 are within, a NaN is not) and the text
`Length out of range` otherwise, so it depends on element `i` only; when no
formatted value reads `Length out of range`, a line is that text exactly
when its value is not within `[1, 10]`. -/
theorem results_lines {F : Type} [LinearOrderedField F] (format : FloatValue F → String)
    (mappedData : Nat → FloatValue F) :
    (DoComputeWork format mappedData).length = 64 ∧
    (∀ i, i < 64 →
      (DoComputeWork format mappedData)[i]?
        = some (if (mappedData i).within 1 10 then format (mappedData i)
            else "Length out of range")) ∧
    (∀ i, i < 64 → ∀ other : Nat → FloatValue F, other i = mappedData i →
      (DoComputeWork format other)[i]? = (DoComputeWork format mappedData)[i]?) ∧
    (FloatValue.within 1 10 (.finite 1 : FloatValue F) = true ∧
      FloatValue.within 1 10 (.finite 10 : FloatValue F) = true ∧
      FloatValue.within 1 10 (.nan : FloatValue F) = false) ∧
    ((∀ v, format v ≠ "Length out of range") → ∀ i, i < 64 →
      ((DoComputeWork format mappedData)[i]? = some "Length out of range" ↔
        (mappedData i).within 1 10 = false)) := by
  have hline : ∀ (data : Nat → FloatValue F) (i : Nat), i < 64 →
      (DoComputeWork format data)[i]?
        = some (if (data i).within 1 10 then format (data i) else "Length out of range") := by
    intro data i hi
    unfold DoComputeWork
    rw [List.getElem?_map, List.getElem?_range (by exact hi)]
    simp only [Option.map_some', inRange_iff]
  refine ⟨by simp [DoComputeWork, NumDataElements], hline mappedData, ?_, ?_, ?_⟩
  · intro i hi other ho
    rw [hline other i hi, hline mappedData i hi, ho]
  · refine ⟨?_, ?_, rfl⟩
    · simp [FloatValue.within]
    · simp [FloatValue.within]
  · intro hfmt i hi
    rw [hline mappedData i hi]
    cases hc : (mappedData i).within 1 10
    · simp
    · simp only [if_true, Option.some.injEq, Bool.true_eq_false, iff_false]
      exact hfmt _

theorem results_lines_witness :
    (DoComputeWork demoFormat demoData)[3]? = some "Length out of range" ∧
    (DoComputeWork demoFormat demoData)[4]? = some (demoFormat (.finite 1)) := by
  obtain ⟨-, h2, -, -, h5⟩ := results_lines demoFormat demoData
  refine ⟨(h5 demoFormat_ne 3 (by decide)).2 (by simp [demoData, FloatValue.within]), ?_⟩
  rw [h2 4 (by decide)]
  have e : demoData 4 = .finite 1 := by
    simp only [demoData]
    norm_num
  rw [e]
  simp [FloatValue.within]

end VecAddCSApp

/-! ## The states inside one `Execute`, the instance grid -/

namespace BlurFilter

theorem blurPasses_dispatch0 {F : Type} (mWidth mHeight n : Nat) (pso : Option BlurBinding) :
    statesAtDispatch .mBlurMap0 D3D12_RESOURCE_STATE_GENERIC_READ pso
      (blurPasses mWidth mHeight n : List (Command F))
      = some (List.replicate n
          [(some BlurBinding.horzBlurPSO, D3D12_RESOURCE_STATE_GENERIC_READ),
           (some BlurBinding.vertBlurPSO, D3D12_RESOURCE_STATE_UNORDERED_ACCESS)]).flatten := by
  induction n generalizing pso with
  | zero => rfl
  | succ n ih =>
    have h1 : statesAtDispatch .mBlurMap0 D3D12_RESOURCE_STATE_GENERIC_READ pso
        (blurPass mWidth mHeight ++ blurPasses mWidth mHeight n : List (Command F))
        = ((statesAtDispatch .mBlurMap0 D3D12_RESOURCE_STATE_GENERIC_READ
              (some BlurBinding.vertBlurPSO) (blurPasses mWidth mHeight n : List (Command F))).map
            fun states =>
              (some BlurBinding.vertBlurPSO, D3D12_RESOURCE_STATE_UNORDERED_ACCESS) :: states).map
          fun states => (some BlurBinding.horzBlurPSO, D3D12_RESOURCE_STATE_GENERIC_READ) :: states :=
      rfl
    rw [blurPasses, h1, ih]
    rfl

theorem blurPasses_dispatch1 {F : Type} (mWidth mHeight n : Nat) (pso : Option BlurBinding) :
    statesAtDispatch .mBlurMap1 D3D12_RESOURCE_STATE_UNORDERED_ACCESS pso
      (blurPasses mWidth mHeight n : List (Command F))
      = some (List.replicate n
          [(some BlurBinding.horzBlurPSO, D3D12_RESOURCE_STATE_UNORDERED_ACCESS),
           (some BlurBinding.vertBlurPSO, D3D12_RESOURCE_STATE_GENERIC_READ)]).flatten := by
  induction n generalizing pso with
  | zero => rfl
  | succ n ih =>
    have h1 : statesAtDispatch .mBlurMap1 D3D12_RESOURCE_STATE_UNORDERED_ACCESS pso
        (blurPass mWidth mHeight ++ blurPasses mWidth mHeight n : List (Command F))
        = ((statesAtDispatch .mBlurMap1 D3D12_RESOURCE_STATE_UNORDERED_ACCESS
              (some BlurBinding.vertBlurPSO) (blurPasses mWidth mHeight n : List (Command F))).map
            fun states =>
              (some BlurBinding.vertBlurPSO, D3D12_RESOURCE_STATE_GENERIC_READ) :: states).map
          fun states =>
            (some BlurBinding.horzBlurPSO, D3D12_RESOURCE_STATE_UNORDERED_ACCESS) :: states :=
      rfl
    rw [blurPasses, h1, ih]
    rfl

theorem blurCommands_dispatch0 {F : Type} (mWidth mHeight : Nat) (input : Resource)
    (hin : input ≠ .mBlurMap0) (blurCount : Int) (pso : Option BlurBinding) :
    statesAtDispatch .mBlurMap0 D3D12_RESOURCE_STATE_COMMON pso
      (blurCommands mWidth mHeight input blurCount : List (Command F))
      = some (List.replicate blurCount.toNat
          [(some BlurBinding.horzBlurPSO, D3D12_RESOURCE_STATE_GENERIC_READ),
           (some BlurBinding.vertBlurPSO, D3D12_RESOURCE_STATE_UNORDERED_ACCESS)]).flatten := by
  simp only [blurCommands, List.cons_append, List.nil_append, statesAtDispatch, if_neg hin,
    if_true]
  simpa using blurPasses_dispatch0 mWidth mHeight blurCount.toNat pso

theorem blurCommands_dispatch1 {F : Type} (mWidth mHeight : Nat) (input : Resource)
    (hin : input ≠ .mBlurMap1) (blurCount : Int) (pso : Option BlurBinding) :
    statesAtDispatch .mBlurMap1 D3D12_RESOURCE_STATE_COMMON pso
      (blurCommands mWidth mHeight input blurCount : List (Command F))
      = some (List.replicate blurCount.toNat
          [(some BlurBinding.horzBlurPSO, D3D12_RESOURCE_STATE_UNORDERED_ACCESS),
           (some BlurBinding.vertBlurPSO, D3D12_RESOURCE_STATE_GENERIC_READ)]).flatten := by
  simp only [blurCommands, List.cons_append, List.nil_append, statesAtDispatch, if_neg hin,
    if_true]
  simpa using blurPasses_dispatch1 mWidth mHeight blurCount.toNat pso

theorem blurPasses_other {F : Type} (mWidth mHeight n : Nat) (resource : Resource)
    (h0 : resource ≠ .mBlurMap0) (h1 : resource ≠ .mBlurMap1) :
    barriersOn resource (blurPasses mWidth mHeight n : List (Command F)) = [] := by
  induction n with
  | zero => rfl
  | succ n ih =>
    rw [blurPasses, barriersOn_append, ih]
    simp [blurPass, barriersOn, Ne.symm h0, Ne.symm h1]

theorem blurCommands_input {F : Type} (mWidth mHeight : Nat) (input : Resource)
    (h0 : input ≠ .mBlurMap0) (h1 : input ≠ .mBlurMap1) (blurCount : Int) :
    barriersOn input (blurCommands mWidth mHeight input blurCount : List (Command F))
      = [(D3D12_RESOURCE_STATE_RENDER_TARGET, D3D12_RESOURCE_STATE_COPY_SOURCE)] := by
  rw [blurCommands, barriersOn_append, blurPasses_other _ _ _ _ h0 h1]
  simp [barriersOn, Ne.symm h0, Ne.symm h1]

theorem blurCommands_other {F : Type} (mWidth mHeight : Nat) (input resource : Resource)
    (hin : resource ≠ input)
    (h0 : resource ≠ .mBlurMap0) (h1 : resource ≠ .mBlurMap1) (blurCount : Int) :
    barriersOn resource (blurCommands mWidth mHeight input blurCount : List (Command F))
      = [] := by
  rw [blurCommands, barriersOn_append, blurPasses_other _ _ _ _ h0 h1]
  simp [barriersOn, Ne.symm h0, Ne.symm h1, Ne.symm hin]

/-- C25 (state sequence inside one `Execute`). With a `MaxBlurRadius` of at
least 5, so that `CalcGaussWeights(2.5f)` returns, and an input other than
the two maps, `Execute` returns a command list for every blur count (a
count below 0 runs no pass), and in it every barrier declares as
`StateBefore` the state the barriers before it left its resource in,
starting from the input in `RENDER_TARGET` and both maps in `COMMON`: the
chain of the input ends in `COPY_SOURCE`, that of `mBlurMap0` in
`GENERIC_READ`, that of `mBlurMap1` in `UNORDERED_ACCESS`, and no other
resource has a barrier. The dispatches alternate between the horizontal and
the vertical pipeline state, `blurCount` times; at each horizontal dispatch
`mBlurMap0` is in `GENERIC_READ` and `mBlurMap1` in `UNORDERED_ACCESS`, at
each vertical dispatch the reverse. -/
theorem execute_barriers_chain {F : Type} [LinearOrderedField F] [FloorRing F]
    (expf : F → F) (MaxBlurRadius : Int) (h5 : 5 ≤ MaxBlurRadius)
    (hmax : MaxBlurRadius ≤ INT_MAX) (mWidth mHeight : Nat) (input : Resource)
    (hin0 : input ≠ .mBlurMap0) (hin1 : input ≠ .mBlurMap1) (blurCount : Int) :
    ∃ cmds : List (Command F),
      Execute expf MaxBlurRadius mWidth mHeight input blurCount = .ok cmds ∧
      stateAfter input D3D12_RESOURCE_STATE_RENDER_TARGET cmds
        = some D3D12_RESOURCE_STATE_COPY_SOURCE ∧
      stateAfter .mBlurMap0 D3D12_RESOURCE_STATE_COMMON cmds
        = some D3D12_RESOURCE_STATE_GENERIC_READ ∧
      stateAfter .mBlurMap1 D3D12_RESOURCE_STATE_COMMON cmds
        = some D3D12_RESOURCE_STATE_UNORDERED_ACCESS ∧
      (∀ resource, resource ≠ input → resource ≠ .mBlurMap0 → resource ≠ .mBlurMap1 →
        barriersOn resource cmds = []) ∧
      statesAtDispatch .mBlurMap0 D3D12_RESOURCE_STATE_COMMON none cmds
        = some (List.replicate blurCount.toNat
            [(some BlurBinding.horzBlurPSO, D3D12_RESOURCE_STATE_GENERIC_READ),
             (some BlurBinding.vertBlurPSO, D3D12_RESOURCE_STATE_UNORDERED_ACCESS)]).flatten ∧
      statesAtDispatch .mBlurMap1 D3D12_RESOURCE_STATE_COMMON none cmds
        = some (List.replicate blurCount.toNat
            [(some BlurBinding.horzBlurPSO, D3D12_RESOURCE_STATE_UNORDERED_ACCESS),
             (some BlurBinding.vertBlurPSO, D3D12_RESOURCE_STATE_GENERIC_READ)]).flatten := by
  obtain ⟨kernel, hok⟩ : ∃ kernel, CalcGaussWeights expf MaxBlurRadius (5 / 2) = .ok kernel :=
    ⟨_, CalcGaussWeights_ok expf MaxBlurRadius hmax (5 / 2) (by rw [ceil_two_sigma]; decide)
      (by rw [ceil_two_sigma]; exact h5)⟩
  have hex : Execute expf MaxBlurRadius mWidth mHeight input blurCount
      = .ok (.SetComputeRootSignature
          :: .SetComputeRoot32BitConstants 0 [.int ((kernel.length : Int).tdiv 2)] 0
          :: .SetComputeRoot32BitConstants 0 (kernel.map .float) 1
          :: blurCommands mWidth mHeight input blurCount) := by
    unfold Execute
    rw [hok]
  refine ⟨_, hex, ?_, ?_, ?_, ?_, ?_, ?_⟩
  · show followTransitions _ (barriersOn input (blurCommands mWidth mHeight input blurCount)) = _
    rw [blurCommands_input _ _ _ hin0 hin1]
    rfl
  · exact (blurCommands_map0 mWidth mHeight input hin0 blurCount _).trans (if_pos rfl)
  · exact (blurCommands_map1 mWidth mHeight input hin1 blurCount _).trans (if_pos rfl)
  · intro resource hr h0 h1
    exact blurCommands_other mWidth mHeight input resource hr h0 h1 blurCount
  · exact blurCommands_dispatch0 mWidth mHeight input hin0 blurCount none
  · exact blurCommands_dispatch1 mWidth mHeight input hin1 blurCount none

theorem execute_barriers_chain_witness :
    ∃ cmds : List (Command ℚ),
      Execute demoExp 5 1280 720 (.swapChainBuffer 0) 2 = .ok cmds ∧
      statesAtDispatch .mBlurMap0 D3D12_RESOURCE_STATE_COMMON none cmds
        = some [(some BlurBinding.horzBlurPSO, D3D12_RESOURCE_STATE_GENERIC_READ),
             (some BlurBinding.vertBlurPSO, D3D12_RESOURCE_STATE_UNORDERED_ACCESS),
             (some BlurBinding.horzBlurPSO, D3D12_RESOURCE_STATE_GENERIC_READ),
             (some BlurBinding.vertBlurPSO, D3D12_RESOURCE_STATE_UNORDERED_ACCESS)] := by
  obtain ⟨cmds, h1, -, -, -, -, h6, -⟩ := execute_barriers_chain demoExp 5
    (le_refl _) (by decide) 1280 720 (.swapChainBuffer 0) (by decide) (by decide) 2
  exact ⟨cmds, h1, h6⟩

end BlurFilter

namespace Instancing

theorem gridInstance_world (numMaterials k i j : Nat) :
    (gridInstance numMaterials k i j).World
      = XMMatrixTranslation (-100 + 50 * (j : Int)) (-100 + 50 * (i : Int))
          (-100 + 50 * (k : Int)) := by
  simp only [gridInstance, XMMatrixTranslation, XMFLOAT4X4.mk.injEq, true_and]
  refine ⟨?_, ?_, ?_⟩ <;> norm_num <;> ring

/-- C26 (grid generation). `BuildRenderItems` creates one render item with
`5 * 5 * 5 = 125` instances. The loops assign the elements
`k * n * n + i * n + j` for `k`, `i`, `j` below 5, which are the indices
`0, 1, ..., 124`, each once; the index map is injective on the triples below
5 and reaches every index below 125; and the instance stored at the index of
`(k, i, j)` has as `World` the translation by
`(-100 + 50 * j, -100 + 50 * i, -100 + 50 * k)`. -/
theorem grid_index_bijection {Sphere : Type} (Bounds : Sphere)
    (IndexCount StartIndexLocation : Nat) (BaseVertexLocation : Int) (numMaterials : Nat) :
    (BuildRenderItems Bounds IndexCount StartIndexLocation BaseVertexLocation numMaterials).map
        (fun ritem => ritem.Instances) = [gridInstances numMaterials] ∧
    (gridInstances numMaterials).length = 125 ∧
    gridAssignments = List.range 125 ∧
    (∀ k i j, k < 5 → i < 5 → j < 5 →
      k * 5 * 5 + i * 5 + j < 125 ∧
      (gridInstances numMaterials)[k * 5 * 5 + i * 5 + j]?
        = some (gridInstance numMaterials k i j) ∧
      (gridInstance numMaterials k i j).World
        = XMMatrixTranslation (-100 + 50 * (j : Int)) (-100 + 50 * (i : Int))
            (-100 + 50 * (k : Int))) ∧
    (∀ k i j k2 i2 j2, k < 5 → i < 5 → j < 5 → k2 < 5 → i2 < 5 → j2 < 5 →
      k * 5 * 5 + i * 5 + j = k2 * 5 * 5 + i2 * 5 + j2 → k = k2 ∧ i = i2 ∧ j = j2) ∧
    (∀ index, index < 125 →
      ∃ k i j, k < 5 ∧ i < 5 ∧ j < 5 ∧ index = k * 5 * 5 + i * 5 + j) := by
  refine ⟨?_, gridInstances_length numMaterials, ?_, ?_, ?_, ?_⟩
  · simp only [BuildRenderItems, List.map_cons, List.map_nil]
  · decide
  · intro k i j hk hi hj
    have hlt : k * 5 * 5 + i * 5 + j < 125 := by omega
    refine ⟨hlt, ?_, gridInstance_world numMaterials k i j⟩
    rw [gridInstances_eq, List.getElem?_map, List.getElem?_range hlt]
    have e1 : (k * 5 * 5 + i * 5 + j) / 25 = k := by omega
    have e2 : (k * 5 * 5 + i * 5 + j) / 5 % 5 = i := by omega
    have e3 : (k * 5 * 5 + i * 5 + j) % 5 = j := by omega
    simp only [Option.map_some', e1, e2, e3]
  · intro k i j k2 i2 j2 hk hi hj hk2 hi2 hj2 h
    omega
  · intro index h
    exact ⟨index / 25, index / 5 % 5, index % 5, by omega, by omega, by omega, by omega⟩

theorem grid_index_bijection_witness :
    (2 : Nat) * 5 * 5 + 3 * 5 + 4 < 125 ∧
    (gridInstances 7)[(2 : Nat) * 5 * 5 + 3 * 5 + 4]? = some (gridInstance 7 2 3 4) ∧
    (gridInstance 7 2 3 4).World
      = XMMatrixTranslation (-100 + 50 * ((4 : Nat) : Int)) (-100 + 50 * ((3 : Nat) : Int))
          (-100 + 50 * ((2 : Nat) : Int)) :=
  (grid_index_bijection () 0 0 0 7).2.2.2.1 2 3 4 (by decide) (by decide) (by decide)

end Instancing

/-! ## The fences of the slots -/

theorem fenceAt_set_buffers {B : Type} (l : List (FrameResource B)) (j : Nat)
    (fr : FrameResource B) (b : B) (hj : l[j]? = some fr) (i : Nat) :
    ((l.set j { fr with buffers := b })[i]?).map FrameResource.Fence
      = (l[i]?).map FrameResource.Fence := by
  by_cases h : j = i
  · subst h
    have hlt : j < l.length := (List.getElem?_eq_some_iff.1 hj).1
    rw [List.getElem?_set_self hlt, hj]
    rfl
  · rw [List.getElem?_set_ne h]

theorem fenceAt_set_fence {B : Type} (l : List (FrameResource B)) (j : Nat)
    (fr : FrameResource B) (f : Nat) (hj : l[j]? = some fr) (i : Nat) :
    ((l.set j { fr with Fence := f })[i]?).map FrameResource.Fence
      = if i = j then some f else (l[i]?).map FrameResource.Fence := by
  by_cases h : j = i
  · subst h
    have hlt : j < l.length := (List.getElem?_eq_some_iff.1 hj).1
    rw [List.getElem?_set_self hlt, if_pos rfl]
    rfl
  · rw [List.getElem?_set_ne h, if_neg (fun e => h e.symm)]

theorem slotInv_init {B S : Type} (b : B) (sc : S) : SlotInv [] (init b sc) where
  le := by
    intro j f h
    simp only [fenceAt, Luna.init, Option.map_eq_some'] at h
    obtain ⟨fr, h1, h2⟩ := h
    have := List.getElem?_mem h1
    rw [List.mem_replicate] at this
    rw [← h2, this.2]
    exact Nat.zero_le _
  nonzero := by
    intro j hj
    cases hj
  distinct := by
    intro i j f _ h _
    simp only [fenceAt, Luna.init, Option.map_eq_some'] at h
    obtain ⟨fr, h1, h2⟩ := h
    have := List.getElem?_mem h1
    rw [List.mem_replicate] at this
    rw [← h2, this.2]

theorem drawnSlots_cons {I B S : Type} {upd : I → S → B → Option (S × B)} {e : Event I}
    {es : List (Event I)} {a a1 : D3DApp B S} (hs : step upd e a = some a1) :
    drawnSlots upd (e :: es) a = submittedSlot e a ++ drawnSlots upd es a1 := by
  rw [drawnSlots, hs]

theorem submittedSlot_of_not_draw {I B S : Type} (e : Event I) (a : D3DApp B S)
    (h : e ≠ .draw) : submittedSlot e a = [] := by
  cases e <;> cases hc : a.mCurrFrameResource <;> simp [submittedSlot, hc] at h ⊢

theorem slotInv_step {I B S : Type} {upd : I → S → B → Option (S × B)} {e : Event I}
    {drawn : List Nat} {a a1 : D3DApp B S} (h : SlotInv drawn a)
    (hw : e.ticks = true → a.mCurrentFence + 1 < UINT64_SIZE)
    (hs : step upd e a = some a1) :
    SlotInv (drawn ++ submittedSlot e a) a1 := by
  cases e with
  | update input =>
    obtain ⟨idx, j, fr, c, q, sc, b, hacq, -, rfl⟩ := Update_spec hs
    obtain ⟨-, -, hj, -, -, -⟩ := acquire_spec hacq
    have hsame : ∀ i, fenceAt ({ a with
        mCurrFrameResourceIndex := idx
        mCurrFrameResource := some j
        mFence := c
        mCommandQueue := q
        scene := sc
        mFrameResources := a.mFrameResources.set j { fr with buffers := b } } : D3DApp B S) i
        = fenceAt a i := fun i => fenceAt_set_buffers a.mFrameResources j fr b hj i
    have hd : drawn ++ submittedSlot (Event.update input : Event I) a = drawn := by
      rw [submittedSlot_of_not_draw _ _ (by simp), List.append_nil]
    rw [hd]
    refine ⟨?_, ?_, ?_⟩
    · intro i f hi
      rw [hsame] at hi
      exact h.le i f hi
    · intro i hi
      rw [hsame]
      exact h.nonzero i hi
    · intro i k f hne h1 h2
      rw [hsame] at h1 h2
      exact h.distinct i k f hne h1 h2
  | draw =>
    obtain ⟨j, fr, hsel, hj, rfl⟩ := Draw_spec hs
    have hw1 := hw rfl
    rw [mod_of_nowrap hw1]
    have hat : ∀ i, fenceAt ({ a with
        mCurrentFence := a.mCurrentFence + 1
        mFrameResources := a.mFrameResources.set j { fr with Fence := a.mCurrentFence + 1 }
        mCommandQueue := a.mCommandQueue ++ [a.mCurrentFence + 1]
        signalled := a.signalled ++ [a.mCurrentFence + 1]
        submitted := a.submitted ++ [a.mCurrentFence + 1] } : D3DApp B S) i
        = if i = j then some (a.mCurrentFence + 1) else fenceAt a i :=
      fun i => fenceAt_set_fence a.mFrameResources j fr _ hj i
    have hd : submittedSlot (Event.draw : Event I) a = [j] := by
      simp [submittedSlot, hsel]
    rw [hd]
    refine ⟨?_, ?_, ?_⟩
    · intro i f hi
      rw [hat] at hi
      show f ≤ a.mCurrentFence + 1
      by_cases hij : i = j
      · rw [if_pos hij, Option.some.injEq] at hi
        omega
      · rw [if_neg hij] at hi
        exact Nat.le_succ_of_le (h.le i f hi)
    · intro i hi
      rw [hat]
      by_cases hij : i = j
      · rw [if_pos hij]
        exact ⟨_, rfl, Nat.succ_ne_zero _⟩
      · rw [if_neg hij]
        rcases List.mem_append.1 hi with hi | hi
        · exact h.nonzero i hi
        · simp only [List.mem_singleton] at hi
          exact absurd hi hij
    · intro i k f hne h1 h2
      rw [hat] at h1 h2
      by_cases hij : i = j
      · have hkj : k ≠ j := fun e => hne (hij.trans e.symm)
        rw [if_pos hij, Option.some.injEq] at h1
        rw [if_neg hkj] at h2
        have := h.le k f h2
        omega
      · rw [if_neg hij] at h1
        by_cases hkj : k = j
        · rw [if_pos hkj, Option.some.injEq] at h2
          have := h.le i f h1
          omega
        · rw [if_neg hkj] at h2
          exact h.distinct i k f hne h1 h2
  | flush =>
    obtain ⟨c, q, -, -, rfl⟩ := FlushCommandQueue_spec hs
    have hd : drawn ++ submittedSlot (Event.flush : Event I) a = drawn := by
      rw [submittedSlot_of_not_draw _ _ (by simp), List.append_nil]
    rw [hd, mod_of_nowrap (hw rfl)]
    exact ⟨fun i f hi => Nat.le_succ_of_le (h.le i f hi), h.nonzero, h.distinct⟩
  | gpu =>
    obtain ⟨c, q, -, heq⟩ := gpuStep_spec a
    simp only [step, Option.some.injEq] at hs
    have hd : drawn ++ submittedSlot (Event.gpu : Event I) a = drawn := by
      rw [submittedSlot_of_not_draw _ _ (by simp), List.append_nil]
    rw [hd, ← hs, heq]
    exact ⟨h.le, h.nonzero, h.distinct⟩

theorem slotInv_run {I B S : Type} {upd : I → S → B → Option (S × B)} {es : List (Event I)}
    {drawn : List Nat} {a a2 : D3DApp B S} (h : SlotInv drawn a)
    (hw : a.mCurrentFence + es.countP Event.ticks < UINT64_SIZE)
    (hr : run upd es a = some a2) : SlotInv (drawn ++ drawnSlots upd es a) a2 := by
  induction es generalizing a drawn with
  | nil =>
    simp only [Luna.run, Option.some.injEq] at hr
    subst hr
    simpa [drawnSlots] using h
  | cons e es ih =>
    obtain ⟨a1, hs, hr1⟩ := run_cons hr
    have hf := step_fence hs
    rw [List.countP_cons] at hw
    rw [drawnSlots_cons hs, ← List.append_assoc]
    by_cases ht : e.ticks = true
    · simp only [ht, if_true] at hw hf
      have hw1 : a.mCurrentFence + 1 < UINT64_SIZE := by omega
      rw [mod_of_nowrap hw1] at hf
      exact ih (slotInv_step h (fun _ => hw1) hs) (by rw [hf]; omega) hr1
    · simp only [ht] at hw hf
      exact ih (slotInv_step h (fun hh => absurd hh ht) hs) (by rw [hf]; simpa using hw) hr1

/-- C27 (the fences of the slots). In every state the frame loop reaches from
the start by any interleaving of `Update`, `Draw`, `FlushCommandQueue` and
GPU progress, while the 64-bit fence clock has not wrapped: the `Fence` of
every slot is at most `mCurrentFence`; a slot that a `Draw` has submitted
has a nonzero `Fence`, so the test of `Update` treats it as submitted (it
waits exactly when the completed value is below the `Fence`); and two
different slots never hold the same nonzero `Fence`. -/
theorem slot_fences_bounded_distinct {I B S : Type} (upd : I → S → B → Option (S × B))
    (b : B) (sc : S) (es : List (Event I)) (a : D3DApp B S)
    (hr : run upd es (init b sc) = some a) (hw : es.countP Event.ticks < UINT64_SIZE) :
    (∀ fr ∈ a.mFrameResources, fr.Fence ≤ a.mCurrentFence) ∧
    (∀ j ∈ drawnSlots upd es (init b sc), ∃ fr, a.mFrameResources[j]? = some fr ∧
      fr.Fence ≠ 0 ∧ ∀ completed, mustWait fr.Fence completed = decide (completed < fr.Fence)) ∧
    (∀ (i j : Nat) (fi fj : FrameResource B), i ≠ j → a.mFrameResources[i]? = some fi →
      a.mFrameResources[j]? = some fj → fi.Fence ≠ 0 → fi.Fence ≠ fj.Fence) := by
  have h := slotInv_run (slotInv_init b sc) (by simpa [Luna.init] using hw) hr
  rw [List.nil_append] at h
  refine ⟨?_, ?_, ?_⟩
  · intro fr hfr
    obtain ⟨j, hj⟩ := List.mem_iff_getElem?.1 hfr
    exact h.le j fr.Fence (by rw [fenceAt, hj]; rfl)
  · intro j hj
    obtain ⟨f, h1, h2⟩ := h.nonzero j hj
    simp only [fenceAt, Option.map_eq_some'] at h1
    obtain ⟨fr, h3, h4⟩ := h1
    refine ⟨fr, h3, by rw [h4]; exact h2, ?_⟩
    intro completed
    have : fr.Fence ≠ 0 := by rw [h4]; exact h2
    simp [mustWait, this]
  · intro i j fi fj hne hi hj h0 heq
    exact h0 (h.distinct i j fi.Fence hne (by rw [fenceAt, hi]; rfl)
      (by rw [fenceAt, hj, heq]; rfl))

theorem slot_fences_bounded_distinct_witness :
    run noWrites threeFrames (init () ()) = some afterThreeFrames ∧
    drawnSlots noWrites threeFrames (init () ()) = [1, 2, 0] ∧
    (∀ fr ∈ afterThreeFrames.mFrameResources, fr.Fence ≤ afterThreeFrames.mCurrentFence) ∧
    (∀ (i j : Nat) (fi fj : FrameResource Unit), i ≠ j →
      afterThreeFrames.mFrameResources[i]? = some fi →
      afterThreeFrames.mFrameResources[j]? = some fj → fi.Fence ≠ 0 → fi.Fence ≠ fj.Fence) :=
  ⟨by decide, by decide,
    (slot_fences_bounded_distinct noWrites () () threeFrames afterThreeFrames (by decide)
      (by decide)).1,
    (slot_fences_bounded_distinct noWrites () () threeFrames afterThreeFrames (by decide)
      (by decide)).2.2⟩

/-! ## The timer, the random numbers, the cube render target, the camera -/

namespace GameTimer

theorem calls_secondsPerCount {F : Type} [LinearOrderedField F] (cs : List TimerCall)
    (t : GameTimer F) : (calls t cs).mSecondsPerCount = t.mSecondsPerCount := by
  induction cs generalizing t with
  | nil => rfl
  | cons c cs ih =>
    have h1 : (call t c).mSecondsPerCount = t.mSecondsPerCount := by
      cases c <;> simp only [call, Reset, Start, Stop, Tick] <;> split <;> rfl
    show (calls (call t c) cs).mSecondsPerCount = _
    rw [ih, h1]

/-- C24 (the frame delta). For a timer built on a counter of positive
frequency and any calls made on it since, the call of `Tick` that reads
`currTime` leaves a `DeltaTime` that is not negative. On a stopped timer it
is 0 and the readings kept are not touched; on a running timer `mCurrTime`
and `mPrevTime` become `currTime`, and `DeltaTime` is 0 when the counter
went backwards (`currTime` below the old `mPrevTime`) and
`(currTime - mPrevTime) * mSecondsPerCount`, with the old `mPrevTime`,
otherwise. -/
theorem tick_delta_nonneg {F : Type} [LinearOrderedField F] (countsPerSec : Int)
    (hf : 0 < countsPerSec) (cs : List TimerCall) (currTime : Int) :
    0 ≤ DeltaTime (Tick currTime (calls (construct countsPerSec : GameTimer F) cs)) ∧
    ((calls (construct countsPerSec : GameTimer F) cs).mStopped = true →
      DeltaTime (Tick currTime (calls (construct countsPerSec : GameTimer F) cs)) = 0 ∧
      (Tick currTime (calls (construct countsPerSec : GameTimer F) cs)).mPrevTime
        = (calls (construct countsPerSec : GameTimer F) cs).mPrevTime ∧
      (Tick currTime (calls (construct countsPerSec : GameTimer F) cs)).mCurrTime
        = (calls (construct countsPerSec : GameTimer F) cs).mCurrTime) ∧
    ((calls (construct countsPerSec : GameTimer F) cs).mStopped = false →
      (Tick currTime (calls (construct countsPerSec : GameTimer F) cs)).mCurrTime = currTime ∧
      (Tick currTime (calls (construct countsPerSec : GameTimer F) cs)).mPrevTime = currTime ∧
      (currTime < (calls (construct countsPerSec : GameTimer F) cs).mPrevTime →
        DeltaTime (Tick currTime (calls (construct countsPerSec : GameTimer F) cs)) = 0) ∧
      ((calls (construct countsPerSec : GameTimer F) cs).mPrevTime ≤ currTime →
        DeltaTime (Tick currTime (calls (construct countsPerSec : GameTimer F) cs))
          = ((currTime - (calls (construct countsPerSec : GameTimer F) cs).mPrevTime : Int) : F)
            * (calls (construct countsPerSec : GameTimer F) cs).mSecondsPerCount)) := by
  have hspc : 0 < (calls (construct countsPerSec : GameTimer F) cs).mSecondsPerCount := by
    rw [calls_secondsPerCount]
    show (0 : F) < 1 / (countsPerSec : F)
    exact one_div_pos.2 (by exact_mod_cast hf)
  generalize calls (construct countsPerSec : GameTimer F) cs = t at hspc ⊢
  cases hst : t.mStopped
  · simp only [Tick, DeltaTime, hst, Bool.false_eq_true, if_false, false_implies, true_and,
      true_implies]
    refine ⟨?_, ?_, ?_⟩
    · split
      · exact le_refl _
      · rename_i h
        exact not_lt.1 h
    · intro hlt
      have : ((currTime - t.mPrevTime : Int) : F) < 0 := by
        exact_mod_cast (by omega : currTime - t.mPrevTime < 0)
      rw [if_pos (mul_neg_of_neg_of_pos this hspc)]
    · intro hle
      have : (0 : F) ≤ ((currTime - t.mPrevTime : Int) : F) := by
        exact_mod_cast (by omega : 0 ≤ currTime - t.mPrevTime)
      rw [if_neg (not_lt.2 (mul_nonneg this (le_of_lt hspc)))]
  · simp [Tick, DeltaTime, hst]

theorem tick_delta_nonneg_witness :
    DeltaTime (Tick 25 (calls (construct 10000000 : GameTimer ℚ) [.Reset 10, .Tick 30])) = 0 :=
  ((tick_delta_nonneg (F := ℚ) 10000000 (by decide) [.Reset 10, .Tick 30] 25).2.2
    (by rfl)).2.2.1 (by decide)

theorem timerRel_call {F : Type} [LinearOrderedField F] {t : GameTimer F} {w : Stopwatch}
    {carried : Int} (h : TimerRel t w carried) (k : TimerCall) :
    TimerRel (call t k) (w.call k) (pausedBeforeReset t [k] carried) := by
  obtain ⟨h1, h2, h3, h4⟩ := h
  cases k with
  | Reset currTime =>
    refine ⟨rfl, h2, ?_, ?_⟩
    · show t.mPausedTime = 0 + t.mPausedTime
      omega
    · intro resetTime hr
      exact (Option.some.inj hr)
  | Start startTime =>
    cases hs : t.mStopped
    · rw [hs] at h1
      have e1 : call t (.Start startTime) = t := by simp [call, Start, hs]
      have e2 : w.call (.Start startTime) = w := by simp [Stopwatch.call, h1]
      rw [e1, e2]
      exact ⟨by rw [hs]; exact h1, h2, h3, h4⟩
    · rw [hs] at h1
      have e1 : call t (.Start startTime) = { t with
          mPausedTime := t.mPausedTime + (startTime - t.mStopTime)
          mPrevTime := startTime
          mStopTime := 0
          mStopped := false } := by simp [call, Start, hs]
      have e2 : w.call (.Start startTime) = { w with
          stoppedAt := none
          stoppedCounts := w.stoppedCounts + (startTime - t.mStopTime) } := by
        simp [Stopwatch.call, h1]
      rw [e1, e2]
      refine ⟨rfl, h2, ?_, h4⟩
      show t.mPausedTime + (startTime - t.mStopTime)
        = w.stoppedCounts + (startTime - t.mStopTime) + carried
      omega
  | Stop currTime =>
    cases hs : t.mStopped
    · rw [hs] at h1
      have e1 : call t (.Stop currTime) = { t with mStopTime := currTime, mStopped := true } := by
        simp [call, Stop, hs]
      have e2 : w.call (.Stop currTime) = { w with stoppedAt := some currTime } := by
        simp [Stopwatch.call, h1]
      rw [e1, e2]
      exact ⟨rfl, h2, h3, h4⟩
    · rw [hs] at h1
      have e1 : call t (.Stop currTime) = t := by simp [call, Stop, hs]
      have e2 : w.call (.Stop currTime) = w := by simp [Stopwatch.call, h1]
      rw [e1, e2]
      exact ⟨by rw [hs]; exact h1, h2, h3, h4⟩
  | Tick currTime =>
    cases hs : t.mStopped
    · rw [hs] at h1
      have e2 : w.call (.Tick currTime) = { w with latestTick := currTime } := by
        simp [Stopwatch.call, h1]
      rw [e2]
      refine ⟨?_, ?_, ?_, ?_⟩
      · simp [call, Tick, hs, h1]
      · simp [call, Tick, hs]
      · simpa [call, Tick, hs, pausedBeforeReset] using h3
      · simpa [call, Tick, hs] using h4
    · rw [hs] at h1
      have e2 : w.call (.Tick currTime) = w := by simp [Stopwatch.call, h1]
      rw [e2]
      refine ⟨?_, ?_, ?_, ?_⟩
      · simp [call, Tick, hs, h1]
      · simpa [call, Tick, hs] using h2
      · simpa [call, Tick, hs, pausedBeforeReset] using h3
      · simpa [call, Tick, hs] using h4

theorem pausedBeforeReset_cons {F : Type} [LinearOrderedField F] (t : GameTimer F)
    (k : TimerCall) (cs : List TimerCall) (carried : Int) :
    pausedBeforeReset t (k :: cs) carried
      = pausedBeforeReset (call t k) cs (pausedBeforeReset t [k] carried) := by
  cases k <;> rfl

theorem timerRel_calls {F : Type} [LinearOrderedField F] (cs : List TimerCall)
    {t : GameTimer F} {w : Stopwatch} {carried : Int} (h : TimerRel t w carried) :
    TimerRel (calls t cs) (cs.foldl Stopwatch.call w) (pausedBeforeReset t cs carried) := by
  induction cs generalizing t w carried with
  | nil => exact h
  | cons k cs ih =>
    rw [pausedBeforeReset_cons]
    exact ih (timerRel_call h k)

theorem pausedBeforeReset_of_first {F : Type} [LinearOrderedField F] (cs : List TimerCall)
    (hcs : ∀ k ∈ cs, ∀ currTime, k ≠ .Reset currTime) (t : GameTimer F) (carried : Int) :
    pausedBeforeReset t cs carried = carried := by
  induction cs generalizing t with
  | nil => rfl
  | cons k cs ih =>
    have hk := hcs k (List.mem_cons_self _ _)
    have hrest : ∀ k2 ∈ cs, ∀ currTime, k2 ≠ .Reset currTime :=
      fun k2 h2 => hcs k2 (List.mem_cons_of_mem _ h2)
    cases k with
    | Reset currTime => exact absurd rfl (hk currTime)
    | Start startTime => exact ih hrest _
    | Stop currTime => exact ih hrest _
    | Tick currTime => exact ih hrest _

/-- C22, on the code. For a new timer and any calls with a `Reset` among
them, `TotalTime` is the value the description gives (`elapsed` counts since
the most recent `Reset`, less the counts stopped since then) less the counts
spent stopped before that `Reset`, which `Reset` leaves in `mPausedTime`:
the two agree when `Reset` is the first call and the only one, and differ as
soon as a stop precedes the `Reset`. For a new timer stopped at 10,
restarted at 20, reset at 30 and ticked at 40, 10 counts have elapsed since
the `Reset`, none of them stopped, and `TotalTime` is 0. -/
theorem total_time_keeps_earlier_pause {F : Type} [LinearOrderedField F] (countsPerSec : Int)
    (cs : List TimerCall) (elapsed : Int) (h : elapsedSinceReset cs = some elapsed) :
    TotalTime (calls (construct countsPerSec : GameTimer F) cs)
      = ((elapsed - pausedBeforeReset (construct countsPerSec : GameTimer F) cs 0 : Int) : F)
        * (1 / (countsPerSec : F)) ∧
    (∀ (currTime : Int) (rest : List TimerCall),
      cs = .Reset currTime :: rest → (∀ k ∈ rest, ∀ later, k ≠ .Reset later) →
      TotalTime (calls (construct countsPerSec : GameTimer F) cs)
        = (elapsed : F) * (1 / (countsPerSec : F))) ∧
    (calls demoTimer pauseBeforeReset).mPausedTime = 10 ∧
    pausedBeforeReset demoTimer pauseBeforeReset 0 = 10 ∧
    elapsedSinceReset pauseBeforeReset = some 10 ∧
    TotalTime (calls demoTimer pauseBeforeReset) = 0 ∧
    TotalTime (calls demoTimer pauseBeforeReset)
      ≠ ((10 : Int) : ℚ) * demoTimer.mSecondsPerCount := by
  have h0 : TimerRel (construct countsPerSec : GameTimer F)
      { resetTime := none, stoppedAt := none, stoppedCounts := 0, latestTick := 0 } 0 :=
    ⟨rfl, rfl, rfl, fun _ hr => Option.noConfusion hr⟩
  have hrel := timerRel_calls cs h0
  have hspc : (calls (construct countsPerSec : GameTimer F) cs).mSecondsPerCount
      = 1 / (countsPerSec : F) := calls_secondsPerCount cs _
  have hmain : TotalTime (calls (construct countsPerSec : GameTimer F) cs)
      = ((elapsed - pausedBeforeReset (construct countsPerSec : GameTimer F) cs 0 : Int) : F)
        * (1 / (countsPerSec : F)) := by
    obtain ⟨h1, h2, h3, h4⟩ := hrel
    generalize calls (construct countsPerSec : GameTimer F) cs = t at h1 h2 h3 h4 hspc ⊢
    generalize pausedBeforeReset (construct countsPerSec : GameTimer F) cs 0 = carried at h3 ⊢
    unfold elapsedSinceReset at h
    generalize cs.foldl Stopwatch.call
      { resetTime := none, stoppedAt := none, stoppedCounts := 0, latestTick := 0 } = w
      at h h1 h2 h3 h4
    cases hr : w.resetTime with
    | none => simp [hr] at h
    | some resetTime =>
      have hb := h4 resetTime hr
      simp only [hr, Option.some.injEq] at h
      cases hs : t.mStopped
      · rw [hs] at h1
        simp only [h1, h2, Bool.false_eq_true, if_false] at h
        simp only [TotalTime, hs, Bool.false_eq_true, if_false, hspc]
        congr 2
        omega
      · rw [hs] at h1
        simp only [h1, if_true] at h
        simp only [TotalTime, hs, if_true, hspc]
        congr 2
        omega
  refine ⟨hmain, ?_, ?_, ?_, ?_, ?_, ?_⟩
  · intro currTime rest hcs hrest
    rw [hmain]
    have : pausedBeforeReset (construct countsPerSec : GameTimer F) cs 0 = 0 := by
      rw [hcs]
      show pausedBeforeReset (Reset currTime (construct countsPerSec : GameTimer F)) rest
        (construct countsPerSec : GameTimer F).mPausedTime = 0
      rw [pausedBeforeReset_of_first rest hrest]
      rfl
    rw [this, sub_zero]
  · rfl
  · rfl
  · decide
  · simp [calls, pauseBeforeReset, call, demoTimer, construct, Reset, Start, Stop, Tick,
      TotalTime]
  · simp [calls, pauseBeforeReset, call, demoTimer, construct, Reset, Start, Stop, Tick,
      TotalTime]

theorem total_time_keeps_earlier_pause_witness :
    elapsedSinceReset pauseBeforeReset = some 10 ∧
    TotalTime (calls (construct 10000000 : GameTimer ℚ) pauseBeforeReset)
      = ((10 - pausedBeforeReset (construct 10000000 : GameTimer ℚ) pauseBeforeReset 0 : Int) : ℚ)
        * (1 / ((10000000 : Int) : ℚ)) :=
  ⟨by decide, (total_time_keeps_earlier_pause (F := ℚ) 10000000 pauseBeforeReset 10
    (by decide)).1⟩

end GameTimer

namespace MathHelper

/-- C23, on the code. `rand()` can return `RAND_MAX`, and then `RandF()` is
exactly 1 and `RandF(a, b)` is exactly `b`, outside the half-open
intervals; for every smaller value of `rand()` the results are inside them. -/
theorem randF_reaches_one {F : Type} [LinearOrderedField F] (RAND_MAX : Nat)
    (hmax : 0 < RAND_MAX) (a b : F) (hab : a < b) :
    (RandF RAND_MAX RAND_MAX : F) = 1 ∧
    RandFBetween RAND_MAX RAND_MAX a b = b ∧
    ¬ (RandF RAND_MAX RAND_MAX : F) < 1 ∧
    ¬ RandFBetween RAND_MAX RAND_MAX a b < b ∧
    ∀ rand, rand < RAND_MAX →
      0 ≤ (RandF RAND_MAX rand : F) ∧ (RandF RAND_MAX rand : F) < 1 ∧
      a ≤ RandFBetween RAND_MAX rand a b ∧ RandFBetween RAND_MAX rand a b < b := by
  have hpos : (0 : F) < (RAND_MAX : F) := by exact_mod_cast hmax
  have h1 : (RandF RAND_MAX RAND_MAX : F) = 1 := div_self (ne_of_gt hpos)
  have h2 : RandFBetween RAND_MAX RAND_MAX a b = b := by
    rw [RandFBetween, h1]
    ring
  refine ⟨h1, h2, by rw [h1]; exact lt_irrefl _, by rw [h2]; exact lt_irrefl _, ?_⟩
  intro rand hr
  have h0 : (0 : F) ≤ (RandF RAND_MAX rand : F) :=
    div_nonneg (Nat.cast_nonneg _) (le_of_lt hpos)
  have hlt : (RandF RAND_MAX rand : F) < 1 := by
    rw [RandF, div_lt_one hpos]
    exact_mod_cast hr
  have hba : 0 < b - a := sub_pos.2 hab
  refine ⟨h0, hlt, ?_, ?_⟩
  · rw [RandFBetween]
    have := mul_nonneg h0 (le_of_lt hba)
    linarith
  · rw [RandFBetween]
    have := mul_lt_mul_of_pos_right hlt hba
    linarith

theorem randF_reaches_one_witness :
    (RandF 32767 32767 : ℚ) = 1 ∧ RandFBetween 32767 32767 (1 : ℚ) 10 = 10 :=
  ⟨(randF_reaches_one 32767 (by decide) (1 : ℚ) 10 (by norm_num)).1,
    (randF_reaches_one 32767 (by decide) (1 : ℚ) 10 (by norm_num)).2.1⟩

end MathHelper

namespace CubeRenderTarget

/-- C30, on the code. The constructor sets the viewport and the scissor
rectangle from its arguments; `OnResize` leaves the target with the new
width and height and never writes the viewport or the scissor rectangle: it
returns a target with those it was given, whatever the new size. A target built 512 by 512 and resized to 1024 by 1024 has
`mWidth = mHeight = 1024` and a texture of that size, and still the viewport
and the scissor rectangle of 512 by 512. -/
theorem resize_leaves_viewport_stale :
    (∀ (F : Type) (newWidth newHeight : Nat) (t : CubeRenderTarget F),
      (OnResize newWidth newHeight t).mWidth = newWidth ∧
      (OnResize newWidth newHeight t).mHeight = newHeight ∧
      Viewport (OnResize newWidth newHeight t) = Viewport t ∧
      ScissorRect (OnResize newWidth newHeight t) = ScissorRect t) ∧
    (∀ width height : Nat,
      Viewport (construct width height : CubeRenderTarget Int)
        = { TopLeftX := 0, TopLeftY := 0, Width := (width : Int), Height := (height : Int),
            MinDepth := 0, MaxDepth := 1 } ∧
      ScissorRect (construct width height : CubeRenderTarget Int)
        = { left := 0, top := 0, right := uintToInt width, bottom := uintToInt height }) ∧
    Viewport (construct 512 512 : CubeRenderTarget Int)
      = { TopLeftX := 0, TopLeftY := 0, Width := 512, Height := 512, MinDepth := 0,
          MaxDepth := 1 } ∧
    ScissorRect (construct 512 512 : CubeRenderTarget Int)
      = { left := 0, top := 0, right := 512, bottom := 512 } ∧
    (OnResize 1024 1024 (construct 512 512 : CubeRenderTarget Int)).mWidth = 1024 ∧
    (OnResize 1024 1024 (construct 512 512 : CubeRenderTarget Int)).mHeight = 1024 ∧
    (OnResize 1024 1024 (construct 512 512 : CubeRenderTarget Int)).mCubeMap = (1024, 1024) ∧
    Viewport (OnResize 1024 1024 (construct 512 512 : CubeRenderTarget Int))
      = { TopLeftX := 0, TopLeftY := 0, Width := 512, Height := 512, MinDepth := 0,
          MaxDepth := 1 } ∧
    ScissorRect (OnResize 1024 1024 (construct 512 512 : CubeRenderTarget Int))
      = { left := 0, top := 0, right := 512, bottom := 512 } ∧
    (Viewport (OnResize 1024 1024 (construct 512 512 : CubeRenderTarget Int))).Width ≠ 1024 := by
  refine ⟨?_, fun _ _ => ⟨rfl, rfl⟩, by decide, by decide, by decide, by decide, by decide,
    by decide, by decide, by decide⟩
  intro F newWidth newHeight t
  unfold OnResize
  split
  · exact ⟨rfl, rfl, rfl, rfl⟩
  · rename_i h
    have h1 : t.mWidth = newWidth := by
      by_contra hne
      exact h (Or.inl hne)
    have h2 : t.mHeight = newHeight := by
      by_contra hne
      exact h (Or.inr hne)
    exact ⟨h1, h2, rfl, rfl⟩

end CubeRenderTarget

namespace Camera

theorem call_dirty {F : Type} [Field F] (dx : CameraMath F) (c : Camera F) (k : CameraCall F)
    (hk : k.isUpdate = false) (hc : c.mViewDirty = true) : (call dx c k).mViewDirty = true := by
  cases k with
  | SetLens fovY aspect zn zf => exact hc
  | UpdateViewMatrix => simp [CameraCall.isUpdate] at hk
  | _ => rfl

theorem calls_dirty {F : Type} [Field F] (dx : CameraMath F) (cs : List (CameraCall F))
    (c : Camera F) (hcs : ∀ k ∈ cs, k.isUpdate = false) (hc : c.mViewDirty = true) :
    (calls dx c cs).mViewDirty = true := by
  induction cs generalizing c with
  | nil => exact hc
  | cons k cs ih =>
    exact ih (call dx c k) (fun k2 h2 => hcs k2 (List.mem_cons_of_mem _ h2))
      (call_dirty dx c k (hcs k (List.mem_cons_self _ _)) hc)

/-- C29 (the view matrix is readable only when clean). For every camera and
whatever library routines: each of `SetPosition` (both overloads), `LookAt`,
`Strafe`, `Walk`, `Pitch` and `RotateY` sets `mViewDirty`; after such a
call, and after any further calls other than `UpdateViewMatrix`, the flag is
set and the assertion of `GetView` and of `GetView4x4f` fails; after
`UpdateViewMatrix` the flag is clear and both return `mView`; `SetLens`
leaves the flag as it is. -/
theorem view_readable_only_when_clean {F : Type} [Field F] (dx : CameraMath F) (c : Camera F) :
    (∀ k : CameraCall F, k.moves = true → (call dx c k).mViewDirty = true) ∧
    (∀ (k : CameraCall F) (cs : List (CameraCall F)), k.moves = true →
      (∀ k2 ∈ cs, k2.isUpdate = false) →
      (calls dx c (k :: cs)).mViewDirty = true ∧
      GetView (calls dx c (k :: cs)) = .assertionFailed ∧
      GetView4x4f (calls dx c (k :: cs)) = .assertionFailed) ∧
    (UpdateViewMatrix dx c).mViewDirty = false ∧
    GetView (UpdateViewMatrix dx c) = .ok (UpdateViewMatrix dx c).mView ∧
    GetView4x4f (UpdateViewMatrix dx c) = .ok (UpdateViewMatrix dx c).mView ∧
    (∀ fovY aspect zn zf, (SetLens dx fovY aspect zn zf c).mViewDirty = c.mViewDirty) := by
  have hmove : ∀ k : CameraCall F, k.moves = true → (call dx c k).mViewDirty = true := by
    intro k hk
    cases k with
    | SetLens fovY aspect zn zf => simp [CameraCall.moves] at hk
    | UpdateViewMatrix => simp [CameraCall.moves] at hk
    | _ => rfl
  have hclean : (UpdateViewMatrix dx c).mViewDirty = false := by
    unfold UpdateViewMatrix
    cases h : c.mViewDirty
    · simpa using h
    · simp
  refine ⟨hmove, ?_, hclean, ?_, ?_, fun _ _ _ _ => rfl⟩
  · intro k cs hk hcs
    have hd : (calls dx c (k :: cs)).mViewDirty = true :=
      calls_dirty dx cs (call dx c k) hcs (hmove k hk)
    exact ⟨hd, by simp [GetView, hd], by simp [GetView4x4f, hd]⟩
  · simp [GetView, hclean]
  · simp [GetView4x4f, hclean]

theorem view_readable_only_when_clean_witness :
    GetView (calls demoCameraMath demoCamera [.Walk 1, .SetLens 1 1 1 1000]) = .assertionFailed ∧
    (UpdateViewMatrix demoCameraMath
      (calls demoCameraMath demoCamera [.Walk 1, .SetLens 1 1 1 1000])).mViewDirty = false :=
  ⟨((view_readable_only_when_clean demoCameraMath demoCamera).2.1 (.Walk 1)
      [.SetLens 1 1 1 1000] rfl (by decide)).2.1,
    (view_readable_only_when_clean demoCameraMath
      (calls demoCameraMath demoCamera [.Walk 1, .SetLens 1 1 1 1000])).2.2.1⟩

end Camera

/-! ## Render items and start-up -/

namespace LitColumnsApp

theorem BuildRenderItems_indices {F : Type} [Field F] :
    (BuildRenderItems : List (RenderItem F)).map (fun ri => ri.ObjCBIndex) = List.range 22 := by
  simp [BuildRenderItems, List.range_succ]

theorem BuildRenderItems_length {F : Type} [Field F] :
    (BuildRenderItems : List (RenderItem F)).length = 22 := by
  have := congrArg List.length (BuildRenderItems_indices (F := F))
  simpa using this

/-- C28 (the object constant-buffer slices). `BuildRenderItems` creates 22
render items whose `ObjCBIndex` values are `0, 1, ..., 21` in the order of
`mAllRitems`, hence pairwise distinct; each is below the object count, 22,
that `BuildFrameResources` passes to every frame resource; and, for a slice
size `objCBByteSize` above 0 and a buffer of 22 slices inside the 64-bit
address space, the slices `DrawRenderItems` binds do not overlap: the
address bound for an item is the buffer address plus `ObjCBIndex` slices,
and an item later in the list starts at or after the end of the slice of an
earlier one. -/
theorem objCB_slices_distinct {F : Type} [Field F] (numMaterials : Nat)
    (GetGPUVirtualAddress objCBByteSize : Nat) (hsize : 0 < objCBByteSize)
    (hfit : GetGPUVirtualAddress + 22 * objCBByteSize ≤ 2 ^ 64)
    (h32 : 22 * objCBByteSize ≤ 2 ^ 32) :
    (BuildRenderItems : List (RenderItem F)).length = 22 ∧
    (BuildRenderItems : List (RenderItem F)).map (fun ri => ri.ObjCBIndex) = List.range 22 ∧
    ((BuildRenderItems : List (RenderItem F)).map (fun ri => ri.ObjCBIndex)).Nodup ∧
    (∀ counts ∈ BuildFrameResources (BuildRenderItems : List (RenderItem F)) numMaterials,
      counts.2.1 = 22 ∧
      ∀ ri ∈ (BuildRenderItems : List (RenderItem F)), ri.ObjCBIndex < counts.2.1) ∧
    (∀ (i : Nat) (ri : RenderItem F), (BuildRenderItems : List (RenderItem F))[i]? = some ri →
      ri.ObjCBIndex = i ∧
      objCBAddress GetGPUVirtualAddress objCBByteSize ri
        = GetGPUVirtualAddress + i * objCBByteSize) ∧
    (∀ (i j : Nat) (ri rj : RenderItem F), i < j →
      (BuildRenderItems : List (RenderItem F))[i]? = some ri →
      (BuildRenderItems : List (RenderItem F))[j]? = some rj →
      objCBAddress GetGPUVirtualAddress objCBByteSize ri + objCBByteSize
        ≤ objCBAddress GetGPUVirtualAddress objCBByteSize rj) := by
  have hidx : ∀ (i : Nat) (ri : RenderItem F),
      (BuildRenderItems : List (RenderItem F))[i]? = some ri → ri.ObjCBIndex = i ∧ i < 22 := by
    intro i ri h
    have h1 : ((BuildRenderItems : List (RenderItem F)).map (fun ri => ri.ObjCBIndex))[i]?
        = some ri.ObjCBIndex := by
      rw [List.getElem?_map, h]
      rfl
    rw [BuildRenderItems_indices] at h1
    have hlt : i < 22 := by
      have := (List.getElem?_eq_some_iff.1 h1).1
      simpa using this
    rw [List.getElem?_range hlt] at h1
    exact ⟨(Option.some.inj h1).symm, hlt⟩
  have haddr : ∀ (i : Nat) (ri : RenderItem F),
      (BuildRenderItems : List (RenderItem F))[i]? = some ri →
      objCBAddress GetGPUVirtualAddress objCBByteSize ri
        = GetGPUVirtualAddress + i * objCBByteSize := by
    intro i ri h
    obtain ⟨h1, h2⟩ := hidx i ri h
    have h3 : i * objCBByteSize + objCBByteSize ≤ 22 * objCBByteSize := by
      have : (i + 1) * objCBByteSize ≤ 22 * objCBByteSize :=
        Nat.mul_le_mul_right _ (by omega)
      rw [Nat.add_mul, Nat.one_mul] at this
      exact this
    rw [objCBAddress, h1, Nat.mod_eq_of_lt (by omega), Nat.mod_eq_of_lt (by omega)]
  refine ⟨BuildRenderItems_length, BuildRenderItems_indices, ?_, ?_, ?_, ?_⟩
  · rw [BuildRenderItems_indices]
    exact List.nodup_range 22
  · intro counts hc
    have hc2 := (List.mem_replicate.1 hc).2
    rw [hc2, BuildRenderItems_length]
    refine ⟨rfl, ?_⟩
    intro ri hri
    obtain ⟨i, hi⟩ := List.mem_iff_getElem?.1 hri
    obtain ⟨h1, h2⟩ := hidx i ri hi
    show ri.ObjCBIndex < 22
    omega
  · intro i ri h
    exact ⟨(hidx i ri h).1, haddr i ri h⟩
  · intro i j ri rj hij hi hj
    rw [haddr i ri hi, haddr j rj hj]
    have : (i + 1) * objCBByteSize ≤ j * objCBByteSize := Nat.mul_le_mul_right _ hij
    rw [Nat.add_mul, Nat.one_mul] at this
    omega

theorem objCB_slices_distinct_witness :
    (BuildRenderItems : List (RenderItem ℚ)).map (fun ri => ri.ObjCBIndex) = List.range 22 ∧
    ((BuildRenderItems : List (RenderItem ℚ)).map (fun ri => ri.ObjCBIndex)).Nodup :=
  ⟨(objCB_slices_distinct (F := ℚ) 3 65536 256 (by decide) (by decide) (by decide)).2.1,
    (objCB_slices_distinct (F := ℚ) 3 65536 256 (by decide) (by decide) (by decide)).2.2.1⟩

end LitColumnsApp

namespace InstancingAndCullingApp

/-- C21, on the code. When `Models/skull.txt` cannot be opened,
`BuildSkullGeometry` shows the message box and returns with no geometry
registered; `BuildMaterials` completes; `BuildRenderItems` then looks up
`mGeometries["skullGeo"]`, which inserts a null pointer, and follows it to
read `DrawArgs`, so `BuildRenderItems`, and with it `Initialize`, ends in a
null dereference and never reaches `BuildFrameResources`. When the file
opens, `Initialize` returns `true` with one render item of 125 instances. -/
theorem missing_skull_file_dereferences_null {Sphere : Type} (defaultBounds : Sphere) :
    (BuildSkullGeometry none (start : App Sphere)).messageBoxes
      = ["Models/skull.txt not found."] ∧
    (BuildSkullGeometry none (start : App Sphere)).mGeometries = [] ∧
    (BuildMaterials (BuildSkullGeometry none (start : App Sphere))).mMaterials.length = 7 ∧
    (subscript (BuildMaterials (BuildSkullGeometry none (start : App Sphere))).mGeometries
      "skullGeo" none).1 = none ∧
    BuildRenderItems defaultBounds
      (BuildMaterials (BuildSkullGeometry none (start : App Sphere)))
        = .error .nullDereference ∧
    Initialize defaultBounds (none : Option (SubmeshGeometry2 Sphere))
      = .error .nullDereference ∧
    (∀ skull : SubmeshGeometry2 Sphere,
      Initialize defaultBounds (some skull)
        = .ok ({ mGeometries :=
                  [("skullGeo", some { Name := "skullGeo", DrawArgs := [("skull", skull)],
                                       uploaders := false })]
                 mMaterials :=
                  [("bricks0", some 0), ("stone0", some 1), ("tile0", some 2),
                   ("crate0", some 3), ("ice0", some 4), ("grass0", some 5),
                   ("skullMat", some 6)]
                 mAllRitems :=
                  Instancing.BuildRenderItems skull.Bounds skull.IndexCount
                    skull.StartIndexLocation skull.BaseVertexLocation 7
                 mInstanceCount := 125
                 mFrameResources := [(1, 125, 7), (1, 125, 7), (1, 125, 7)]
                 messageBoxes := [] }, true)) := by
  refine ⟨rfl, rfl, ?_, rfl, ?_, ?_, ?_⟩
  · simp [BuildMaterials, BuildSkullGeometry, start, assign]
  · simp [BuildSkullGeometry, BuildMaterials, BuildRenderItems, start, assign, subscript]
  · simp [Initialize, BuildSkullGeometry, BuildMaterials, BuildRenderItems, start, assign,
      subscript]
  · intro skull
    simp [Initialize, BuildSkullGeometry, BuildMaterials, BuildRenderItems,
      BuildFrameResources, disposeUploaders, start, assign, subscript, gNumFrameResources]

end InstancingAndCullingApp

/-! ## The frame loop returns -/

/-- A dirty-counter loop returns when every index it can copy to lies inside
the buffer; the buffer keeps its length and the elements keep their
indices. -/
theorem dirtyLoop_total {E T : Type} (ops : DirtyOps E T) (law : ops.Lawful)
    (es : List E) (cb : UploadBuffer T) (h : ∀ e ∈ es, ops.index e < cb.data.length) :
    ∃ cb2 es2, dirtyLoop ops cb es = some (cb2, es2) ∧ cb2.data.length = cb.data.length ∧
      es2.map ops.index = es.map ops.index := by
  induction es generalizing cb with
  | nil => exact ⟨cb, [], rfl, rfl, rfl⟩
  | cons e es ih =>
    have he := h e (List.mem_cons_self _ _)
    have hrest : ∀ x ∈ es, ops.index x < cb.data.length :=
      fun x hx => h x (List.mem_cons_of_mem _ hx)
    by_cases hd : ops.dirty e > 0
    · obtain ⟨cb2, es2, h1, h2, h3⟩ := ih
        ({ data := cb.data.set (ops.index e) (ops.consts e)
           copies := cb.copies ++ [ops.index e] } : UploadBuffer T)
        (by simpa using hrest)
      refine ⟨cb2, ops.tick e :: es2, ?_, by simpa using h2, ?_⟩
      · simp only [dirtyLoop, if_pos hd, UploadBuffer.CopyData, if_pos he, h1]
      · simp only [List.map_cons, h3, law.index_tick]
    · obtain ⟨cb2, es2, h1, h2, h3⟩ := ih cb hrest
      refine ⟨cb2, e :: es2, ?_, h2, ?_⟩
      · simp only [dirtyLoop, if_neg hd, h1]
      · simp only [List.map_cons, h3]

/-- One event of the loop of `Run` returns, when the writes of `Update`
return on buffers that satisfy `Q` and keep `Q`. -/
theorem step_total {I B S : Type} {upd : I → S → B → Option (S × B)} (Q : S → B → Prop)
    (hupd : ∀ input sc b, Q sc b →
      ∃ sc1 b1, upd input sc b = some (sc1, b1) ∧ Q sc1 b1 ∧ ∀ b2, Q sc b2 → Q sc1 b2)
    {e : Event I} {es : List (Event I)} {p : Bool} {a : D3DApp B S} (h : LoopInv p a)
    (hl : frameLoop p (e :: es) = true) (i : Nat) (hidx : a.mCurrFrameResourceIndex = (i : Int))
    (hQ : ∀ fr ∈ a.mFrameResources, Q a.scene fr.buffers) :
    ∃ a1, step upd e a = some a1 ∧ (∃ i1 : Nat, a1.mCurrFrameResourceIndex = (i1 : Int)) ∧
      ∀ fr ∈ a1.mFrameResources, Q a1.scene fr.buffers := by
  cases e with
  | update input =>
    obtain ⟨⟨idx, j, fr, c, q⟩, hacq⟩ := acquire_total h.inv i hidx
    obtain ⟨-, -, hfr, -, -, -⟩ := acquire_spec hacq
    obtain ⟨-, hij, -⟩ := acquire_ring hacq
    obtain ⟨sc1, b1, hu, hq1, hq2⟩ := hupd input a.scene fr.buffers
      (hQ fr (List.getElem?_mem hfr))
    have hs : Update upd input a = some { a with
        mCurrFrameResourceIndex := idx
        mCurrFrameResource := some j
        mFence := c
        mCommandQueue := q
        scene := sc1
        mFrameResources := a.mFrameResources.set j { fr with buffers := b1 } } := by
      simp only [Update, hacq, hu]
    refine ⟨_, hs, ⟨j, hij⟩, ?_⟩
    intro fr2 hfr2
    rcases List.mem_or_eq_of_mem_set hfr2 with hm | hm
    · exact hq2 _ (hQ fr2 hm)
    · rw [hm]
      exact hq1
  | draw =>
    simp only [frameLoop, Bool.and_eq_true] at hl
    obtain ⟨j, fr, hc1, hc2, -⟩ := h.free hl.1
    have hs : Draw a = some { a with
        mCurrentFence := (a.mCurrentFence + 1) % UINT64_SIZE
        mFrameResources :=
          a.mFrameResources.set j { fr with Fence := (a.mCurrentFence + 1) % UINT64_SIZE }
        mCommandQueue := a.mCommandQueue ++ [(a.mCurrentFence + 1) % UINT64_SIZE]
        signalled := a.signalled ++ [(a.mCurrentFence + 1) % UINT64_SIZE]
        submitted := a.submitted ++ [(a.mCurrentFence + 1) % UINT64_SIZE] } := by
      simp only [Draw, hc1, hc2]
    refine ⟨_, hs, ⟨i, hidx⟩, ?_⟩
    intro fr2 hfr2
    rcases List.mem_or_eq_of_mem_set hfr2 with hm | hm
    · exact hQ fr2 hm
    · rw [hm]
      exact hQ fr (List.getElem?_mem hc2)
  | flush =>
    obtain ⟨⟨c, q⟩, hwait⟩ : ∃ r,
        (if a.mFence < (a.mCurrentFence + 1) % UINT64_SIZE then
          waitForFence ((a.mCurrentFence + 1) % UINT64_SIZE) a.mFence
            (a.mCommandQueue ++ [(a.mCurrentFence + 1) % UINT64_SIZE])
         else some (a.mFence, a.mCommandQueue ++ [(a.mCurrentFence + 1) % UINT64_SIZE]))
          = some r := by
      split
      · exact waitForFence_total (Or.inr (by simp))
      · exact ⟨_, rfl⟩
    have hs : FlushCommandQueue a = some { a with
        mCurrentFence := (a.mCurrentFence + 1) % UINT64_SIZE
        mFence := c
        mCommandQueue := q
        signalled := a.signalled ++ [(a.mCurrentFence + 1) % UINT64_SIZE] } := by
      simp only [FlushCommandQueue, hwait]
    exact ⟨_, hs, ⟨i, hidx⟩, hQ⟩
  | gpu =>
    refine ⟨gpuStep a, rfl, ?_, ?_⟩
    · obtain ⟨c, q, -, heq⟩ := gpuStep_spec a
      rw [heq]
      exact ⟨i, hidx⟩
    · obtain ⟨c, q, -, heq⟩ := gpuStep_spec a
      rw [heq]
      exact hQ

/-- Every sequence of events of the loop of `Run` returns, from a state of
that loop and while the fence clock has not wrapped, when the writes of
`Update` return on buffers that satisfy `Q` and keep `Q`. -/
theorem run_total {I B S : Type} {upd : I → S → B → Option (S × B)} (Q : S → B → Prop)
    (hupd : ∀ input sc b, Q sc b →
      ∃ sc1 b1, upd input sc b = some (sc1, b1) ∧ Q sc1 b1 ∧ ∀ b2, Q sc b2 → Q sc1 b2)
    (es : List (Event I)) {p : Bool} {a : D3DApp B S} (h : LoopInv p a)
    (hl : frameLoop p es = true)
    (hw : a.mCurrentFence + es.countP Event.ticks < UINT64_SIZE)
    (i : Nat) (hidx : a.mCurrFrameResourceIndex = (i : Int))
    (hQ : ∀ fr ∈ a.mFrameResources, Q a.scene fr.buffers) :
    ∃ a2, run upd es a = some a2 := by
  induction es generalizing a p i with
  | nil => exact ⟨a, rfl⟩
  | cons e es ih =>
    obtain ⟨a1, hs, ⟨i1, hi1⟩, hQ1⟩ := step_total Q hupd h hl i hidx hQ
    have hf := step_fence hs
    rw [List.countP_cons] at hw
    have hw1 : e.ticks = true → a.mCurrentFence + 1 < UINT64_SIZE := by
      intro ht
      simp only [ht, if_true] at hw
      omega
    obtain ⟨hinv1, hl1⟩ := loopInv_step h hl hw1 hs
    have hw2 : a1.mCurrentFence + es.countP Event.ticks < UINT64_SIZE := by
      by_cases ht : e.ticks = true
      · simp only [ht, if_true] at hw hf
        rw [mod_of_nowrap (hw1 ht)] at hf
        rw [hf]
        omega
      · simp only [ht] at hw hf
        rw [hf]
        simpa using hw
    obtain ⟨a2, h2⟩ := ih hinv1 hl1 hw2 i1 hi1 hQ1
    exact ⟨a2, by simp only [run, hs, Option.some_bind, h2]⟩

/-- The loop of `Run` from the start. -/
theorem run_init_total {I B S : Type} {upd : I → S → B → Option (S × B)} (Q : S → B → Prop)
    (hupd : ∀ input sc b, Q sc b →
      ∃ sc1 b1, upd input sc b = some (sc1, b1) ∧ Q sc1 b1 ∧ ∀ b2, Q sc b2 → Q sc1 b2)
    (es : List (Event I)) (b : B) (sc : S) (hl : frameLoop false es = true)
    (hw : es.countP Event.ticks < UINT64_SIZE) (hQ : Q sc b) :
    ∃ a2, run upd es (init b sc) = some a2 := by
  refine run_total Q hupd es (loopInv_init b sc) hl (by simpa [Luna.init] using hw) 0 rfl ?_
  intro fr hfr
  have := (List.mem_replicate.1 hfr).2
  rw [this]
  exact hQ

namespace LitColumns

theorem updateCBs_total {F : Type} (input : Unit) (sc : Scene F) (b : Buffers F)
    (hq : (∀ i ∈ sc.mAllRitems.map (fun e => e.ObjCBIndex), i < b.ObjectCB.data.length) ∧
      ∀ i ∈ sc.mMaterials.map (fun mat => mat.MatCBIndex), i < b.MaterialCB.data.length) :
    ∃ sc1 b1, updateCBs input sc b = some (sc1, b1) ∧
      ((∀ i ∈ sc1.mAllRitems.map (fun e => e.ObjCBIndex), i < b1.ObjectCB.data.length) ∧
        ∀ i ∈ sc1.mMaterials.map (fun mat => mat.MatCBIndex), i < b1.MaterialCB.data.length) ∧
      ∀ b2 : Buffers F,
        ((∀ i ∈ sc.mAllRitems.map (fun e => e.ObjCBIndex), i < b2.ObjectCB.data.length) ∧
          ∀ i ∈ sc.mMaterials.map (fun mat => mat.MatCBIndex), i < b2.MaterialCB.data.length) →
        ((∀ i ∈ sc1.mAllRitems.map (fun e => e.ObjCBIndex), i < b2.ObjectCB.data.length) ∧
          ∀ i ∈ sc1.mMaterials.map (fun mat => mat.MatCBIndex),
            i < b2.MaterialCB.data.length) := by
  obtain ⟨ocb, items, ho, hol, hoi⟩ := dirtyLoop_total (objOps F) (objOps_lawful F)
    sc.mAllRitems b.ObjectCB (fun e he => hq.1 _ (List.mem_map_of_mem _ he))
  obtain ⟨mcb, mats, hm, hml, hmi⟩ := dirtyLoop_total (matOps F) (matCBOps_lawful F)
    sc.mMaterials b.MaterialCB (fun e he => hq.2 _ (List.mem_map_of_mem _ he))
  rw [← UpdateObjectCBs_eq] at ho
  rw [← UpdateMaterialCBs_eq] at hm
  have hoi2 : items.map (fun e => e.ObjCBIndex) = sc.mAllRitems.map (fun e => e.ObjCBIndex) :=
    hoi
  have hmi2 : mats.map (fun mat => mat.MatCBIndex)
      = sc.mMaterials.map (fun mat => mat.MatCBIndex) := hmi
  refine ⟨{ mAllRitems := items, mMaterials := mats }, { ObjectCB := ocb, MaterialCB := mcb },
    ?_, ?_, ?_⟩
  · simp only [updateCBs, ho, hm]
  · simp only [hoi2, hmi2, hol, hml]
    exact hq
  · intro b2 h2
    simp only [hoi2, hmi2]
    exact h2

end LitColumns

namespace Instancing

theorem UpdateInstanceData_instances {F Frustum Sphere : Type} (dx : DirectXMath F Frustum Sphere)
    (view : XMFLOAT4X4 F) (frustum : Frustum) (culling : Bool)
    (ritems : List (RenderItem F Sphere)) :
    (ritems.map fun ritem =>
        { ritem with VisibleInstanceCount := (survivors dx view frustum culling ritem).length }).map
      (fun ritem => ritem.Instances.length) = ritems.map (fun ritem => ritem.Instances.length) := by
  rw [List.map_map]
  rfl

theorem updateBuffers_total {F Frustum Sphere : Type} (dx : DirectXMath F Frustum Sphere)
    (input : Input F) (sc : Scene F Frustum Sphere) (b : Buffers F)
    (hq : (∀ n ∈ sc.mAllRitems.map (fun ritem => ritem.Instances.length),
        n ≤ b.InstanceBuffer.data.length) ∧
      ∀ i ∈ sc.mMaterials.map (fun mat => mat.MatCBIndex), i < b.MaterialBuffer.data.length) :
    ∃ sc1 b1, updateBuffers dx input sc b = some (sc1, b1) ∧
      ((∀ n ∈ sc1.mAllRitems.map (fun ritem => ritem.Instances.length),
          n ≤ b1.InstanceBuffer.data.length) ∧
        ∀ i ∈ sc1.mMaterials.map (fun mat => mat.MatCBIndex),
          i < b1.MaterialBuffer.data.length) ∧
      ∀ b2 : Buffers F,
        ((∀ n ∈ sc.mAllRitems.map (fun ritem => ritem.Instances.length),
            n ≤ b2.InstanceBuffer.data.length) ∧
          ∀ i ∈ sc.mMaterials.map (fun mat => mat.MatCBIndex),
            i < b2.MaterialBuffer.data.length) →
        ((∀ n ∈ sc1.mAllRitems.map (fun ritem => ritem.Instances.length),
            n ≤ b2.InstanceBuffer.data.length) ∧
          ∀ i ∈ sc1.mMaterials.map (fun mat => mat.MatCBIndex),
            i < b2.MaterialBuffer.data.length) := by
  obtain ⟨ibuf, hi, hil⟩ := UpdateInstanceData_spec dx input.view sc.mCamFrustum
    (cullingAfterKeys input.key1 input.key2 sc.mFrustumCullingEnabled) sc.mAllRitems
    b.InstanceBuffer (by
      intro ritem hr
      exact le_trans (List.length_filter_le _ _) (hq.1 _ (List.mem_map_of_mem _ hr)))
  obtain ⟨mbuf, mats, hm, hml, hmi⟩ := dirtyLoop_total (matOps F) (matBufferOps_lawful F)
    sc.mMaterials b.MaterialBuffer (fun e he => hq.2 _ (List.mem_map_of_mem _ he))
  rw [← UpdateMaterialBuffer_eq] at hm
  have hmi2 : mats.map (fun mat => mat.MatCBIndex)
      = sc.mMaterials.map (fun mat => mat.MatCBIndex) := hmi
  refine ⟨{ sc with
      mAllRitems := sc.mAllRitems.map fun ritem =>
        { ritem with VisibleInstanceCount :=
            (survivors dx input.view sc.mCamFrustum
              (cullingAfterKeys input.key1 input.key2 sc.mFrustumCullingEnabled) ritem).length }
      mMaterials := mats
      mFrustumCullingEnabled :=
        cullingAfterKeys input.key1 input.key2 sc.mFrustumCullingEnabled },
    { InstanceBuffer := ibuf, MaterialBuffer := mbuf }, ?_, ?_, ?_⟩
  · simp only [updateBuffers, hi, hm]
  · simp only [UpdateInstanceData_instances, hmi2, hil, hml]
    exact hq
  · intro b2 h2
    simp only [UpdateInstanceData_instances, hmi2]
    exact h2

end Instancing

/-- C8 (dirty counters). For the object and material loops of `LitColumnsApp`
and the material loop of `InstancingAndCullingApp`: an element with an index
of its own and `NumFramesDirty = n`, `0 ≤ n ≤ gNumFrameResources`, has after
`k` calls of `Update` the counter `n - min k n`, which is never negative and
is 0 from `k = n` on; its buffer element has been copied exactly once in each
of the slots the first `min k n` of those calls selected, and nowhere else.
And the calls do return: from the start, every sequence of events of the
loop of `Run` returns in both samples while the fence clock has not wrapped,
when the buffers of a slot have an element for every index of the scene
(and, in `InstancingAndCullingApp`, room for the instances of every item). -/
theorem dirty_counter_contract {F Frustum Sphere : Type} (dx : DirectXMath F Frustum Sphere) :
    (∀ (es : List (Event Unit)) (a a2 : D3DApp (LitColumns.Buffers F) (LitColumns.Scene F))
        (i n p : Nat) (e : LitColumns.RenderItem F),
      run LitColumns.updateCBs es a = some a2 →
      i < gNumFrameResources → a.mCurrFrameResourceIndex = (i : Int) →
      a.scene.mAllRitems[p]? = some e →
      n ≤ gNumFrameResources → e.NumFramesDirty = (n : Int) →
      (a.scene.mAllRitems.map fun x => x.ObjCBIndex).Nodup →
      a2.scene.mAllRitems[p]? = some
        { e with NumFramesDirty := ((n - min (es.countP Event.isUpdate) n : Nat) : Int) } ∧
      ∀ j < gNumFrameResources, ∀ fr, a.mFrameResources[j]? = some fr →
        ∃ fr2, a2.mFrameResources[j]? = some fr2 ∧
          fr2.buffers.ObjectCB.copies.count e.ObjCBIndex
            = fr.buffers.ObjectCB.copies.count e.ObjCBIndex +
              (if refreshed i (min (es.countP Event.isUpdate) n) j then 1 else 0)) ∧
    (∀ (es : List (Event Unit)) (a a2 : D3DApp (LitColumns.Buffers F) (LitColumns.Scene F))
        (i n p : Nat) (mat : Material F),
      run LitColumns.updateCBs es a = some a2 →
      i < gNumFrameResources → a.mCurrFrameResourceIndex = (i : Int) →
      a.scene.mMaterials[p]? = some mat →
      n ≤ gNumFrameResources → mat.NumFramesDirty = (n : Int) →
      (a.scene.mMaterials.map fun x => x.MatCBIndex).Nodup →
      a2.scene.mMaterials[p]? = some
        { mat with NumFramesDirty := ((n - min (es.countP Event.isUpdate) n : Nat) : Int) } ∧
      ∀ j < gNumFrameResources, ∀ fr, a.mFrameResources[j]? = some fr →
        ∃ fr2, a2.mFrameResources[j]? = some fr2 ∧
          fr2.buffers.MaterialCB.copies.count mat.MatCBIndex
            = fr.buffers.MaterialCB.copies.count mat.MatCBIndex +
              (if refreshed i (min (es.countP Event.isUpdate) n) j then 1 else 0)) ∧
    (∀ (es : List (Event (Instancing.Input F)))
        (a a2 : D3DApp (Instancing.Buffers F) (Instancing.Scene F Frustum Sphere))
        (i n p : Nat) (mat : Material F),
      run (Instancing.updateBuffers dx) es a = some a2 →
      i < gNumFrameResources → a.mCurrFrameResourceIndex = (i : Int) →
      a.scene.mMaterials[p]? = some mat →
      n ≤ gNumFrameResources → mat.NumFramesDirty = (n : Int) →
      (a.scene.mMaterials.map fun x => x.MatCBIndex).Nodup →
      a2.scene.mMaterials[p]? = some
        { mat with NumFramesDirty := ((n - min (es.countP Event.isUpdate) n : Nat) : Int) } ∧
      ∀ j < gNumFrameResources, ∀ fr, a.mFrameResources[j]? = some fr →
        ∃ fr2, a2.mFrameResources[j]? = some fr2 ∧
          fr2.buffers.MaterialBuffer.copies.count mat.MatCBIndex
            = fr.buffers.MaterialBuffer.copies.count mat.MatCBIndex +
              (if refreshed i (min (es.countP Event.isUpdate) n) j then 1 else 0)) ∧
    (∀ (es : List (Event Unit)) (b : LitColumns.Buffers F) (sc : LitColumns.Scene F),
      frameLoop false es = true → es.countP Event.ticks < UINT64_SIZE →
      (∀ e ∈ sc.mAllRitems, e.ObjCBIndex < b.ObjectCB.data.length) →
      (∀ mat ∈ sc.mMaterials, mat.MatCBIndex < b.MaterialCB.data.length) →
      ∃ a2, run LitColumns.updateCBs es (init b sc) = some a2) ∧
    (∀ (es : List (Event (Instancing.Input F))) (b : Instancing.Buffers F)
        (sc : Instancing.Scene F Frustum Sphere),
      frameLoop false es = true → es.countP Event.ticks < UINT64_SIZE →
      (∀ ritem ∈ sc.mAllRitems, ritem.Instances.length ≤ b.InstanceBuffer.data.length) →
      (∀ mat ∈ sc.mMaterials, mat.MatCBIndex < b.MaterialBuffer.data.length) →
      ∃ a2, run (Instancing.updateBuffers dx) es (init b sc) = some a2) := by
  refine ⟨?_, ?_, ?_, ?_, ?_⟩
  · intro es a a2 i n p e hr hi hidx he hn hd hnd
    obtain ⟨h1, h2⟩ := dirty_contract (LitColumns.objOps F) (LitColumns.objOps_lawful F)
      (fun sc : LitColumns.Scene F => sc.mAllRitems)
      (fun b : LitColumns.Buffers F => b.ObjectCB)
      (fun _ _ _ _ _ h => (LitColumns.updateCBs_spec h).1) hr i n p e hi hidx he hn hd hnd
    rw [LitColumns.objOps_iterate, dirty_after n _ _ hd] at h1
    refine ⟨h1, ?_⟩
    intro j hj fr hfr
    obtain ⟨fr2, hfr2, h3, -⟩ := h2 j hj fr hfr
    exact ⟨fr2, hfr2, h3⟩
  · intro es a a2 i n p e hr hi hidx he hn hd hnd
    obtain ⟨h1, h2⟩ := dirty_contract (LitColumns.matOps F) (LitColumns.matCBOps_lawful F)
      (fun sc : LitColumns.Scene F => sc.mMaterials)
      (fun b : LitColumns.Buffers F => b.MaterialCB)
      (fun _ _ _ _ _ h => (LitColumns.updateCBs_spec h).2) hr i n p e hi hidx he hn hd hnd
    rw [LitColumns.matCBOps_iterate, dirty_after n _ _ hd] at h1
    refine ⟨h1, ?_⟩
    intro j hj fr hfr
    obtain ⟨fr2, hfr2, h3, -⟩ := h2 j hj fr hfr
    exact ⟨fr2, hfr2, h3⟩
  · intro es a a2 i n p e hr hi hidx he hn hd hnd
    obtain ⟨h1, h2⟩ := dirty_contract (Instancing.matOps F) (Instancing.matBufferOps_lawful F)
      (fun sc : Instancing.Scene F Frustum Sphere => sc.mMaterials)
      (fun b : Instancing.Buffers F => b.MaterialBuffer)
      (fun _ _ _ _ _ h => Instancing.updateBuffers_spec h) hr i n p e hi hidx he hn hd hnd
    rw [Instancing.matBufferOps_iterate, dirty_after n _ _ hd] at h1
    refine ⟨h1, ?_⟩
    intro j hj fr hfr
    obtain ⟨fr2, hfr2, h3, -⟩ := h2 j hj fr hfr
    exact ⟨fr2, hfr2, h3⟩
  · intro es b sc hl hw h1 h2
    refine run_init_total
      (fun (sc : LitColumns.Scene F) (b : LitColumns.Buffers F) =>
        (∀ i ∈ sc.mAllRitems.map (fun e => e.ObjCBIndex), i < b.ObjectCB.data.length) ∧
        ∀ i ∈ sc.mMaterials.map (fun mat => mat.MatCBIndex), i < b.MaterialCB.data.length)
      LitColumns.updateCBs_total es b sc hl hw ⟨?_, ?_⟩
    · intro i hi
      obtain ⟨e, he, rfl⟩ := List.mem_map.1 hi
      exact h1 e he
    · intro i hi
      obtain ⟨e, he, rfl⟩ := List.mem_map.1 hi
      exact h2 e he
  · intro es b sc hl hw h1 h2
    refine run_init_total
      (fun (sc : Instancing.Scene F Frustum Sphere) (b : Instancing.Buffers F) =>
        (∀ n ∈ sc.mAllRitems.map (fun ritem => ritem.Instances.length),
          n ≤ b.InstanceBuffer.data.length) ∧
        ∀ i ∈ sc.mMaterials.map (fun mat => mat.MatCBIndex), i < b.MaterialBuffer.data.length)
      (Instancing.updateBuffers_total dx) es b sc hl hw ⟨?_, ?_⟩
    · intro i hi
      obtain ⟨e, he, rfl⟩ := List.mem_map.1 hi
      exact h1 e he
    · intro i hi
      obtain ⟨e, he, rfl⟩ := List.mem_map.1 hi
      exact h2 e he

theorem dirty_counter_contract_witness :
    (∃ a2, run LitColumns.updateCBs (demoEvents ()) (init LitColumns.demoBuffers LitColumns.demoScene)
        = some a2 ∧
      a2.scene.mAllRitems[1]? = some
        { World := translation (-5) 1 0, TexTransform := translation 0 0 0
          NumFramesDirty := ((3 - min ((demoEvents ()).countP Event.isUpdate) 3 : Nat) : Int)
          ObjCBIndex := 1 } ∧
      ∀ j < gNumFrameResources, ∀ fr,
        (init LitColumns.demoBuffers LitColumns.demoScene).mFrameResources[j]? = some fr →
        ∃ fr2, a2.mFrameResources[j]? = some fr2 ∧
          fr2.buffers.ObjectCB.copies.count 1
            = fr.buffers.ObjectCB.copies.count 1 +
              (if refreshed 0 (min ((demoEvents ()).countP Event.isUpdate) 3) j then 1 else 0)) ∧
    (∃ a2, run LitColumns.updateCBs (demoEvents ()) (init LitColumns.demoBuffers LitColumns.demoScene)
        = some a2 ∧
      a2.scene.mMaterials[1]? = some
        { demoMaterial 1 with
          NumFramesDirty := ((3 - min ((demoEvents ()).countP Event.isUpdate) 3 : Nat) : Int) }) ∧
    (∃ a2, run (Instancing.updateBuffers Instancing.demoDX) (demoEvents Instancing.demoInput)
        (init Instancing.demoBuffers Instancing.demoScene) = some a2 ∧
      a2.scene.mMaterials[1]? = some
        { demoMaterial 1 with
          NumFramesDirty := ((3 - min ((demoEvents Instancing.demoInput).countP Event.isUpdate) 3
            : Nat) : Int) } ∧
      ∀ j < gNumFrameResources, ∀ fr,
        (init Instancing.demoBuffers Instancing.demoScene).mFrameResources[j]? = some fr →
        ∃ fr2, a2.mFrameResources[j]? = some fr2 ∧
          fr2.buffers.MaterialBuffer.copies.count 1
            = fr.buffers.MaterialBuffer.copies.count 1 +
              (if refreshed 0 (min ((demoEvents Instancing.demoInput).countP Event.isUpdate) 3) j
                then 1 else 0)) ∧
    (∃ a2, run LitColumns.updateCBs (demoEvents ())
        (init LitColumns.demoBuffers LitColumns.demoScene) = some a2) ∧
    (∃ a2, run (Instancing.updateBuffers Instancing.demoDX) (demoEvents Instancing.demoInput)
        (init Instancing.demoBuffers Instancing.demoScene) = some a2) :=
  ⟨⟨(run LitColumns.updateCBs (demoEvents ())
      (init LitColumns.demoBuffers LitColumns.demoScene)).get (by decide),
    (Option.some_get _).symm,
    (dirty_counter_contract Instancing.demoDX).1 (demoEvents ())
      (init LitColumns.demoBuffers LitColumns.demoScene) _ 0 3 1
      { World := translation (-5) 1 0, TexTransform := translation 0 0 0
        NumFramesDirty := 3, ObjCBIndex := 1 }
      (Option.some_get _).symm (by decide) rfl rfl (by decide) rfl (by decide)⟩,
   ⟨(run LitColumns.updateCBs (demoEvents ())
      (init LitColumns.demoBuffers LitColumns.demoScene)).get (by decide),
    (Option.some_get _).symm,
    ((dirty_counter_contract Instancing.demoDX).2.1 (demoEvents ())
      (init LitColumns.demoBuffers LitColumns.demoScene) _ 0 3 1 (demoMaterial 1)
      (Option.some_get _).symm (by decide) rfl rfl (by decide) rfl (by decide)).1⟩,
   ⟨(run (Instancing.updateBuffers Instancing.demoDX) (demoEvents Instancing.demoInput)
      (init Instancing.demoBuffers Instancing.demoScene)).get (by decide),
    (Option.some_get _).symm,
    (dirty_counter_contract Instancing.demoDX).2.2.1 (demoEvents Instancing.demoInput)
      (init Instancing.demoBuffers Instancing.demoScene) _ 0 3 1 (demoMaterial 1)
      (Option.some_get _).symm (by decide) rfl rfl (by decide) rfl (by decide)⟩,
   (dirty_counter_contract Instancing.demoDX).2.2.2.1 (demoEvents ())
      LitColumns.demoBuffers LitColumns.demoScene (by decide) (by decide) (by decide)
      (by decide),
   (dirty_counter_contract Instancing.demoDX).2.2.2.2 (demoEvents Instancing.demoInput)
      Instancing.demoBuffers Instancing.demoScene (by decide) (by decide) (by decide)
      (by decide)⟩

/-! ## `CalcGaussWeights` in `float` arithmetic -/

namespace BlurFilter

end BlurFilter

/-! ## `CalcGaussWeights` and the radius, `Execute` on the back buffer -/

namespace BlurFilter

/-- With a `MaxBlurRadius` of at least 5, `Execute` returns: three root
constant commands for the kernel of `CalcGaussWeights(2.5f)`, then the
commands of `blurCommands`. -/
theorem Execute_returns {F : Type} [LinearOrderedField F] [FloorRing F]
    (expf : F → F) (MaxBlurRadius : Int) (h5 : 5 ≤ MaxBlurRadius)
    (hmax : MaxBlurRadius ≤ INT_MAX) (mWidth mHeight : Nat) (input : Resource)
    (blurCount : Int) :
    ∃ kernel : List F, Execute expf MaxBlurRadius mWidth mHeight input blurCount
      = .ok (.SetComputeRootSignature
          :: .SetComputeRoot32BitConstants 0 [.int ((kernel.length : Int).tdiv 2)] 0
          :: .SetComputeRoot32BitConstants 0 (kernel.map .float) 1
          :: blurCommands mWidth mHeight input blurCount) := by
  obtain ⟨kernel, hok⟩ : ∃ kernel, CalcGaussWeights expf MaxBlurRadius (5 / 2) = .ok kernel :=
    ⟨_, CalcGaussWeights_ok expf MaxBlurRadius hmax (5 / 2) (by rw [ceil_two_sigma]; decide)
      (by rw [ceil_two_sigma]; exact h5)⟩
  refine ⟨kernel, ?_⟩
  unfold Execute
  rw [hok]

end BlurFilter

/-- What `BlurFilter::Execute` records when its input is the back buffer
makes transition pairing impossible: it holds the barrier
`RENDER_TARGET -> COPY_SOURCE` on the back buffer, so no command list that
contains these commands has only the two barriers of the pairing. -/
theorem execute_on_back_buffer_unpaired {F : Type} (mWidth mHeight : Nat) (index : Nat)
    (blurCount : Int) (first last : List (Command F)) :
    ¬ TransitionPairing (.swapChainBuffer index)
      (first ++ BlurFilter.blurCommands mWidth mHeight (.swapChainBuffer index) blurCount
        ++ last) := by
  intro h
  have hb := h.barriers
  rw [barriersOn_append, barriersOn_append,
    BlurFilter.blurCommands_input mWidth mHeight (.swapChainBuffer index)
      (by intro e; cases e) (by intro e; cases e) blurCount] at hb
  have hmem : (D3D12_RESOURCE_STATE_RENDER_TARGET, D3D12_RESOURCE_STATE_COPY_SOURCE)
      ∈ [(D3D12_RESOURCE_STATE_PRESENT, D3D12_RESOURCE_STATE_RENDER_TARGET),
         (D3D12_RESOURCE_STATE_RENDER_TARGET, D3D12_RESOURCE_STATE_PRESENT)] := by
    rw [← hb]
    simp
  revert hmem
  decide

/-- C18, as stated, fails for a sample whose `Draw` blurs the back buffer:
`BlurFilter::Execute` with the back buffer as input records the barrier
`RENDER_TARGET -> COPY_SOURCE` on it, so whatever `Draw` records before and
after, the barriers on the back buffer are not just the pair
`PRESENT -> RENDER_TARGET`, `RENDER_TARGET -> PRESENT`. -/
theorem blur_back_buffer_counterexample :
    ∃ cmds : List (Command ℚ),
      BlurFilter.Execute demoExp 5 1280 720 (.swapChainBuffer 0) 4 = .ok cmds ∧
      barriersOn (.swapChainBuffer 0) cmds
        = [(D3D12_RESOURCE_STATE_RENDER_TARGET, D3D12_RESOURCE_STATE_COPY_SOURCE)] ∧
      ∀ first last : List (Command ℚ),
        ¬ TransitionPairing (.swapChainBuffer 0) (first ++ cmds ++ last) := by
  obtain ⟨kernel, hex⟩ := BlurFilter.Execute_returns demoExp 5 (le_refl _) (by decide)
    1280 720 (.swapChainBuffer 0) 4
  refine ⟨_, hex, ?_, ?_⟩
  · show barriersOn (.swapChainBuffer 0)
      (BlurFilter.blurCommands 1280 720 (.swapChainBuffer 0) 4) = _
    exact BlurFilter.blurCommands_input 1280 720 (.swapChainBuffer 0)
      (by decide) (by decide) 4
  · intro first last
    have h := execute_on_back_buffer_unpaired 1280 720 0 4
      (first ++ [.SetComputeRootSignature,
        .SetComputeRoot32BitConstants 0 [.int ((kernel.length : Int).tdiv 2)] 0,
        .SetComputeRoot32BitConstants 0 (kernel.map .float) 1]) last
    simpa [List.append_assoc] using h

end Luna
